import Mathlib

/-!
# METAR token decoder (`src/metar.c`, `src/metar.h`)

A shallow embedding of the decoder of `metar.c`: the two abbreviation
dictionaries, the dictionary lookups, the phenomenon pattern builder, the
field recognizers of `analyse_token` and the driver `parse_Metar`.

Modelling conventions
* C strings and tokens are `List Char`; `char x[N]` fields of `metar_t` are
  lists holding the N bytes of the buffer, and `cstr` reads a buffer as a
  C string (up to its first NUL byte, or to the end of the buffer).
* `int` fields are `Int`; `sscanf("%d")` converts as the C library of the
  build does (glibc, LP64): the digits are converted to a `long`, which
  saturates at `LONG_MAX` (`strtol`), and the `long` is stored into the `int`,
  wrapped to 32 bits (`INT_wrap`); ISO C leaves the conversion of an
  out-of-range number undefined.
* the linked lists of clouds and phenomena are `List`s, appended at the tail.
* each POSIX pattern handed to `regcomp` is embedded as a matcher returning
  the texts of its capture groups (`none` when `regexec` reports no match,
  the empty text for a group that took part in no match).
* the scratch buffer `tmp` has 99 bytes; a group of 99 bytes or more fills it
  without a terminating NUL, and the bytes behind the buffer are taken as NUL.
* heap strings (`amount`, `layer_modifier`, the phenomenon texts) are modelled
  by their text only. The block of a phenomenon text has 99 bytes; a text of
  99 characters or more does not fit it with its terminator, and the model
  keeps the characters that `strncat` lets through (the first 99).
-/

namespace Metar

/-! ## Bytes, buffers and libc helpers -/

/-- The NUL byte. -/
def NUL : Char := Char.ofNat 0

/-- The bracket expression `[0-9]` (C locale). -/
def isDigit (c : Char) : Bool := decide (48 ≤ c.toNat ∧ c.toNat ≤ 57)

/-- The bracket expression `[A-Z]` (C locale). -/
def isUpper (c : Char) : Bool := decide (65 ≤ c.toNat ∧ c.toNat ≤ 90)

/-- A buffer of `n` bytes after `memset(buf, 0x0, n)`. -/
def zeros (n : Nat) : List Char := List.replicate n NUL

/-- The C string held by a buffer: the bytes before the first NUL. A buffer
without NUL is read up to its end (what lies behind it is not modelled). -/
def cstr (buf : List Char) : List Char := buf.takeWhile (fun c => c != NUL)

/-- Library call `memcpy(dst, src, n)`: the first `n` bytes of `dst` are replaced by those
of `src` (every call of the decoder has `n` at most the length of `src`). -/
def memcpy (dst src : List Char) (n : Nat) : List Char := src.take n ++ dst.drop n

/-- Library call `strncpy(dst, src, n)`: exactly `n` bytes are written, the text of `src`
padded with NUL bytes when it is shorter than `n`. -/
def strncpy (dst src : List Char) (n : Nat) : List Char :=
  (src.take n ++ zeros (n - src.length)) ++ dst.drop n

/-- Test `strncmp(a, b, n) == 0` for C strings `a`, `b`. -/
def strncmp_eq (a b : List Char) (n : Nat) : Bool := a.take n == b.take n

/-- Test `strstr(hay, needle) != NULL`. -/
def strstr : List Char → List Char → Bool
  | [], needle => needle.isEmpty
  | h :: t, needle => needle.isPrefixOf (h :: t) || strstr t needle

/-- Library call `strncat(dst, src, n)` on the text of `dst`: at most `n` characters of
`src` are appended. -/
def strncat (dst src : List Char) (n : Nat) : List Char := dst ++ src.take n

/-- Value of a decimal digit. -/
def digitVal (c : Char) : Nat := c.toNat - 48

/-- Value of a string of decimal digits. -/
def decimal (ds : List Char) : Nat := ds.foldl (fun a c => 10 * a + digitVal c) 0

/-- Storing a number into a 32-bit `int` (two's complement wrap). -/
def INT_wrap (z : Int) : Int := (z + 2147483648) % 4294967296 - 2147483648

/-- Largest value of a `long` (LP64). -/
def LONG_MAX : Nat := 9223372036854775807

/-- Library call `strtol` on a string of decimal digits, by which `sscanf` converts for
`%d`: the value of the digits, or `LONG_MAX` when that does not fit a `long`. -/
def strtol (ds : List Char) : Nat := min (decimal ds) LONG_MAX

/-- Library call `sscanf(s, "%d", &x)` for the strings the decoder hands to it (they start
with a digit or are empty): the leading digits are converted to a `long` and
the `long` is stored into the `int`; when there is no digit nothing is stored
and `x` keeps its value `old`. -/
def sscanf_d (s : List Char) (old : Int) : Int :=
  let ds := s.takeWhile isDigit
  if ds.isEmpty then old else INT_wrap (strtol ds)

/-- Size of the scratch buffer `tmp` of `analyse_token`. -/
def TMP_SIZE : Nat := 99

/-- The idiom `memset(tmp, 0x0, TMP_SIZE); memcpy(tmp, group, match_size <
TMP_SIZE ? match_size : TMP_SIZE)` followed by reading `tmp` as a C string. -/
def tmp_of (group : List Char) : List Char :=
  cstr (memcpy (zeros TMP_SIZE) group (if group.length < TMP_SIZE then group.length else TMP_SIZE))

/-! ## Data model (`metar.h`) -/

def PRINT_BASE : Int := 1
def DONT_PRINT_BASE : Int := 0
def NOT_APPLICABLE : Int := -1
def MAINTENANCE_NOT_NEEDED : Int := 0
def MAINTENANCE_NEEDED : Int := 1

/-- The struct `cloud_t`. -/
structure cloud_t where
  amount : List Char
  layer_altitude : Int
  print_altitude : Int
  layer_modifier : List Char
  deriving DecidableEq

/-- The struct `metar_t`; `clouds` and `phenomena` are the two linked lists. -/
structure metar_t where
  station : List Char
  day : Int
  time : Int
  winddir : Int
  windstr : Int
  windgust : Int
  windunit : List Char
  vis : Int
  visunit : List Char
  qnh : Int
  qnhunit : List Char
  qnhfp : Int
  temp : Int
  dewp : Int
  maintenance_needed : Int
  clouds : List cloud_t
  phenomena : List (List Char)
  deriving DecidableEq

/-- The record after `memset(metar, 0x0, sizeof(metar_t))`. -/
def metar_cleared : metar_t :=
  { station := zeros 10, day := 0, time := 0, winddir := 0, windstr := 0, windgust := 0,
    windunit := zeros 5, vis := 0, visunit := zeros 5, qnh := 0, qnhunit := zeros 5,
    qnhfp := 0, temp := 0, dewp := 0, maintenance_needed := 0, clouds := [],
    phenomena := [] }

/-! ## Dictionaries -/

/-- The struct `cloud_dict_entry`. -/
structure cloud_dict_entry where
  abbreviation : List Char
  description : List Char
  print_altitude : Int
  deriving DecidableEq

/-- The table `cloud_dict`. -/
def cloud_dict : List cloud_dict_entry :=
  [ ⟨"SKC".toList, "Sky Clear (no clouds within sensors range)".toList, DONT_PRINT_BASE⟩,
    ⟨"CLR".toList, "Sky Clear Below 12000ft".toList, DONT_PRINT_BASE⟩,
    ⟨"NSC".toList, "No Significant Clouds below 5000ft/1500m AGL".toList, DONT_PRINT_BASE⟩,
    ⟨"NCD".toList, "No Clouds Detected below 5000ft/1500m AGL".toList, DONT_PRINT_BASE⟩,
    ⟨"FEW".toList, "Few clouds".toList, PRINT_BASE⟩,
    ⟨"SCT".toList, "Scattered clouds".toList, PRINT_BASE⟩,
    ⟨"BKN".toList, "Broken clouds".toList, PRINT_BASE⟩,
    ⟨"OVC".toList, "Overcast".toList, PRINT_BASE⟩,
    ⟨"VV".toList, "Vertical Visibility".toList, PRINT_BASE⟩,
    ⟨"TCU".toList, ", Towering Cumulus clouds in vicinity".toList, NOT_APPLICABLE⟩,
    ⟨"CU".toList, ", Cumulus clouds in vicinity".toList, NOT_APPLICABLE⟩,
    ⟨"CB".toList, ", Cumulonimbus clouds in vicinity".toList, NOT_APPLICABLE⟩,
    ⟨"CBMAM".toList, ", Cumulonimbus Mammatus in vicinity (expect turbulent air)".toList,
      NOT_APPLICABLE⟩,
    ⟨"ACC".toList,
      ", Altocumulus Castellatus (medium layer_altitude, vigorous instability)".toList,
      NOT_APPLICABLE⟩,
    ⟨"CLD".toList, ", Standing lenticular or rotor clouds".toList, NOT_APPLICABLE⟩ ]

def LONGEST_CLOUD_DICT_KEY : Nat := 5

/-- The struct `phenomenon`. -/
structure phenomenon_t where
  code : List Char
  description : List Char
  deriving DecidableEq

/-- The table `phenomena`. -/
def phenomena : List phenomenon_t :=
  [ ⟨"MI".toList, "Shallow ".toList⟩, ⟨"BL".toList, "Blowing ".toList⟩,
    ⟨"BC".toList, "Patches ".toList⟩, ⟨"SH".toList, "Showers ".toList⟩,
    ⟨"PR".toList, "Partials ".toList⟩, ⟨"DR".toList, "Drifting ".toList⟩,
    ⟨"TS".toList, "Thunderstorm ".toList⟩, ⟨"FZ".toList, "Freezing ".toList⟩,
    ⟨"DZ".toList, "Drizzle ".toList⟩, ⟨"IC".toList, "Ice Crystals ".toList⟩,
    ⟨"UP".toList, "Unknown Precipitation ".toList⟩, ⟨"RA".toList, "Rain ".toList⟩,
    ⟨"PL".toList, "Ice Pellets ".toList⟩, ⟨"SN".toList, "Snow ".toList⟩,
    ⟨"GR".toList, "Hail ".toList⟩, ⟨"SG".toList, "Snow Grains ".toList⟩,
    ⟨"GS".toList, "Small hail/snow pellets ".toList⟩, ⟨"BR".toList, "Mist ".toList⟩,
    ⟨"SA".toList, "Sand ".toList⟩, ⟨"FU".toList, "Smoke ".toList⟩,
    ⟨"HZ".toList, "Haze ".toList⟩, ⟨"FG".toList, "Fog ".toList⟩,
    ⟨"VA".toList, "Volcanic Ash ".toList⟩, ⟨"PY".toList, "Spray ".toList⟩,
    ⟨"DU".toList, "Widespread Dust ".toList⟩, ⟨"SQ".toList, "Squall ".toList⟩,
    ⟨"FC".toList, "Funnel Cloud ".toList⟩, ⟨"SS".toList, "Sand storm ".toList⟩,
    ⟨"DS".toList, "Dust storm ".toList⟩,
    ⟨"PO".toList, "Well developed dust/sand swirls ".toList⟩,
    ⟨"VC".toList, "Vicinity ".toList⟩ ]

/-! ## List builders and dictionary lookups -/

/-- The function `add_cloud`: walk to the tail of the list and link a new node. -/
def add_cloud : List cloud_t → cloud_t → List cloud_t
  | [], cloud => [cloud]
  | c :: rest, cloud => c :: add_cloud rest cloud

/-- The function `add_phenomenon`: walk to the tail of the list and link a new node. -/
def add_phenomenon : List (List Char) → List Char → List (List Char)
  | [], p => [p]
  | q :: rest, p => q :: add_phenomenon rest p

/-- The function `decode_cloud_abbreviation`: the first entry of `cloud_dict`
that agrees with `pattern` over the shorter of (pattern length capped at
`LONGEST_CLOUD_DICT_KEY`) and the key length; `none` is the NULL result. -/
def decode_cloud_abbreviation (pattern : List Char) : Option cloud_dict_entry :=
  let pattern_length := min pattern.length LONGEST_CLOUD_DICT_KEY
  cloud_dict.find? (fun e =>
    let key_length := e.abbreviation.length
    let search_length := if key_length ≥ pattern_length then pattern_length else key_length
    strncmp_eq pattern e.abbreviation search_length)

/-- The function `decode_phenomena`: the description of the first entry whose
code equals the first two characters of `pattern`; `none` is the NULL result. -/
def decode_phenomena (pattern : List Char) : Option (List Char) :=
  (phenomena.find? (fun p => strncmp_eq pattern p.code 2)).map (fun p => p.description)

/-! ## The patterns of `analyse_token` -/

/-- Pattern `^([A-Z]+)$`; the result is group 1. -/
def re_station (t : List Char) : Option (List Char) :=
  if !t.isEmpty && t.all isUpper then some t else none

/-- Pattern `^([0-9]{2})([0-9]{4})Z$`; the result is groups 1 and 2. -/
def re_daytime (t : List Char) : Option (List Char × List Char) :=
  match t with
  | [a, b, c, d, e, f, z] =>
    if isDigit a && isDigit b && isDigit c && isDigit d && isDigit e && isDigit f
        && z == 'Z' then
      some ([a, b], [c, d, e, f])
    else none
  | _ => none

/-- Pattern `^(VRB|[0-9]{3})([0-9]{2})(G[0-9]+)?(KT)$`; the result is groups
1 to 4, group 3 (with its leading `G`) empty when the gust part is absent. -/
def re_wind (t : List Char) : Option (List Char × List Char × List Char × List Char) :=
  match t with
  | a :: b :: c :: d :: e :: rest =>
    if ([a, b, c] == "VRB".toList || (isDigit a && isDigit b && isDigit c))
        && isDigit d && isDigit e then
      match rest with
      | g :: r =>
        if g == 'G' && !(r.takeWhile isDigit).isEmpty then
          if r.dropWhile isDigit == "KT".toList then
            some ([a, b, c], [d, e], g :: r.takeWhile isDigit, "KT".toList)
          else none
        else if rest == "KT".toList then some ([a, b, c], [d, e], [], "KT".toList)
        else none
      | [] => none
    else none
  | _ => none

/-- Pattern `^([0-9]+)(SM)?$`; the result is groups 1 and 2. -/
def re_vis (t : List Char) : Option (List Char × List Char) :=
  let d := t.takeWhile isDigit
  let r := t.dropWhile isDigit
  if !d.isEmpty && (r.isEmpty || r == "SM".toList) then some (d, r) else none

/-- The optional `M` of the temperature pattern: the group `(M?)` and the rest. -/
def opt_M (t : List Char) : List Char × List Char :=
  match t with
  | c :: r => if c == 'M' then ([c], r) else ([], t)
  | [] => ([], [])

/-- Pattern `^(M?)([0-9]+)/(M?)([0-9]+)$`; the result is groups 1 to 4. -/
def re_temp (t : List Char) : Option (List Char × List Char × List Char × List Char) :=
  let m1 := (opt_M t).1
  let d1 := (opt_M t).2.takeWhile isDigit
  match (opt_M t).2.dropWhile isDigit with
  | s :: r =>
    let m2 := (opt_M r).1
    let d2 := (opt_M r).2.takeWhile isDigit
    if s == '/' && !d1.isEmpty && !d2.isEmpty && ((opt_M r).2.dropWhile isDigit).isEmpty then
      some (m1, d1, m2, d2)
    else none
  | [] => none

/-- Pattern `^([QA])([0-9]+)$`; the result is groups 1 and 2. -/
def re_qnh (t : List Char) : Option (List Char × List Char) :=
  match t with
  | c :: ds =>
    if (c == 'Q' || c == 'A') && !ds.isEmpty && ds.all isDigit then some ([c], ds) else none
  | [] => none

/-- The alternatives `SKC|CLR|NSC|NCD` of the cloud pattern. -/
def no_cloud_codes : List (List Char) :=
  ["SKC".toList, "CLR".toList, "NSC".toList, "NCD".toList]

/-- The alternatives `FEW|SCT|BKN|OVC|VV` of the cloud pattern. -/
def cover_codes : List (List Char) :=
  ["FEW".toList, "SCT".toList, "BKN".toList, "OVC".toList, "VV".toList]

/-- The alternatives `TCU|CU|CB|CBMAM|ACC|CLD` of the cloud pattern. -/
def modifier_codes : List (List Char) :=
  ["TCU".toList, "CU".toList, "CB".toList, "CBMAM".toList, "ACC".toList, "CLD".toList]

/-- Pattern
`^(SKC|CLR|NSC|NCD)$|^(FEW|SCT|BKN|OVC|VV)([0-9]{3})(TCU|CU|CB|CBMAM|ACC|CLD)?$`;
the result is groups 1 to 4. No cover code is a prefix of another one, so the
first cover code that starts the token is the only candidate for group 2. -/
def re_cloud (t : List Char) : Option (List Char × List Char × List Char × List Char) :=
  if no_cloud_codes.contains t then some (t, [], [], [])
  else
    match cover_codes.find? (fun c => c.isPrefixOf t) with
    | some c =>
      let h := (t.drop c.length).take 3
      let md := (t.drop c.length).drop 3
      if h.length == 3 && h.all isDigit && (md.isEmpty || modifier_codes.contains md) then
        some ([], c, h, md)
      else none
    | none => none

/-! ## The phenomenon pattern -/

def PHENOMENA_REGEX_SIZE : Nat := 275

/-- The function `build_phenomena_regex_patterns`, on the text held by the
buffer `pattern` (zeroed by the caller): `none` is the `exit(EXIT_FAILURE)` of
a too small `len`; otherwise the head is copied, every code is appended when
it fits before `max_chars_added`, a separator is appended when it fits
before `len`, the last character is removed and the tail is appended. -/
def build_phenomena_regex_patterns (len : Nat) : Option (List Char) :=
  let head := "^([+-]?)((".toList
  let tail := ")+)$".toList
  let max_chars_added : Int := (len : Int) - head.length - tail.length - 1
  if max_chars_added < 0 then none
  else
    let body := phenomena.foldl (fun pattern ph =>
      let pattern1 :=
        if ((pattern.length + ph.code.length : Nat) : Int) < max_chars_added then
          pattern ++ ph.code
        else pattern
      if pattern1.length < len then pattern1 ++ ['|'] else pattern1) head
    some (body.dropLast ++ tail)

/-- Split a text at every occurrence of the separator `sep`. -/
def split_on (sep : Char) : List Char → List (List Char)
  | [] => [[]]
  | c :: cs =>
    if c == sep then [] :: split_on sep cs
    else
      match split_on sep cs with
      | w :: ws => (c :: w) :: ws
      | [] => [[c]]

/-- What `regcomp` makes of a pattern of the shape `^([+-]?)((a1|...|an)+)$`:
the list of the alternatives `a1 ... an`; `none` for a text of another shape. -/
def regcomp_phenomena (pattern : List Char) : Option (List (List Char)) :=
  let head := "^([+-]?)((".toList
  let tail := ")+)$".toList
  if head.isPrefixOf pattern && tail.isSuffixOf (pattern.drop head.length) then
    some (split_on '|' ((pattern.drop head.length).take
      ((pattern.drop head.length).length - tail.length)))
  else none

/-- Whether `s` is a concatenation of non-empty alternatives; `fuel` bounds the
number of alternatives and the length of `s` is always enough. -/
def match_iter (alts : List (List Char)) : Nat → List Char → Bool
  | 0, s => s.isEmpty
  | fuel + 1, s =>
    s.isEmpty || alts.any (fun a => !a.isEmpty && a.isPrefixOf s && match_iter alts fuel (s.drop a.length))

/-- The group `([+-]?)` at the start of a token. -/
def sign_group (t : List Char) : List Char :=
  match t with
  | c :: _ => if c == '+' || c == '-' then [c] else []
  | [] => []

/-- Matching `^([+-]?)((a1|...|an)+)$` against a token; the result is groups 1
and 2 (the sign and the whole sequence of alternatives). -/
def regexec_phenomena (alts : List (List Char)) (t : List Char) :
    Option (List Char × List Char) :=
  let sign := sign_group t
  let body := t.drop sign.length
  if (body.isEmpty && alts.contains []) || (!body.isEmpty && match_iter alts body.length body) then
    some (sign, body)
  else none

/-- The alternatives of the pattern that `analyse_token` builds and compiles for
every token. The `none` branch stands for the two `exit` calls (buffer too
small, `regcomp` failure). -/
def phenomena_alternatives : List (List Char) :=
  match build_phenomena_regex_patterns PHENOMENA_REGEX_SIZE with
  | some pattern =>
    match regcomp_phenomena pattern with
    | some alts => alts
    | none => []
  | none => []

def PHENOMENON_STR_SIZE : Nat := 99

/-- The loop `while (i < strlen(tmp))` of the phenomenon branch over the text
of `tmp`: each step copies two bytes into `code` (the second one is the NUL
after the text when a single character is left), looks them up and appends the
description with `strncat`; a NULL description appends nothing here. -/
def decode_groups : List Char → List Char → List Char
  | [], str => str
  | [c], str =>
    strncat str ((decode_phenomena [c]).getD []) (PHENOMENON_STR_SIZE - str.length)
  | c1 :: c2 :: rest, str =>
    decode_groups rest
      (strncat str ((decode_phenomena [c1, c2]).getD []) (PHENOMENON_STR_SIZE - str.length))

/-! ## The function `analyse_token`, one definition per recognizer block -/

/-- The block `// find station`: tried while `metar->station[0] == 0`. -/
def find_station (token : List Char) (metar : metar_t) : Option metar_t :=
  if metar.station.headD NUL == NUL then
    match re_station token with
    | some g1 =>
      some { metar with
        station := memcpy metar.station g1 (if g1.length < 10 then g1.length else 10) }
    | none => none
  else none

/-- The block `// find day/time`: tried while `metar->day == 0`. -/
def find_daytime (token : List Char) (metar : metar_t) : Option metar_t :=
  if metar.day == 0 then
    match re_daytime token with
    | some (g1, g2) =>
      some { metar with
        day := sscanf_d (tmp_of g1) metar.day,
        time := sscanf_d (tmp_of g2) metar.time }
    | none => none
  else none

/-- The block `// find wind`: tried while `metar->winddir == 0`. Group 3 is
copied without its leading `G` (`match_size - 1` bytes, or `TMP_SIZE` bytes
when the group does not fit; a byte copied from behind the group is the `K`
of the unit, at which the conversion stops anyway). -/
def find_wind (token : List Char) (metar : metar_t) : Option metar_t :=
  if metar.winddir == 0 then
    match re_wind token with
    | some (g1, g2, g3, g4) =>
      let winddir :=
        if g1.length != 0 then
          if !strstr (tmp_of g1) "VRB".toList then sscanf_d (tmp_of g1) metar.winddir
          else -1
        else metar.winddir
      let windstr :=
        if g2.length != 0 then sscanf_d (tmp_of g2) metar.windstr else metar.windstr
      let windgust :=
        if g3.length != 0 then
          sscanf_d (cstr (memcpy (zeros TMP_SIZE) (g3.drop 1)
            (if g3.length < TMP_SIZE then g3.length - 1 else TMP_SIZE))) metar.windgust
        else windstr
      let windunit :=
        if g4.length != 0 then
          memcpy metar.windunit g4 (if g4.length < 5 then g4.length else 5)
        else metar.windunit
      some { metar with
        winddir := winddir, windstr := windstr, windgust := windgust, windunit := windunit }
    | none => none
  else none

/-- The block `// find visibility`: tried while `metar->vis == 0`. -/
def find_vis (token : List Char) (metar : metar_t) : Option metar_t :=
  if metar.vis == 0 then
    match re_vis token with
    | some (g1, g2) =>
      some { metar with
        vis := sscanf_d (tmp_of g1) metar.vis,
        visunit :=
          if g2.length != 0 then
            memcpy metar.visunit g2 (if g2.length < 5 then g2.length else 5)
          else strncpy metar.visunit "M".toList 1 }
    | none => none
  else none

/-- The block `// find temperature and dewpoint`: tried while
`metar->temp == 0`; the negation is the one of a 32-bit `int`. -/
def find_temp (token : List Char) (metar : metar_t) : Option metar_t :=
  if metar.temp == 0 then
    match re_temp token with
    | some (g1, g2, g3, g4) =>
      let temp := sscanf_d (tmp_of g2) metar.temp
      let dewp := sscanf_d (tmp_of g4) metar.dewp
      some { metar with
        temp := if strncmp_eq (tmp_of g1) "M".toList 1 then INT_wrap (-temp) else temp,
        dewp := if strncmp_eq (tmp_of g3) "M".toList 1 then INT_wrap (-dewp) else dewp }
    | none => none
  else none

/-- The unit text of inches of mercury: a double quote followed by `Hg`. -/
def inHg : List Char := [Char.ofNat 34, 'H', 'g']

/-- The block `// find qnh`: tried while `metar->qnh == 0`. Group 1 is copied
into the zeroed `tmp` with the bound 5. -/
def find_qnh (token : List Char) (metar : metar_t) : Option metar_t :=
  if metar.qnh == 0 then
    match re_qnh token with
    | some (g1, g2) =>
      let tmp := cstr (memcpy (zeros TMP_SIZE) g1 (if g1.length < 5 then g1.length else 5))
      let unit_fp : List Char × Int :=
        if strncmp_eq tmp "Q".toList 1 then (strncpy metar.qnhunit "hPa".toList 3, metar.qnhfp)
        else if strncmp_eq tmp "A".toList 1 then (strncpy metar.qnhunit inHg 3, 2)
        else (strncpy metar.qnhunit "Unkn".toList 4, metar.qnhfp)
      some { metar with
        qnhunit := unit_fp.1, qnhfp := unit_fp.2, qnh := sscanf_d (tmp_of g2) metar.qnh }
    | none => none
  else none

/-- The cloud block (not gated). The lookups receive `token + rm_so`, the rest
of the token from the start of the group: groups 1 and 2 start the token and
group 4 ends it. Group 3 is copied with the bound 3. A NULL lookup result is
dereferenced by the C code; here the layer is then left out. -/
def find_cloud (token : List Char) (metar : metar_t) : Option metar_t :=
  match re_cloud token with
  | some (g1, _, g3, g4) =>
    if g1.length > 0 then
      match decode_cloud_abbreviation token with
      | some e =>
        let cloud : cloud_t :=
          { amount := e.description, print_altitude := e.print_altitude,
            layer_altitude := -1, layer_modifier := [] }
        some { metar with clouds := add_cloud metar.clouds cloud }
      | none => some metar
    else
      match decode_cloud_abbreviation token with
      | some e =>
        let altitude :=
          sscanf_d (cstr (memcpy (zeros TMP_SIZE) g3 (if g3.length < 3 then g3.length else 3))) 0
        if g4.length > 0 then
          match decode_cloud_abbreviation g4 with
          | some e4 =>
            let cloud : cloud_t :=
              { amount := e.description, print_altitude := e.print_altitude,
                layer_altitude := altitude, layer_modifier := e4.description }
            some { metar with clouds := add_cloud metar.clouds cloud }
          | none => some metar
        else
          let cloud : cloud_t :=
            { amount := e.description, print_altitude := e.print_altitude,
              layer_altitude := altitude, layer_modifier := [] }
          some { metar with clouds := add_cloud metar.clouds cloud }
      | none => some metar
  | none => none

/-- The tail of `analyse_token`: the `CAVOK` special case, the phenomenon
pattern and the maintenance sign. The text of `phenomenon_str` starts empty,
or as "Light " or "Heavy " after a sign; its last character is cut off
before it is appended to the list. -/
def find_phenomena (token : List Char) (metar : metar_t) : metar_t :=
  let metar1 :=
    if strstr token "CAVOK".toList then
      { metar with
        phenomena := add_phenomenon metar.phenomena "Ceiling and visibility OK".toList }
    else metar
  match regexec_phenomena phenomena_alternatives token with
  | some (g1, g2) =>
    let tmp := cstr (memcpy (zeros TMP_SIZE) g1 (if g1.length < 1 then g1.length else 1))
    let str0 :=
      if tmp.head? == some '-' then cstr (strncpy (zeros PHENOMENON_STR_SIZE) "Light ".toList PHENOMENON_STR_SIZE)
      else if tmp.head? == some '+' then cstr (strncpy (zeros PHENOMENON_STR_SIZE) "Heavy ".toList PHENOMENON_STR_SIZE)
      else []
    let phenomenon_str := (decode_groups (tmp_of g2) str0).dropLast
    { metar1 with phenomena := add_phenomenon metar1.phenomena phenomenon_str }
  | none =>
    if strncmp_eq token "$".toList 1 then
      { metar1 with maintenance_needed := MAINTENANCE_NEEDED }
    else metar1

/-- The function `analyse_token`: the recognizers in their fixed order, each
one returning from the function when it has consumed the token. -/
def analyse_token (token : List Char) (metar : metar_t) : metar_t :=
  match find_station token metar with
  | some r => r
  | none =>
  match find_daytime token metar with
  | some r => r
  | none =>
  match find_wind token metar with
  | some r => r
  | none =>
  match find_vis token metar with
  | some r => r
  | none =>
  match find_temp token metar with
  | some r => r
  | none =>
  match find_qnh token metar with
  | some r => r
  | none =>
  match find_cloud token metar with
  | some r => r
  | none => find_phenomena token metar

/-! ## The driver `parse_Metar` -/

/-- Library call `strrchr(s, c)`: the offset of the last occurrence of `c`. -/
def strrchr (s : List Char) (c : Char) : Option Nat :=
  match s with
  | [] => none
  | x :: xs =>
    match strrchr xs c with
    | some i => some (i + 1)
    | none => if x == c then some 0 else none

/-- The loop `while ((last = strrchr(report, '\n')) != NULL) memset(last, 0, 1)`:
a NUL written over the last newline ends the text there. Every turn shortens
the text, so `fuel` above its length is never used up. -/
def strip_newlines : Nat → List Char → List Char
  | 0, s => s
  | fuel + 1, s =>
    match strrchr s '\n' with
    | some i => strip_newlines fuel (s.take i)
    | none => s

/-- One call of `strtok(..., " ")` on the text not yet consumed: leading spaces
are skipped; at the end of the text the result is NULL (`none`), otherwise the
token runs up to the next space and the scan resumes behind that space. -/
def strtok (s : List Char) : Option (List Char × List Char) :=
  match s.dropWhile (fun c => c == ' ') with
  | [] => none
  | c :: cs =>
    some ((c :: cs).takeWhile (fun x => x != ' '),
      ((c :: cs).dropWhile (fun x => x != ' ')).drop 1)

/-- The loop `while (token != NULL)` of `parse_Metar`; every turn consumes at
least one character, so `fuel` above the length of the text is never used up. -/
def token_loop : Nat → List Char → metar_t → metar_t
  | 0, _, metar => metar
  | fuel + 1, s, metar =>
    match strtok s with
    | some (token, rest) => token_loop fuel rest (analyse_token token metar)
    | none => metar

/-- The function `parse_Metar`. The second argument is the content of the
caller's record on entry, which the `memset` discards. -/
def parse_Metar (report : List Char) (_metar : metar_t) : metar_t :=
  let stripped := strip_newlines (report.length + 1) report
  token_loop (stripped.length + 1) stripped
    { metar_cleared with maintenance_needed := MAINTENANCE_NOT_NEEDED }

/-- The tokens of a text: its maximal runs of characters other than the space. -/
def tokens (s : List Char) : List (List Char) :=
  (split_on ' ' s).filter (fun t => !t.isEmpty)

/-! ## Field groups of the record -/

/-- The fields written by the day/time block. -/
def daytime_fields (m : metar_t) : Int × Int := (m.day, m.time)

/-- The fields written by the wind block. -/
def wind_fields (m : metar_t) : Int × Int × Int × List Char :=
  (m.winddir, m.windstr, m.windgust, m.windunit)

/-- The fields written by the visibility block. -/
def vis_fields (m : metar_t) : Int × List Char := (m.vis, m.visunit)

/-- The fields written by the temperature block. -/
def temp_fields (m : metar_t) : Int × Int := (m.temp, m.dewp)

/-- The fields written by the pressure block. -/
def qnh_fields (m : metar_t) : Int × List Char × Int := (m.qnh, m.qnhunit, m.qnhfp)

/-- The loop of `parse_Metar` seen as a fold over a list of tokens. -/
def run_tokens (ts : List (List Char)) (m : metar_t) : metar_t :=
  ts.foldl (fun acc t => analyse_token t acc) m

/-- The exact-match lookup in the cloud dictionary: the entry whose abbreviation
is `abbr`, as opposed to the prefix scan of `decode_cloud_abbreviation`. -/
def lookup_exact (abbr : List Char) : Option cloud_dict_entry :=
  cloud_dict.find? (fun e => e.abbreviation == abbr)

/-- The intensity text of a phenomenon: "Light " for the sign `-`, "Heavy " for
the sign `+`, nothing without a sign. -/
def intensity_text (sign : List Char) : List Char :=
  if sign = ['-'] then "Light ".toList else if sign = ['+'] then "Heavy ".toList else []

/-- The layers that the cloud block appends for a token: what it adds to an
empty cloud list. -/
def clouds_of_token (t : List Char) : List cloud_t :=
  ((find_cloud t metar_cleared).getD metar_cleared).clouds

/-- The entries that the tail of `analyse_token` appends for a token: what it
adds to an empty phenomenon list. -/
def phenomena_of_token (t : List Char) : List (List Char) :=
  (find_phenomena t metar_cleared).phenomena

/-- A token that nothing in `analyse_token` takes: it matches none of the
patterns, does not contain `CAVOK` and does not begin with `$`. -/
def unrecognized (t : List Char) : Bool :=
  (re_station t).isNone && (re_daytime t).isNone && (re_wind t).isNone && (re_vis t).isNone
    && (re_temp t).isNone && (re_qnh t).isNone && (re_cloud t).isNone
    && (regexec_phenomena phenomena_alternatives t).isNone
    && !strstr t "CAVOK".toList && !strncmp_eq t "$".toList 1

/-- What the newline loop leaves of the pieces of a text: the pieces before the
first one that holds a newline, and of that one the part before the newline. -/
def cut_at_newline : List (List Char) → List (List Char)
  | [] => []
  | w :: ws =>
    if w.contains '\n' then [w.takeWhile (fun c => c != '\n')] else w :: cut_at_newline ws

/-- The results of the `decode_cloud_abbreviation` calls that the cloud block
makes for a token: one call on the token for a no-cloud code; for a cover
token one call on the token and, when group 4 is not empty, one call on
group 4. -/
def cloud_lookups (token : List Char) : List (Option cloud_dict_entry) :=
  match re_cloud token with
  | some (g1, _, _, g4) =>
    if g1.length > 0 then [decode_cloud_abbreviation token]
    else
      decode_cloud_abbreviation token ::
        (if g4.length > 0 then [decode_cloud_abbreviation g4] else [])
  | none => []

/-- The results of the `decode_phenomena` calls of the loop
`while (i < strlen(tmp))` over the text of `tmp`, in the order of the calls:
one call per step of `decode_groups`. -/
def phenomena_lookups : List Char → List (Option (List Char))
  | [] => []
  | [c] => [decode_phenomena [c]]
  | c1 :: c2 :: rest => decode_phenomena [c1, c2] :: phenomena_lookups rest

/-- The recognizer blocks of `analyse_token` that follow the station block. -/
inductive recognizer where
  | daytime
  | wind
  | vis
  | temp
  | qnh
  | cloud
  | phenomena
  deriving DecidableEq

/-- Whether the pattern of a recognizer block matches a token. -/
def pattern_matches : recognizer → List Char → Bool
  | .daytime, t => (re_daytime t).isSome
  | .wind, t => (re_wind t).isSome
  | .vis, t => (re_vis t).isSome
  | .temp, t => (re_temp t).isSome
  | .qnh, t => (re_qnh t).isSome
  | .cloud, t => (re_cloud t).isSome
  | .phenomena, t => (regexec_phenomena phenomena_alternatives t).isSome

/-- The `CAVOK` special case at the head of the phenomenon block. -/
def cavok_step (token : List Char) (metar : metar_t) : metar_t :=
  if strstr token "CAVOK".toList then
    { metar with
      phenomena := add_phenomenon metar.phenomena "Ceiling and visibility OK".toList }
  else metar

/-- The maintenance check at the end of `analyse_token`. -/
def maintenance_step (token : List Char) (metar : metar_t) : metar_t :=
  if strncmp_eq token "$".toList 1 then
    { metar with maintenance_needed := MAINTENANCE_NEEDED }
  else metar

/-- One recognizer block of `analyse_token`: the record it leaves, and whether
it returned from the function. The phenomenon block runs the `CAVOK` special
case before its pattern is tried. -/
def block : recognizer → List Char → metar_t → metar_t × Bool
  | .daytime, t, m =>
    match find_daytime t m with
    | some r => (r, true)
    | none => (m, false)
  | .wind, t, m =>
    match find_wind t m with
    | some r => (r, true)
    | none => (m, false)
  | .vis, t, m =>
    match find_vis t m with
    | some r => (r, true)
    | none => (m, false)
  | .temp, t, m =>
    match find_temp t m with
    | some r => (r, true)
    | none => (m, false)
  | .qnh, t, m =>
    match find_qnh t m with
    | some r => (r, true)
    | none => (m, false)
  | .cloud, t, m =>
    match find_cloud t m with
    | some r => (r, true)
    | none => (m, false)
  | .phenomena, t, m =>
    if (regexec_phenomena phenomena_alternatives t).isSome then (find_phenomena t m, true)
    else (cavok_step t m, false)

/-- The part of `analyse_token` behind the station block with its blocks taken
in a given order, the maintenance check coming last. -/
def run_order : List recognizer → List Char → metar_t → metar_t
  | [], t, m => maintenance_step t m
  | r :: rs, t, m =>
    if (block r t m).2 then (block r t m).1 else run_order rs t (block r t m).1

/-- The order in which `analyse_token` has the blocks. -/
def source_order : List recognizer :=
  [.daytime, .wind, .vis, .temp, .qnh, .cloud, .phenomena]

/-- The function `analyse_token` with the blocks behind the station block taken in
a given order. -/
def analyse_token_in_order (order : List recognizer) (token : List Char) (metar : metar_t) :
    metar_t :=
  match find_station token metar with
  | some r => r
  | none => run_order order token metar

/-! ## Basic facts on bytes and buffers -/

theorem isDigit_ne_NUL {c : Char} (h : isDigit c = true) : (c != NUL) = true := by
  by_cases hc : c = NUL
  · subst hc; exact absurd h (by decide)
  · simpa using hc

theorem isDigit_not_isUpper {c : Char} (h : isDigit c = true) : isUpper c = false := by
  simp only [isDigit, isUpper, decide_eq_true_eq, decide_eq_false_iff_not] at *
  omega

theorem cstr_append_zeros (g : List Char) (n : Nat) (hg : ∀ c ∈ g, (c != NUL) = true) :
    cstr (g ++ zeros n) = g := by
  unfold cstr zeros
  rw [List.takeWhile_append_of_pos hg, List.takeWhile_replicate]
  simp

theorem tmp_of_eq (g : List Char) (hg : ∀ c ∈ g, (c != NUL) = true) :
    tmp_of g = g.take TMP_SIZE := by
  unfold tmp_of memcpy
  by_cases hl : g.length < TMP_SIZE
  · rw [if_pos hl, List.take_length]
    have : (zeros TMP_SIZE).drop g.length = zeros (TMP_SIZE - g.length) := by
      simp [zeros]
    rw [this, cstr_append_zeros g _ hg, List.take_of_length_le (by omega)]
  · rw [if_neg hl]
    have : (zeros TMP_SIZE).drop TMP_SIZE = zeros 0 := by simp [zeros]
    rw [this, cstr_append_zeros _ _ (fun c hc => hg c (List.mem_of_mem_take hc))]

theorem tmp_of_digits (g : List Char) (hg : ∀ c ∈ g, isDigit c = true)
    (hl : g.length < TMP_SIZE) : tmp_of g = g := by
  rw [tmp_of_eq g (fun c hc => isDigit_ne_NUL (hg c hc)), List.take_of_length_le (by omega)]

theorem sscanf_d_digits (g : List Char) (old : Int) (hg : ∀ c ∈ g, isDigit c = true)
    (hne : g ≠ []) : sscanf_d g old = INT_wrap (strtol g) := by
  unfold sscanf_d
  have : g.takeWhile isDigit = g := List.takeWhile_eq_self_iff.mpr hg
  simp [this, hne]

theorem INT_wrap_of_lt (z : Int) (h0 : 0 ≤ z) (h1 : z < 2147483648) : INT_wrap z = z := by
  unfold INT_wrap; omega

theorem INT_wrap_neg_of_lt (z : Int) (h0 : 0 ≤ z) (h1 : z < 2147483648) :
    INT_wrap (-z) = -z := by
  unfold INT_wrap; omega

theorem INT_wrap_strtol (ds : List Char) (h : (decimal ds : Int) < 2147483648) :
    INT_wrap (strtol ds) = (decimal ds : Int) := by
  have h2 : decimal ds < 2147483648 := by exact_mod_cast h
  have h3 : strtol ds = decimal ds := by
    unfold strtol LONG_MAX
    omega
  rw [h3]
  exact INT_wrap_of_lt _ (Int.natCast_nonneg _) h

theorem digitVal_le {c : Char} (h : isDigit c = true) : digitVal c ≤ 9 := by
  simp only [isDigit, decide_eq_true_eq] at h
  unfold digitVal; omega

theorem decimal_append_one (ds : List Char) (c : Char) :
    decimal (ds ++ [c]) = 10 * decimal ds + digitVal c := by
  simp [decimal, List.foldl_append]

theorem decimal_lt_pow (ds : List Char) (hg : ∀ c ∈ ds, isDigit c = true) :
    decimal ds < 10 ^ ds.length := by
  induction ds using List.reverseRecOn with
  | nil => simp [decimal]
  | append_singleton l c ih =>
    rw [decimal_append_one, List.length_append, List.length_singleton, pow_succ]
    have h1 := ih (fun x hx => hg x (List.mem_append_left _ hx))
    have h2 := digitVal_le (hg c (by simp))
    omega

/-! ## What a match of each pattern says about the token -/

theorem re_station_some {t g : List Char} (h : re_station t = some g) :
    g = t ∧ t ≠ [] ∧ ∀ c ∈ t, isUpper c = true := by
  unfold re_station at h
  split at h
  · rename_i hc
    simp only [Bool.and_eq_true, Bool.not_eq_true', List.isEmpty_eq_false,
      List.all_eq_true] at hc
    simp only [Option.some.injEq] at h
    refine ⟨h.symm, ?_, hc.2⟩
    intro hnil
    simp [hnil] at hc
  · simp at h

theorem re_daytime_some {t g1 g2 : List Char} (h : re_daytime t = some (g1, g2)) :
    ∃ a b c d e f, t = [a, b, c, d, e, f, 'Z'] ∧ g1 = [a, b] ∧ g2 = [c, d, e, f] ∧
      isDigit a = true ∧ isDigit b = true ∧ isDigit c = true ∧ isDigit d = true ∧
      isDigit e = true ∧ isDigit f = true := by
  unfold re_daytime at h
  split at h
  · rename_i a b c d e f z
    split at h
    · rename_i hc
      simp only [Bool.and_eq_true, beq_iff_eq] at hc
      simp only [Option.some.injEq, Prod.mk.injEq] at h
      obtain ⟨⟨⟨⟨⟨⟨ha, hb⟩, hc'⟩, hd⟩, he⟩, hf⟩, hz⟩ := hc
      exact ⟨a, b, c, d, e, f, by rw [hz], h.1.symm, h.2.symm, ha, hb, hc', hd, he, hf⟩
    · simp at h
  · simp at h

theorem re_vis_some {t g1 g2 : List Char} (h : re_vis t = some (g1, g2)) :
    t = g1 ++ g2 ∧ g1 ≠ [] ∧ (∀ c ∈ g1, isDigit c = true) ∧ (g2 = [] ∨ g2 = "SM".toList) := by
  unfold re_vis at h
  simp only at h
  split at h
  · rename_i hc
    simp only [Bool.and_eq_true, Bool.not_eq_true', List.isEmpty_eq_false, Bool.or_eq_true,
      List.isEmpty_iff, beq_iff_eq] at hc
    simp only [Option.some.injEq, Prod.mk.injEq] at h
    obtain ⟨h1, h2⟩ := h
    subst h1; subst h2
    refine ⟨(List.takeWhile_append_dropWhile _ _).symm, ?_, ?_, hc.2⟩
    · intro hnil; simp [hnil] at hc
    · intro c hc'; exact (List.mem_takeWhile_imp hc')
  · simp at h

theorem re_qnh_some {t g1 g2 : List Char} (h : re_qnh t = some (g1, g2)) :
    t = g1 ++ g2 ∧ (g1 = ['Q'] ∨ g1 = ['A']) ∧ g2 ≠ [] ∧ ∀ c ∈ g2, isDigit c = true := by
  unfold re_qnh at h
  split at h
  · rename_i c ds
    split at h
    · rename_i hc
      simp only [Bool.and_eq_true, Bool.or_eq_true, beq_iff_eq, Bool.not_eq_true',
        List.isEmpty_eq_false, List.all_eq_true] at hc
      simp only [Option.some.injEq, Prod.mk.injEq] at h
      obtain ⟨h1, h2⟩ := h
      subst h1; subst h2
      refine ⟨rfl, ?_, ?_, hc.2⟩
      · rcases hc.1.1 with h | h <;> simp [h]
      · intro hnil; simp [hnil] at hc
    · simp at h
  · simp at h


theorem opt_M_spec (t : List Char) :
    (opt_M t).1 ++ (opt_M t).2 = t ∧ ((opt_M t).1 = [] ∨ (opt_M t).1 = ['M']) := by
  unfold opt_M
  split
  · rename_i c r
    by_cases hc : c = 'M'
    · subst hc; simp
    · simp [hc]
  · simp

theorem re_wind_some {t g1 g2 g3 g4 : List Char} (h : re_wind t = some (g1, g2, g3, g4)) :
    ∃ a b c d e, g1 = [a, b, c] ∧ g2 = [d, e] ∧ g4 = "KT".toList ∧
      t = g1 ++ g2 ++ g3 ++ g4 ∧
      (g1 = "VRB".toList ∨ (isDigit a = true ∧ isDigit b = true ∧ isDigit c = true)) ∧
      isDigit d = true ∧ isDigit e = true ∧
      (g3 = [] ∨ ∃ ds, g3 = 'G' :: ds ∧ ds ≠ [] ∧ ∀ x ∈ ds, isDigit x = true) := by
  unfold re_wind at h
  split at h
  · rename_i a b c d e rest
    split at h
    · rename_i hc
      simp only [Bool.and_eq_true, Bool.or_eq_true, beq_iff_eq] at hc
      obtain ⟨⟨h1, hd⟩, he⟩ := hc
      have h1 : [a, b, c] = "VRB".toList ∨ (isDigit a = true ∧ isDigit b = true ∧ isDigit c = true) := by
        rcases h1 with h | ⟨⟨x, y⟩, z⟩
        · exact Or.inl h
        · exact Or.inr ⟨x, y, z⟩
      split at h
      · rename_i g r
        split at h
        · rename_i hg
          simp only [Bool.and_eq_true, beq_iff_eq, Bool.not_eq_true',
            List.isEmpty_eq_false] at hg
          split at h
          · rename_i hk
            simp only [beq_iff_eq] at hk
            simp only [Option.some.injEq, Prod.mk.injEq] at h
            obtain ⟨e1, e2, e3, e4⟩ := h
            subst e1; subst e2; subst e3; subst e4
            refine ⟨a, b, c, d, e, rfl, rfl, rfl, ?_, h1, hd, he, Or.inr ⟨List.takeWhile isDigit r, ?_, ?_, ?_⟩⟩
            · have := List.takeWhile_append_dropWhile isDigit r
              rw [hk] at this
              simpa using this.symm
            · rw [hg.1]
            · intro hnil; simp [hnil] at hg
            · intro x hx; exact List.mem_takeWhile_imp hx
          · simp at h
        · split at h
          · rename_i hk
            simp only [beq_iff_eq] at hk
            simp only [Option.some.injEq, Prod.mk.injEq] at h
            obtain ⟨e1, e2, e3, e4⟩ := h
            subst e1; subst e2; subst e3; subst e4
            exact ⟨a, b, c, d, e, rfl, rfl, rfl, by simp [hk], h1, hd, he, Or.inl rfl⟩
          · simp at h
      · simp at h
    · simp at h
  · simp at h

theorem re_temp_some {t g1 g2 g3 g4 : List Char} (h : re_temp t = some (g1, g2, g3, g4)) :
    t = g1 ++ g2 ++ '/' :: (g3 ++ g4) ∧ (g1 = [] ∨ g1 = ['M']) ∧ (g3 = [] ∨ g3 = ['M']) ∧
      g2 ≠ [] ∧ (∀ c ∈ g2, isDigit c = true) ∧ g4 ≠ [] ∧ (∀ c ∈ g4, isDigit c = true) := by
  unfold re_temp at h
  simp only at h
  split at h
  · rename_i s r hdrop
    split at h
    · rename_i hc
      simp only [Bool.and_eq_true, beq_iff_eq, Bool.not_eq_true', List.isEmpty_eq_false,
        List.isEmpty_iff] at hc
      obtain ⟨⟨⟨hs, hd1⟩, hd2⟩, hend⟩ := hc
      simp only [Option.some.injEq, Prod.mk.injEq] at h
      obtain ⟨e1, e2, e3, e4⟩ := h
      subst e1; subst e2; subst e3; subst e4; subst hs
      have ht := opt_M_spec t
      have hr := opt_M_spec r
      have h2 := List.takeWhile_append_dropWhile isDigit (opt_M t).2
      have h4 := List.takeWhile_append_dropWhile isDigit (opt_M r).2
      rw [hend, List.append_nil] at h4
      rw [hdrop] at h2
      refine ⟨?_, ht.2, hr.2, ?_, ?_, ?_, ?_⟩
      · rw [h4, hr.1, List.append_assoc, h2, ht.1]
      · intro hnil; simp [hnil] at hd1
      · intro c hc; exact List.mem_takeWhile_imp hc
      · intro hnil; simp [hnil] at hd2
      · intro c hc; exact List.mem_takeWhile_imp hc
    · simp at h
  · simp at h

/-! ## Shape of the record returned by each recognizer -/

theorem find_station_some {t : List Char} {m r : metar_t} (h : find_station t m = some r) :
    (m.station.headD NUL == NUL) = true ∧ ∃ g, re_station t = some g ∧
      r = { m with station := memcpy m.station g (if g.length < 10 then g.length else 10) } := by
  unfold find_station at h
  split at h
  · rename_i hg
    split at h
    · rename_i g hre
      exact ⟨hg, g, hre, by simpa using h.symm⟩
    · simp at h
  · simp at h

theorem find_daytime_some {t : List Char} {m r : metar_t} (h : find_daytime t m = some r) :
    m.day = 0 ∧ ∃ g1 g2, re_daytime t = some (g1, g2) ∧
      r = { m with day := sscanf_d (tmp_of g1) m.day, time := sscanf_d (tmp_of g2) m.time } := by
  unfold find_daytime at h
  split at h
  · rename_i hg
    split at h
    · rename_i g1 g2 hre
      exact ⟨by simpa using hg, g1, g2, hre, by simpa using h.symm⟩
    · simp at h
  · simp at h

theorem find_wind_some {t : List Char} {m r : metar_t} (h : find_wind t m = some r) :
    m.winddir = 0 ∧ (∃ g, re_wind t = some g) ∧
      ∃ wd ws wg wu, r = { m with winddir := wd, windstr := ws, windgust := wg, windunit := wu } := by
  unfold find_wind at h
  split at h
  · rename_i hg
    split at h
    · rename_i g1 g2 g3 g4 hre
      simp only [Option.some.injEq] at h
      exact ⟨by simpa using hg, ⟨_, hre⟩, _, _, _, _, h.symm⟩
    · simp at h
  · simp at h

theorem find_vis_some {t : List Char} {m r : metar_t} (h : find_vis t m = some r) :
    m.vis = 0 ∧ (∃ g, re_vis t = some g) ∧
      ∃ v vu, r = { m with vis := v, visunit := vu } := by
  unfold find_vis at h
  split at h
  · rename_i hg
    split at h
    · rename_i g1 g2 hre
      simp only [Option.some.injEq] at h
      exact ⟨by simpa using hg, ⟨_, hre⟩, _, _, h.symm⟩
    · simp at h
  · simp at h

theorem find_temp_some {t : List Char} {m r : metar_t} (h : find_temp t m = some r) :
    m.temp = 0 ∧ (∃ g, re_temp t = some g) ∧
      ∃ x y, r = { m with temp := x, dewp := y } := by
  unfold find_temp at h
  split at h
  · rename_i hg
    split at h
    · rename_i g1 g2 g3 g4 hre
      simp only [Option.some.injEq] at h
      exact ⟨by simpa using hg, ⟨_, hre⟩, _, _, h.symm⟩
    · simp at h
  · simp at h

theorem find_qnh_some {t : List Char} {m r : metar_t} (h : find_qnh t m = some r) :
    m.qnh = 0 ∧ (∃ g, re_qnh t = some g) ∧
      ∃ u fp q, r = { m with qnhunit := u, qnhfp := fp, qnh := q } := by
  unfold find_qnh at h
  split at h
  · rename_i hg
    split at h
    · rename_i g1 g2 hre
      simp only [Option.some.injEq] at h
      exact ⟨by simpa using hg, ⟨_, hre⟩, _, _, _, h.symm⟩
    · simp at h
  · simp at h

theorem find_cloud_some {t : List Char} {m r : metar_t} (h : find_cloud t m = some r) :
    (∃ g, re_cloud t = some g) ∧ ∃ cl, r = { m with clouds := cl } := by
  unfold find_cloud at h
  split at h
  · rename_i g1 g2 g3 g4 hre
    refine ⟨⟨_, hre⟩, ?_⟩
    repeat' split at h
    all_goals
      simp only [Option.some.injEq] at h
      exact ⟨_, h.symm⟩
  · simp at h

theorem find_phenomena_shape (t : List Char) (m : metar_t) :
    ∃ ph mn, find_phenomena t m = { m with phenomena := ph, maintenance_needed := mn } := by
  unfold find_phenomena
  simp only
  split
  · split
    · exact ⟨_, _, rfl⟩
    · exact ⟨_, _, rfl⟩
  · split
    · split
      · exact ⟨_, _, rfl⟩
      · exact ⟨_, _, rfl⟩
    · split
      · exact ⟨_, _, rfl⟩
      · exact ⟨_, _, rfl⟩

/-- The control flow of `analyse_token`: the first recognizer that returns. -/
theorem analyse_token_cases (t : List Char) (m : metar_t) :
    find_station t m = some (analyse_token t m) ∨
    (find_station t m = none ∧ find_daytime t m = some (analyse_token t m)) ∨
    (find_station t m = none ∧ find_daytime t m = none ∧
      find_wind t m = some (analyse_token t m)) ∨
    (find_station t m = none ∧ find_daytime t m = none ∧ find_wind t m = none ∧
      find_vis t m = some (analyse_token t m)) ∨
    (find_station t m = none ∧ find_daytime t m = none ∧ find_wind t m = none ∧
      find_vis t m = none ∧ find_temp t m = some (analyse_token t m)) ∨
    (find_station t m = none ∧ find_daytime t m = none ∧ find_wind t m = none ∧
      find_vis t m = none ∧ find_temp t m = none ∧ find_qnh t m = some (analyse_token t m)) ∨
    (find_station t m = none ∧ find_daytime t m = none ∧ find_wind t m = none ∧
      find_vis t m = none ∧ find_temp t m = none ∧ find_qnh t m = none ∧
      find_cloud t m = some (analyse_token t m)) ∨
    (find_station t m = none ∧ find_daytime t m = none ∧ find_wind t m = none ∧
      find_vis t m = none ∧ find_temp t m = none ∧ find_qnh t m = none ∧
      find_cloud t m = none ∧ analyse_token t m = find_phenomena t m) := by
  unfold analyse_token
  cases h1 : find_station t m with
  | some r => simp
  | none =>
  cases h2 : find_daytime t m with
  | some r => simp
  | none =>
  cases h3 : find_wind t m with
  | some r => simp
  | none =>
  cases h4 : find_vis t m with
  | some r => simp
  | none =>
  cases h5 : find_temp t m with
  | some r => simp
  | none =>
  cases h6 : find_qnh t m with
  | some r => simp
  | none =>
  cases h7 : find_cloud t m with
  | some r => simp
  | none => simp

/-! ## The patterns of the singular fields exclude one another -/

theorem re_daytime_digit {t : List Char} {g : List Char × List Char}
    (h : re_daytime t = some g) : ∃ c ∈ t, isDigit c = true := by
  obtain ⟨g1, g2⟩ := g
  obtain ⟨a, b, c, d, e, f, ht, -, -, ha, -⟩ := re_daytime_some h
  exact ⟨a, by simp [ht], ha⟩

theorem re_wind_digit {t : List Char} {g : List Char × List Char × List Char × List Char}
    (h : re_wind t = some g) : ∃ c ∈ t, isDigit c = true := by
  obtain ⟨g1, g2, g3, g4⟩ := g
  obtain ⟨a, b, c, d, e, h1, h2, h4, ht, -, hd, -⟩ := re_wind_some h
  exact ⟨d, by simp [ht, h2], hd⟩

theorem re_vis_digit {t : List Char} {g : List Char × List Char}
    (h : re_vis t = some g) : ∃ c ∈ t, isDigit c = true := by
  obtain ⟨g1, g2⟩ := g
  obtain ⟨ht, hne, hd, -⟩ := re_vis_some h
  obtain ⟨c, hc⟩ := List.exists_mem_of_ne_nil g1 hne
  exact ⟨c, by simp [ht, hc], hd c hc⟩

theorem re_temp_digit {t : List Char} {g : List Char × List Char × List Char × List Char}
    (h : re_temp t = some g) : ∃ c ∈ t, isDigit c = true := by
  obtain ⟨g1, g2, g3, g4⟩ := g
  obtain ⟨ht, -, -, hne, hd, -, -⟩ := re_temp_some h
  obtain ⟨c, hc⟩ := List.exists_mem_of_ne_nil g2 hne
  exact ⟨c, by simp [ht, hc], hd c hc⟩

theorem re_qnh_digit {t : List Char} {g : List Char × List Char}
    (h : re_qnh t = some g) : ∃ c ∈ t, isDigit c = true := by
  obtain ⟨g1, g2⟩ := g
  obtain ⟨ht, -, hne, hd⟩ := re_qnh_some h
  obtain ⟨c, hc⟩ := List.exists_mem_of_ne_nil g2 hne
  exact ⟨c, by simp [ht, hc], hd c hc⟩

theorem re_station_none_of_digit {t : List Char} (h : ∃ c ∈ t, isDigit c = true) :
    re_station t = none := by
  obtain ⟨c, hc, hd⟩ := h
  cases hs : re_station t with
  | none => rfl
  | some g =>
    have hu := (re_station_some hs).2.2 c hc
    rw [isDigit_not_isUpper hd] at hu
    exact absurd hu (by simp)

theorem getLast?_append_digits (p g : List Char) (hne : g ≠ [])
    (hd : ∀ c ∈ g, isDigit c = true) :
    ∃ c, (p ++ g).getLast? = some c ∧ isDigit c = true := by
  refine ⟨g.getLast hne, ?_, hd _ (List.getLast_mem hne)⟩
  rw [List.getLast?_append, List.getLast?_eq_getLast g hne]
  rfl

theorem re_daytime_last {t : List Char} {g : List Char × List Char}
    (h : re_daytime t = some g) : t.getLast? = some 'Z' := by
  obtain ⟨g1, g2⟩ := g
  obtain ⟨a, b, c, d, e, f, ht, -⟩ := re_daytime_some h
  simp [ht]

theorem re_wind_last {t : List Char} {g : List Char × List Char × List Char × List Char}
    (h : re_wind t = some g) : t.getLast? = some 'T' := by
  obtain ⟨g1, g2, g3, g4⟩ := g
  obtain ⟨a, b, c, d, e, h1, h2, h4, ht, -⟩ := re_wind_some h
  rw [ht, h4, List.getLast?_append]
  rfl

theorem re_vis_last {t : List Char} {g : List Char × List Char}
    (h : re_vis t = some g) :
    ∃ c, t.getLast? = some c ∧ (isDigit c = true ∨ c = 'M') := by
  obtain ⟨g1, g2⟩ := g
  obtain ⟨ht, hne, hd, h2⟩ := re_vis_some h
  rcases h2 with h2 | h2
  · obtain ⟨c, hc, hcd⟩ := getLast?_append_digits [] g1 hne hd
    exact ⟨c, by simpa [ht, h2] using hc, Or.inl hcd⟩
  · exact ⟨'M', by rw [ht, h2, List.getLast?_append]; rfl, Or.inr rfl⟩

theorem re_temp_last {t : List Char} {g : List Char × List Char × List Char × List Char}
    (h : re_temp t = some g) : ∃ c, t.getLast? = some c ∧ isDigit c = true := by
  obtain ⟨g1, g2, g3, g4⟩ := g
  obtain ⟨ht, -, -, -, -, hne, hd⟩ := re_temp_some h
  have : t = (g1 ++ g2 ++ '/' :: g3) ++ g4 := by simp [ht]
  rw [this]
  exact getLast?_append_digits _ g4 hne hd

theorem re_qnh_last {t : List Char} {g : List Char × List Char}
    (h : re_qnh t = some g) : ∃ c, t.getLast? = some c ∧ isDigit c = true := by
  obtain ⟨g1, g2⟩ := g
  obtain ⟨ht, -, hne, hd⟩ := re_qnh_some h
  rw [ht]
  exact getLast?_append_digits _ g2 hne hd

theorem re_temp_slash {t : List Char} {g : List Char × List Char × List Char × List Char}
    (h : re_temp t = some g) : '/' ∈ t := by
  obtain ⟨g1, g2, g3, g4⟩ := g
  obtain ⟨ht, -⟩ := re_temp_some h
  simp [ht]

theorem re_vis_no_slash {t : List Char} {g : List Char × List Char}
    (h : re_vis t = some g) : '/' ∉ t := by
  obtain ⟨g1, g2⟩ := g
  obtain ⟨ht, -, hd, h2⟩ := re_vis_some h
  intro hs
  rw [ht, List.mem_append] at hs
  rcases hs with hs | hs
  · exact absurd (hd _ hs) (by decide)
  · rcases h2 with h2 | h2 <;> simp [h2] at hs

theorem re_qnh_no_slash {t : List Char} {g : List Char × List Char}
    (h : re_qnh t = some g) : '/' ∉ t := by
  obtain ⟨g1, g2⟩ := g
  obtain ⟨ht, h1, -, hd⟩ := re_qnh_some h
  intro hs
  rw [ht, List.mem_append] at hs
  rcases hs with hs | hs
  · rcases h1 with h1 | h1 <;> simp [h1] at hs
  · exact absurd (hd _ hs) (by decide)

theorem re_vis_head {t : List Char} {g : List Char × List Char}
    (h : re_vis t = some g) : ∃ c r, t = c :: r ∧ isDigit c = true := by
  obtain ⟨g1, g2⟩ := g
  obtain ⟨ht, hne, hd, -⟩ := re_vis_some h
  cases g1 with
  | nil => exact absurd rfl hne
  | cons c r => exact ⟨c, r ++ g2, by simp [ht], hd c (by simp)⟩

theorem daytime_excl_wind {t : List Char} {g : List Char × List Char}
    (h : re_daytime t = some g) : re_wind t = none := by
  cases hw : re_wind t with
  | none => rfl
  | some x =>
    have h1 := re_daytime_last h
    rw [re_wind_last hw] at h1
    exact absurd h1 (by decide)

theorem daytime_excl_vis {t : List Char} {g : List Char × List Char}
    (h : re_daytime t = some g) : re_vis t = none := by
  cases hw : re_vis t with
  | none => rfl
  | some x =>
    obtain ⟨c, hc, hd⟩ := re_vis_last hw
    rw [re_daytime_last h, Option.some.injEq] at hc
    subst hc
    rcases hd with hd | hd
    · exact absurd hd (by decide)
    · exact absurd hd (by decide)

theorem daytime_excl_temp {t : List Char} {g : List Char × List Char}
    (h : re_daytime t = some g) : re_temp t = none := by
  cases hw : re_temp t with
  | none => rfl
  | some x =>
    obtain ⟨c, hc, hd⟩ := re_temp_last hw
    rw [re_daytime_last h, Option.some.injEq] at hc
    subst hc
    exact absurd hd (by decide)

theorem daytime_excl_qnh {t : List Char} {g : List Char × List Char}
    (h : re_daytime t = some g) : re_qnh t = none := by
  cases hw : re_qnh t with
  | none => rfl
  | some x =>
    obtain ⟨c, hc, hd⟩ := re_qnh_last hw
    rw [re_daytime_last h, Option.some.injEq] at hc
    subst hc
    exact absurd hd (by decide)

theorem wind_excl_vis {t : List Char} {g : List Char × List Char × List Char × List Char}
    (h : re_wind t = some g) : re_vis t = none := by
  cases hw : re_vis t with
  | none => rfl
  | some x =>
    obtain ⟨c, hc, hd⟩ := re_vis_last hw
    rw [re_wind_last h, Option.some.injEq] at hc
    subst hc
    rcases hd with hd | hd
    · exact absurd hd (by decide)
    · exact absurd hd (by decide)

theorem wind_excl_temp {t : List Char} {g : List Char × List Char × List Char × List Char}
    (h : re_wind t = some g) : re_temp t = none := by
  cases hw : re_temp t with
  | none => rfl
  | some x =>
    obtain ⟨c, hc, hd⟩ := re_temp_last hw
    rw [re_wind_last h, Option.some.injEq] at hc
    subst hc
    exact absurd hd (by decide)

theorem wind_excl_qnh {t : List Char} {g : List Char × List Char × List Char × List Char}
    (h : re_wind t = some g) : re_qnh t = none := by
  cases hw : re_qnh t with
  | none => rfl
  | some x =>
    obtain ⟨c, hc, hd⟩ := re_qnh_last hw
    rw [re_wind_last h, Option.some.injEq] at hc
    subst hc
    exact absurd hd (by decide)

theorem vis_excl_temp {t : List Char} {g : List Char × List Char}
    (h : re_vis t = some g) : re_temp t = none := by
  cases hw : re_temp t with
  | none => rfl
  | some x => exact absurd (re_temp_slash hw) (re_vis_no_slash h)

theorem vis_excl_qnh {t : List Char} {g : List Char × List Char}
    (h : re_vis t = some g) : re_qnh t = none := by
  cases hw : re_qnh t with
  | none => rfl
  | some x =>
    obtain ⟨g1, g2⟩ := x
    obtain ⟨c, r, ht, hd⟩ := re_vis_head h
    obtain ⟨ht2, h1, -⟩ := re_qnh_some hw
    rw [ht] at ht2
    rcases h1 with h1 | h1
    · rw [h1] at ht2
      simp only [List.singleton_append, List.cons.injEq] at ht2
      rw [ht2.1] at hd
      exact absurd hd (by decide)
    · rw [h1] at ht2
      simp only [List.singleton_append, List.cons.injEq] at ht2
      rw [ht2.1] at hd
      exact absurd hd (by decide)

theorem temp_excl_qnh {t : List Char} {g : List Char × List Char × List Char × List Char}
    (h : re_temp t = some g) : re_qnh t = none := by
  cases hw : re_qnh t with
  | none => rfl
  | some x => exact absurd (re_temp_slash h) (re_qnh_no_slash hw)

/-! ## A recognizer whose pattern fails returns nothing -/

theorem find_station_none {t : List Char} (m : metar_t) (h : re_station t = none) :
    find_station t m = none := by
  unfold find_station; rw [h]; simp

theorem find_daytime_none {t : List Char} (m : metar_t) (h : re_daytime t = none) :
    find_daytime t m = none := by
  unfold find_daytime; rw [h]; simp

theorem find_wind_none {t : List Char} (m : metar_t) (h : re_wind t = none) :
    find_wind t m = none := by
  unfold find_wind; rw [h]; simp

theorem find_vis_none {t : List Char} (m : metar_t) (h : re_vis t = none) :
    find_vis t m = none := by
  unfold find_vis; rw [h]; simp

theorem find_temp_none {t : List Char} (m : metar_t) (h : re_temp t = none) :
    find_temp t m = none := by
  unfold find_temp; rw [h]; simp

theorem find_qnh_none {t : List Char} (m : metar_t) (h : re_qnh t = none) :
    find_qnh t m = none := by
  unfold find_qnh; rw [h]; simp

theorem find_cloud_none {t : List Char} (m : metar_t) (h : re_cloud t = none) :
    find_cloud t m = none := by
  unfold find_cloud; rw [h]

theorem station_excl_daytime {t g : List Char} (h : re_station t = some g) :
    re_daytime t = none := by
  cases hw : re_daytime t with
  | none => rfl
  | some x => rw [re_station_none_of_digit (re_daytime_digit hw)] at h; simp at h

theorem station_excl_wind {t g : List Char} (h : re_station t = some g) :
    re_wind t = none := by
  cases hw : re_wind t with
  | none => rfl
  | some x => rw [re_station_none_of_digit (re_wind_digit hw)] at h; simp at h

theorem station_excl_vis {t g : List Char} (h : re_station t = some g) :
    re_vis t = none := by
  cases hw : re_vis t with
  | none => rfl
  | some x => rw [re_station_none_of_digit (re_vis_digit hw)] at h; simp at h

theorem station_excl_temp {t g : List Char} (h : re_station t = some g) :
    re_temp t = none := by
  cases hw : re_temp t with
  | none => rfl
  | some x => rw [re_station_none_of_digit (re_temp_digit hw)] at h; simp at h

theorem station_excl_qnh {t g : List Char} (h : re_station t = some g) :
    re_qnh t = none := by
  cases hw : re_qnh t with
  | none => rfl
  | some x => rw [re_station_none_of_digit (re_qnh_digit hw)] at h; simp at h

/-! ## Each field group is written by its own recognizer only -/

theorem station_analyse (t : List Char) (m : metar_t) :
    (analyse_token t m).station = ((find_station t m).getD m).station := by
  rcases analyse_token_cases t m with h | ⟨h0, h⟩ | ⟨h0, -, h⟩ | ⟨h0, -, -, h⟩ |
    ⟨h0, -, -, -, h⟩ | ⟨h0, -, -, -, -, h⟩ | ⟨h0, -, -, -, -, -, h⟩ | ⟨h0, -, -, -, -, -, -, h⟩
  · rw [h]; rfl
  · obtain ⟨-, g1, g2, -, hr⟩ := find_daytime_some h
    rw [h0, hr]; rfl
  · obtain ⟨-, -, wd, ws, wg, wu, hr⟩ := find_wind_some h
    rw [h0, hr]; rfl
  · obtain ⟨-, -, v, vu, hr⟩ := find_vis_some h
    rw [h0, hr]; rfl
  · obtain ⟨-, -, x, y, hr⟩ := find_temp_some h
    rw [h0, hr]; rfl
  · obtain ⟨-, -, u, fp, q, hr⟩ := find_qnh_some h
    rw [h0, hr]; rfl
  · obtain ⟨-, cl, hr⟩ := find_cloud_some h
    rw [h0, hr]; rfl
  · obtain ⟨ph, mn, hr⟩ := find_phenomena_shape t m
    rw [h0, h, hr]; rfl

theorem daytime_analyse (t : List Char) (m : metar_t) :
    daytime_fields (analyse_token t m) = daytime_fields ((find_daytime t m).getD m) := by
  rcases analyse_token_cases t m with h | ⟨-, h⟩ | ⟨-, h0, h⟩ | ⟨-, h0, -, h⟩ |
    ⟨-, h0, -, -, h⟩ | ⟨-, h0, -, -, -, h⟩ | ⟨-, h0, -, -, -, -, h⟩ | ⟨-, h0, -, -, -, -, -, h⟩
  · obtain ⟨-, g, hg, hr⟩ := find_station_some h
    rw [find_daytime_none m (station_excl_daytime hg), hr]; rfl
  · rw [h]; rfl
  · obtain ⟨-, -, wd, ws, wg, wu, hr⟩ := find_wind_some h
    rw [h0, hr]; rfl
  · obtain ⟨-, -, v, vu, hr⟩ := find_vis_some h
    rw [h0, hr]; rfl
  · obtain ⟨-, -, x, y, hr⟩ := find_temp_some h
    rw [h0, hr]; rfl
  · obtain ⟨-, -, u, fp, q, hr⟩ := find_qnh_some h
    rw [h0, hr]; rfl
  · obtain ⟨-, cl, hr⟩ := find_cloud_some h
    rw [h0, hr]; rfl
  · obtain ⟨ph, mn, hr⟩ := find_phenomena_shape t m
    rw [h0, h, hr]; rfl

theorem wind_analyse (t : List Char) (m : metar_t) :
    wind_fields (analyse_token t m) = wind_fields ((find_wind t m).getD m) := by
  rcases analyse_token_cases t m with h | ⟨-, h⟩ | ⟨-, -, h⟩ | ⟨-, -, h0, h⟩ |
    ⟨-, -, h0, -, h⟩ | ⟨-, -, h0, -, -, h⟩ | ⟨-, -, h0, -, -, -, h⟩ | ⟨-, -, h0, -, -, -, -, h⟩
  · obtain ⟨-, g, hg, hr⟩ := find_station_some h
    rw [find_wind_none m (station_excl_wind hg), hr]; rfl
  · obtain ⟨-, g1, g2, hg, hr⟩ := find_daytime_some h
    rw [find_wind_none m (daytime_excl_wind hg), hr]; rfl
  · rw [h]; rfl
  · obtain ⟨-, -, v, vu, hr⟩ := find_vis_some h
    rw [h0, hr]; rfl
  · obtain ⟨-, -, x, y, hr⟩ := find_temp_some h
    rw [h0, hr]; rfl
  · obtain ⟨-, -, u, fp, q, hr⟩ := find_qnh_some h
    rw [h0, hr]; rfl
  · obtain ⟨-, cl, hr⟩ := find_cloud_some h
    rw [h0, hr]; rfl
  · obtain ⟨ph, mn, hr⟩ := find_phenomena_shape t m
    rw [h0, h, hr]; rfl

theorem vis_analyse (t : List Char) (m : metar_t) :
    vis_fields (analyse_token t m) = vis_fields ((find_vis t m).getD m) := by
  rcases analyse_token_cases t m with h | ⟨-, h⟩ | ⟨-, -, h⟩ | ⟨-, -, -, h⟩ |
    ⟨-, -, -, h0, h⟩ | ⟨-, -, -, h0, -, h⟩ | ⟨-, -, -, h0, -, -, h⟩ | ⟨-, -, -, h0, -, -, -, h⟩
  · obtain ⟨-, g, hg, hr⟩ := find_station_some h
    rw [find_vis_none m (station_excl_vis hg), hr]; rfl
  · obtain ⟨-, g1, g2, hg, hr⟩ := find_daytime_some h
    rw [find_vis_none m (daytime_excl_vis hg), hr]; rfl
  · obtain ⟨-, ⟨g, hg⟩, wd, ws, wg, wu, hr⟩ := find_wind_some h
    rw [find_vis_none m (wind_excl_vis hg), hr]; rfl
  · rw [h]; rfl
  · obtain ⟨-, -, x, y, hr⟩ := find_temp_some h
    rw [h0, hr]; rfl
  · obtain ⟨-, -, u, fp, q, hr⟩ := find_qnh_some h
    rw [h0, hr]; rfl
  · obtain ⟨-, cl, hr⟩ := find_cloud_some h
    rw [h0, hr]; rfl
  · obtain ⟨ph, mn, hr⟩ := find_phenomena_shape t m
    rw [h0, h, hr]; rfl

theorem temp_analyse (t : List Char) (m : metar_t) :
    temp_fields (analyse_token t m) = temp_fields ((find_temp t m).getD m) := by
  rcases analyse_token_cases t m with h | ⟨-, h⟩ | ⟨-, -, h⟩ | ⟨-, -, -, h⟩ |
    ⟨-, -, -, -, h⟩ | ⟨-, -, -, -, h0, h⟩ | ⟨-, -, -, -, h0, -, h⟩ | ⟨-, -, -, -, h0, -, -, h⟩
  · obtain ⟨-, g, hg, hr⟩ := find_station_some h
    rw [find_temp_none m (station_excl_temp hg), hr]; rfl
  · obtain ⟨-, g1, g2, hg, hr⟩ := find_daytime_some h
    rw [find_temp_none m (daytime_excl_temp hg), hr]; rfl
  · obtain ⟨-, ⟨g, hg⟩, wd, ws, wg, wu, hr⟩ := find_wind_some h
    rw [find_temp_none m (wind_excl_temp hg), hr]; rfl
  · obtain ⟨-, ⟨g, hg⟩, v, vu, hr⟩ := find_vis_some h
    rw [find_temp_none m (vis_excl_temp hg), hr]; rfl
  · rw [h]; rfl
  · obtain ⟨-, -, u, fp, q, hr⟩ := find_qnh_some h
    rw [h0, hr]; rfl
  · obtain ⟨-, cl, hr⟩ := find_cloud_some h
    rw [h0, hr]; rfl
  · obtain ⟨ph, mn, hr⟩ := find_phenomena_shape t m
    rw [h0, h, hr]; rfl

theorem qnh_analyse (t : List Char) (m : metar_t) :
    qnh_fields (analyse_token t m) = qnh_fields ((find_qnh t m).getD m) := by
  rcases analyse_token_cases t m with h | ⟨-, h⟩ | ⟨-, -, h⟩ | ⟨-, -, -, h⟩ |
    ⟨-, -, -, -, h⟩ | ⟨-, -, -, -, -, h⟩ | ⟨-, -, -, -, -, h0, h⟩ | ⟨-, -, -, -, -, h0, -, h⟩
  · obtain ⟨-, g, hg, hr⟩ := find_station_some h
    rw [find_qnh_none m (station_excl_qnh hg), hr]; rfl
  · obtain ⟨-, g1, g2, hg, hr⟩ := find_daytime_some h
    rw [find_qnh_none m (daytime_excl_qnh hg), hr]; rfl
  · obtain ⟨-, ⟨g, hg⟩, wd, ws, wg, wu, hr⟩ := find_wind_some h
    rw [find_qnh_none m (wind_excl_qnh hg), hr]; rfl
  · obtain ⟨-, ⟨g, hg⟩, v, vu, hr⟩ := find_vis_some h
    rw [find_qnh_none m (vis_excl_qnh hg), hr]; rfl
  · obtain ⟨-, ⟨g, hg⟩, x, y, hr⟩ := find_temp_some h
    rw [find_qnh_none m (temp_excl_qnh hg), hr]; rfl
  · rw [h]; rfl
  · obtain ⟨-, cl, hr⟩ := find_cloud_some h
    rw [h0, hr]; rfl
  · obtain ⟨ph, mn, hr⟩ := find_phenomena_shape t m
    rw [h0, h, hr]; rfl

/-! ## The `strtok` loop is a fold over the tokens of the text -/

theorem split_on_eq (sep : Char) (s : List Char) :
    split_on sep s = s.takeWhile (fun x => x != sep) ::
      (match s.dropWhile (fun x => x != sep) with
       | [] => []
       | _ :: r => split_on sep r) := by
  induction s with
  | nil => simp [split_on]
  | cons c cs ih =>
    by_cases hc : c = sep
    · subst hc
      simp [split_on]
    · have h1 : (c == sep) = false := by simpa using hc
      have h2 : (c != sep) = true := by simpa using hc
      rw [split_on, h1, ih]
      simp [List.takeWhile_cons, List.dropWhile_cons, h2]

theorem tokens_nil : tokens [] = [] := by
  simp [tokens, split_on]

theorem tokens_cons_space (s : List Char) : tokens (' ' :: s) = tokens s := by
  simp [tokens, split_on]

theorem tokens_dropWhile (s : List Char) :
    tokens (s.dropWhile (fun c => c == ' ')) = tokens s := by
  induction s with
  | nil => rfl
  | cons c cs ih =>
    by_cases hc : c = ' '
    · subst hc
      rw [tokens_cons_space]
      simpa [List.dropWhile_cons] using ih
    · have h1 : (c == ' ') = false := by simpa using hc
      simp [List.dropWhile_cons, h1]

theorem strtok_none {s : List Char} (h : strtok s = none) : tokens s = [] := by
  unfold strtok at h
  split at h
  · rename_i hd
    rw [← tokens_dropWhile, hd, tokens_nil]
  · simp at h

theorem strtok_some {s tok rest : List Char} (h : strtok s = some (tok, rest)) :
    tokens s = tok :: tokens rest ∧ rest.length < s.length ∧ tok ≠ [] := by
  unfold strtok at h
  split at h
  · simp at h
  · rename_i c cs hd
    simp only [Option.some.injEq, Prod.mk.injEq] at h
    obtain ⟨h1, h2⟩ := h
    have hc : (c == ' ') = false := by
      have := List.head_dropWhile_not (fun c => c == ' ') s (by rw [hd]; simp)
      simpa [hd] using this
    have hc2 : (c != ' ') = true := by simpa using hc
    have htw : tok = c :: cs.takeWhile (fun x => x != ' ') := by
      rw [← h1]; simp [List.takeWhile_cons, hc2]
    have hdw : (c :: cs).dropWhile (fun x => x != ' ') = cs.dropWhile (fun x => x != ' ') := by
      simp [List.dropWhile_cons, hc2]
    rw [hdw] at h2
    have hlen : (c :: cs).length ≤ s.length := by
      rw [← hd]
      exact (List.dropWhile_sublist _).length_le
    have hlen2 : (cs.dropWhile (fun x => x != ' ')).length ≤ cs.length :=
      (List.dropWhile_sublist _).length_le
    refine ⟨?_, ?_, ?_⟩
    · rw [← tokens_dropWhile s, hd, tokens, split_on_eq, hdw]
      have hne : (List.takeWhile (fun x => x != ' ') (c :: cs)).isEmpty = false := by
        simp [List.takeWhile_cons, hc2]
      rw [List.filter_cons, hne]
      simp only [Bool.not_false, if_true]
      rw [h1, ← h2]
      congr 1
      cases hdr : List.dropWhile (fun x => x != ' ') cs with
      | nil => simp [tokens_nil]
      | cons x r => simp [tokens]
    · rw [← h2]
      simp only [List.length_drop, List.length_cons] at *
      omega
    · rw [htw]; simp

theorem token_loop_eq (fuel : Nat) (s : List Char) (m : metar_t) (h : s.length < fuel) :
    token_loop fuel s m = run_tokens (tokens s) m := by
  induction fuel generalizing s m with
  | zero => omega
  | succ n ih =>
    unfold token_loop
    cases hs : strtok s with
    | none => simp [strtok_none hs, run_tokens]
    | some p =>
      obtain ⟨tok, rest⟩ := p
      obtain ⟨h1, h2, -⟩ := strtok_some hs
      simp only
      rw [ih rest _ (by omega), h1]
      rfl

theorem parse_Metar_eq (report : List Char) (init : metar_t) :
    parse_Metar report init
      = run_tokens (tokens (strip_newlines (report.length + 1) report)) metar_cleared := by
  unfold parse_Metar
  simp only
  rw [token_loop_eq _ _ _ (Nat.lt_succ_self _)]
  rfl

theorem run_tokens_append (a b : List (List Char)) (m : metar_t) :
    run_tokens (a ++ b) m = run_tokens b (run_tokens a m) := by
  simp [run_tokens, List.foldl_append]

theorem run_tokens_cons (t : List Char) (ts : List (List Char)) (m : metar_t) :
    run_tokens (t :: ts) m = run_tokens ts (analyse_token t m) := rfl

/-! ## What each recognizer stores for a matching token -/

theorem cstr_memcpy_zeros (g : List Char) (n : Nat) (hg : ∀ c ∈ g, (c != NUL) = true) :
    cstr (memcpy (zeros TMP_SIZE) g n) = g.take n := by
  unfold memcpy
  have : (zeros TMP_SIZE).drop n = zeros (TMP_SIZE - n) := by simp [zeros]
  rw [this, cstr_append_zeros _ _ (fun c hc => hg c (List.mem_of_mem_take hc))]

theorem sscanf_d_take (g : List Char) (n : Nat) (old : Int) (hg : ∀ c ∈ g, isDigit c = true)
    (hne : g ≠ []) (hn : 0 < n) : sscanf_d (g.take n) old = INT_wrap (strtol (g.take n)) := by
  apply sscanf_d_digits _ _ (fun c hc => hg c (List.mem_of_mem_take hc))
  cases g with
  | nil => exact absurd rfl hne
  | cons c r =>
    cases n with
    | zero => omega
    | succ k => simp

theorem sscanf_tmp_of (g : List Char) (old : Int) (hg : ∀ c ∈ g, isDigit c = true)
    (hne : g ≠ []) : sscanf_d (tmp_of g) old = INT_wrap (strtol (g.take TMP_SIZE)) := by
  rw [tmp_of_eq g (fun c hc => isDigit_ne_NUL (hg c hc))]
  exact sscanf_d_take g _ old hg hne (by decide)

theorem find_daytime_result {t g1 g2 : List Char} (m : metar_t)
    (h : re_daytime t = some (g1, g2)) (hgate : m.day = 0) :
    find_daytime t m = some { m with day := (decimal g1 : Int), time := (decimal g2 : Int) } := by
  obtain ⟨a, b, c, d, e, f, -, h1, h2, ha, hb, hc, hd, he, hf⟩ := re_daytime_some h
  have hg1 : ∀ x ∈ g1, isDigit x = true := by
    intro x hx; rw [h1] at hx; simp at hx; rcases hx with rfl | rfl <;> assumption
  have hg2 : ∀ x ∈ g2, isDigit x = true := by
    intro x hx; rw [h2] at hx; simp at hx
    rcases hx with rfl | rfl | rfl | rfl <;> assumption
  have l1 : g1.length = 2 := by rw [h1]; rfl
  have l2 : g2.length = 4 := by rw [h2]; rfl
  have b1 := decimal_lt_pow g1 hg1
  have b2 := decimal_lt_pow g2 hg2
  rw [l1] at b1; rw [l2] at b2
  unfold find_daytime
  rw [h]
  simp only [hgate, beq_self_eq_true, if_true]
  rw [sscanf_tmp_of g1 _ hg1 (by rw [h1]; simp), sscanf_tmp_of g2 _ hg2 (by rw [h2]; simp),
    List.take_of_length_le (by rw [l1]; decide), List.take_of_length_le (by rw [l2]; decide),
    INT_wrap_strtol _ (by omega), INT_wrap_strtol _ (by omega)]

/-- The wind direction stored for group 1 of the wind pattern. -/
theorem wind_dir_value (g1 : List Char) (a b c : Char) (h1 : g1 = [a, b, c])
    (hv : g1 = "VRB".toList ∨ (isDigit a = true ∧ isDigit b = true ∧ isDigit c = true))
    (old : Int) :
    (if g1.length != 0 then
        if !strstr (tmp_of g1) "VRB".toList then sscanf_d (tmp_of g1) old else -1
      else old) = if g1 = "VRB".toList then -1 else (decimal g1 : Int) := by
  rcases hv with hv | ⟨ha, hb, hc⟩
  · rw [hv]
    have e0 : ("VRB".toList.length != 0) = true := by decide
    have e1 : strstr (tmp_of "VRB".toList) "VRB".toList = true := by decide
    rw [if_pos e0, e1, if_pos rfl]
    rfl
  · have hg1 : ∀ x ∈ g1, isDigit x = true := by
      intro x hx; rw [h1] at hx; simp at hx; rcases hx with rfl | rfl | rfl <;> assumption
    have l1 : g1.length = 3 := by rw [h1]; rfl
    have b1 := decimal_lt_pow g1 hg1
    rw [l1] at b1
    have hne : g1 ≠ "VRB".toList := by
      intro hv
      rw [h1] at hv
      simp only [String.toList, List.cons.injEq] at hv
      rw [hv.1] at ha
      exact absurd ha (by decide)
    have haV : a ≠ 'V' := by
      intro hv; rw [hv] at ha; exact absurd ha (by decide)
    have hbV : b ≠ 'V' := by
      intro hv; rw [hv] at hb; exact absurd hb (by decide)
    have hcV : c ≠ 'V' := by
      intro hv; rw [hv] at hc; exact absurd hc (by decide)
    have hstr : strstr g1 "VRB".toList = false := by
      rw [h1]
      simp [strstr, List.isPrefixOf, Ne.symm haV, Ne.symm hbV, Ne.symm hcV]
    rw [tmp_of_digits g1 hg1 (by rw [l1]; decide), hstr, if_neg hne,
      sscanf_d_digits g1 _ hg1 (by rw [h1]; simp), INT_wrap_strtol _ (by omega)]
    simp [l1]

theorem find_wind_result {t g1 g2 g3 g4 : List Char} (m : metar_t)
    (h : re_wind t = some (g1, g2, g3, g4)) (hgate : m.winddir = 0) :
    find_wind t m = some { m with
      winddir := if g1 = "VRB".toList then -1 else (decimal g1 : Int),
      windstr := (decimal g2 : Int),
      windgust :=
        if g3 = [] then (decimal g2 : Int)
        else INT_wrap (strtol ((g3.drop 1).take TMP_SIZE)),
      windunit := 'K' :: 'T' :: m.windunit.drop 2 } := by
  obtain ⟨a, b, c, d, e, h1, h2, h4, -, hv, hd, he, h3⟩ := re_wind_some h
  have hg2 : ∀ x ∈ g2, isDigit x = true := by
    intro x hx; rw [h2] at hx; simp at hx; rcases hx with rfl | rfl <;> assumption
  have l2 : g2.length = 2 := by rw [h2]; rfl
  have b2 := decimal_lt_pow g2 hg2
  rw [l2] at b2
  have e1 := wind_dir_value g1 a b c h1 hv m.winddir
  have e2 : (if g2.length != 0 then sscanf_d (tmp_of g2) m.windstr else m.windstr)
      = (decimal g2 : Int) := by
    rw [sscanf_tmp_of g2 _ hg2 (by rw [h2]; simp), List.take_of_length_le (by rw [l2]; decide),
      INT_wrap_strtol _ (by omega)]
    simp [l2]
  have e4 : (if g4.length != 0 then memcpy m.windunit g4 (if g4.length < 5 then g4.length else 5)
      else m.windunit) = 'K' :: 'T' :: m.windunit.drop 2 := by
    rw [h4]; rfl
  have e3 : (if g3.length != 0 then
        sscanf_d (cstr (memcpy (zeros TMP_SIZE) (g3.drop 1)
          (if g3.length < TMP_SIZE then g3.length - 1 else TMP_SIZE))) m.windgust
      else (decimal g2 : Int))
      = if g3 = [] then (decimal g2 : Int)
        else INT_wrap (strtol ((g3.drop 1).take TMP_SIZE)) := by
    rcases h3 with h3 | ⟨ds, h3, hne, hds⟩
    · rw [h3]; simp
    · have hl : (g3.length != 0) = true := by rw [h3]; simp
      have hn : g3 ≠ [] := by rw [h3]; simp
      have hdrop : g3.drop 1 = ds := by rw [h3]; rfl
      rw [if_pos hl, if_neg hn, hdrop,
        cstr_memcpy_zeros ds _ (fun c hc => isDigit_ne_NUL (hds c hc))]
      by_cases hlt : g3.length < TMP_SIZE
      · rw [if_pos hlt]
        have hlen : g3.length - 1 = ds.length := by rw [h3]; simp
        have hlen2 : ds.length ≤ TMP_SIZE := by rw [h3] at hlt; simp at hlt; omega
        rw [hlen, List.take_length, List.take_of_length_le hlen2]
        exact sscanf_d_digits ds _ hds hne
      · rw [if_neg hlt]
        exact sscanf_d_take ds _ _ hds hne (by decide)
  unfold find_wind
  rw [h]
  simp only [hgate, beq_self_eq_true, if_true]
  rw [hgate] at e1
  rw [e2, e3, e4, e1]

theorem find_vis_result {t g1 g2 : List Char} (m : metar_t)
    (h : re_vis t = some (g1, g2)) (hgate : m.vis = 0) :
    find_vis t m = some { m with
      vis := INT_wrap (strtol (g1.take TMP_SIZE)),
      visunit := if g2 = [] then 'M' :: m.visunit.drop 1 else 'S' :: 'M' :: m.visunit.drop 2 } := by
  obtain ⟨-, hne, hd, h2⟩ := re_vis_some h
  have e2 : (if g2.length != 0 then memcpy m.visunit g2 (if g2.length < 5 then g2.length else 5)
      else strncpy m.visunit "M".toList 1)
      = if g2 = [] then 'M' :: m.visunit.drop 1 else 'S' :: 'M' :: m.visunit.drop 2 := by
    rcases h2 with h2 | h2
    · rw [h2]; rfl
    · rw [h2]; rfl
  unfold find_vis
  rw [h]
  simp only [hgate, beq_self_eq_true, if_true]
  rw [sscanf_tmp_of g1 _ hd hne, e2]

theorem find_temp_result {t g1 g2 g3 g4 : List Char} (m : metar_t)
    (h : re_temp t = some (g1, g2, g3, g4)) (hgate : m.temp = 0) :
    find_temp t m = some { m with
      temp := if g1 = ['M'] then INT_wrap (-INT_wrap (strtol (g2.take TMP_SIZE)))
        else INT_wrap (strtol (g2.take TMP_SIZE)),
      dewp := if g3 = ['M'] then INT_wrap (-INT_wrap (strtol (g4.take TMP_SIZE)))
        else INT_wrap (strtol (g4.take TMP_SIZE)) } := by
  obtain ⟨-, h1, h3, hne2, hd2, hne4, hd4⟩ := re_temp_some h
  have e1 : strncmp_eq (tmp_of g1) "M".toList 1 = decide (g1 = ['M']) := by
    rcases h1 with h1 | h1 <;> rw [h1] <;> decide
  have e3 : strncmp_eq (tmp_of g3) "M".toList 1 = decide (g3 = ['M']) := by
    rcases h3 with h3 | h3 <;> rw [h3] <;> decide
  unfold find_temp
  rw [h]
  simp only [hgate, beq_self_eq_true, if_true]
  rw [sscanf_tmp_of g2 _ hd2 hne2, sscanf_tmp_of g4 _ hd4 hne4, e1, e3]
  simp only [decide_eq_true_eq]

theorem find_qnh_result {t g1 g2 : List Char} (m : metar_t)
    (h : re_qnh t = some (g1, g2)) (hgate : m.qnh = 0) :
    find_qnh t m = some { m with
      qnhunit := (if g1 = ['Q'] then "hPa".toList else inHg) ++ m.qnhunit.drop 3,
      qnhfp := if g1 = ['Q'] then m.qnhfp else 2,
      qnh := INT_wrap (strtol (g2.take TMP_SIZE)) } := by
  obtain ⟨-, h1, hne, hd⟩ := re_qnh_some h
  unfold find_qnh
  rw [h]
  simp only [hgate, beq_self_eq_true, if_true]
  rw [sscanf_tmp_of g2 _ hd hne]
  rcases h1 with h1 | h1
  · rw [h1]
    have e : strncmp_eq (cstr (memcpy (zeros TMP_SIZE) ['Q']
        (if ['Q'].length < 5 then ['Q'].length else 5))) "Q".toList 1 = true := by decide
    rw [e]
    rfl
  · rw [h1]
    have e : strncmp_eq (cstr (memcpy (zeros TMP_SIZE) ['A']
        (if ['A'].length < 5 then ['A'].length else 5))) "Q".toList 1 = false := by decide
    have e' : strncmp_eq (cstr (memcpy (zeros TMP_SIZE) ['A']
        (if ['A'].length < 5 then ['A'].length else 5))) "A".toList 1 = true := by decide
    rw [e, e']
    rfl

theorem find_station_result {t g : List Char} (m : metar_t)
    (h : re_station t = some g) (hgate : m.station.headD NUL = NUL) :
    find_station t m = some { m with station := t.take 10 ++ m.station.drop (min t.length 10) } := by
  obtain ⟨hg, -, -⟩ := re_station_some h
  subst hg
  unfold find_station
  rw [h]
  simp only [hgate, beq_self_eq_true, if_true, memcpy]
  by_cases hl : g.length < 10
  · rw [if_pos hl, List.take_length, List.take_of_length_le (by omega),
      Nat.min_eq_left (by omega)]
  · rw [if_neg hl, Nat.min_eq_right (by omega)]

/-! ## A field that is set is frozen; an unset field takes the next match -/

theorem run_tokens_frozen {β : Type} (cmp : metar_t → β) (isSet : metar_t → Prop)
    (h_frozen : ∀ t m, isSet m → cmp (analyse_token t m) = cmp m ∧ isSet (analyse_token t m))
    (ts : List (List Char)) (m : metar_t) (hm : isSet m) :
    cmp (run_tokens ts m) = cmp m := by
  induction ts generalizing m with
  | nil => rfl
  | cons t ts ih =>
    rw [run_tokens_cons, ih _ (h_frozen t m hm).2, (h_frozen t m hm).1]

theorem run_tokens_first_wins {β : Type} (cmp : metar_t → β) (isSet Inv : metar_t → Prop)
    (h_frozen : ∀ t m, isSet m → cmp (analyse_token t m) = cmp m ∧ isSet (analyse_token t m))
    (h_open : ∀ t m, Inv m → ¬ isSet m →
      Inv (analyse_token t m) ∧
      (isSet (analyse_token t m) ↔ isSet (analyse_token t metar_cleared)) ∧
      (isSet (analyse_token t metar_cleared) →
        cmp (analyse_token t m) = cmp (analyse_token t metar_cleared)))
    (pre post : List (List Char)) (t : List Char) (m : metar_t) (hI : Inv m) (hS : ¬ isSet m)
    (hpre : ∀ x ∈ pre, ¬ isSet (analyse_token x metar_cleared))
    (ht : isSet (analyse_token t metar_cleared)) :
    cmp (run_tokens (pre ++ t :: post) m) = cmp (analyse_token t metar_cleared) := by
  induction pre generalizing m with
  | nil =>
    obtain ⟨-, h2, h3⟩ := h_open t m hI hS
    rw [List.nil_append, run_tokens_cons,
      run_tokens_frozen cmp isSet h_frozen post _ (h2.mpr ht), h3 ht]
  | cons x pre ih =>
    obtain ⟨h1, h2, -⟩ := h_open x m hI hS
    have hx : ¬ isSet (analyse_token x metar_cleared) := hpre x (by simp)
    rw [List.cons_append, run_tokens_cons]
    exact ih _ h1 (fun h => hx (h2.mp h)) (fun y hy => hpre y (by simp [hy]))

theorem find_station_gate {t : List Char} {m : metar_t} (h : m.station.headD NUL ≠ NUL) :
    find_station t m = none := by
  unfold find_station
  rw [if_neg]
  rw [beq_iff_eq]
  exact h

theorem find_daytime_gate {t : List Char} {m : metar_t} (h : m.day ≠ 0) :
    find_daytime t m = none := by
  unfold find_daytime; simp [h]

theorem find_wind_gate {t : List Char} {m : metar_t} (h : m.winddir ≠ 0) :
    find_wind t m = none := by
  unfold find_wind; simp [h]

theorem find_vis_gate {t : List Char} {m : metar_t} (h : m.vis ≠ 0) :
    find_vis t m = none := by
  unfold find_vis; simp [h]

theorem find_temp_gate {t : List Char} {m : metar_t} (h : m.temp ≠ 0) :
    find_temp t m = none := by
  unfold find_temp; simp [h]

theorem find_qnh_gate {t : List Char} {m : metar_t} (h : m.qnh ≠ 0) :
    find_qnh t m = none := by
  unfold find_qnh; simp [h]

/-! ### Wind -/

theorem wind_frozen (t : List Char) (m : metar_t) (h : m.winddir ≠ 0) :
    wind_fields (analyse_token t m) = wind_fields m ∧ (analyse_token t m).winddir ≠ 0 := by
  have := wind_analyse t m
  rw [find_wind_gate h] at this
  refine ⟨this, ?_⟩
  have h2 : (analyse_token t m).winddir = m.winddir := congrArg (fun p => p.1) this
  rw [h2]; exact h

theorem wind_open (t : List Char) (m : metar_t) (hI : m.windunit.drop 2 = zeros 3)
    (h : ¬ m.winddir ≠ 0) :
    (analyse_token t m).windunit.drop 2 = zeros 3 ∧
    ((analyse_token t m).winddir ≠ 0 ↔ (analyse_token t metar_cleared).winddir ≠ 0) ∧
    ((analyse_token t metar_cleared).winddir ≠ 0 →
      wind_fields (analyse_token t m) = wind_fields (analyse_token t metar_cleared)) := by
  have hg : m.winddir = 0 := by simpa using h
  have e1 := wind_analyse t m
  have e2 := wind_analyse t metar_cleared
  cases hre : re_wind t with
  | none =>
    rw [find_wind_none _ hre] at e1 e2
    simp only [wind_fields, Option.getD_none, Prod.mk.injEq] at e1 e2
    refine ⟨by rw [e1.2.2.2]; exact hI, ?_, ?_⟩
    · rw [e1.1, e2.1, hg]; simp [metar_cleared]
    · intro hc; rw [e2.1] at hc; simp [metar_cleared] at hc
  | some g =>
    obtain ⟨g1, g2, g3, g4⟩ := g
    rw [find_wind_result m hre hg] at e1
    rw [find_wind_result metar_cleared hre rfl] at e2
    simp only [wind_fields, Option.getD_some, Prod.mk.injEq] at e1 e2
    refine ⟨by rw [e1.2.2.2]; simpa using hI, ?_, ?_⟩
    · rw [e1.1, e2.1]
    · intro _
      simp only [wind_fields, Prod.mk.injEq]
      refine ⟨by rw [e1.1, e2.1], by rw [e1.2.1, e2.2.1], by rw [e1.2.2.1, e2.2.2.1], ?_⟩
      rw [e1.2.2.2, e2.2.2.2, hI]
      rfl

/-! ### Station -/

theorem station_frozen (t : List Char) (m : metar_t) (h : m.station.headD NUL ≠ NUL) :
    (analyse_token t m).station = m.station ∧ (analyse_token t m).station.headD NUL ≠ NUL := by
  have := station_analyse t m
  rw [find_station_gate h] at this
  simp only [Option.getD_none] at this
  rw [this]
  exact ⟨rfl, h⟩

theorem isUpper_ne_NUL {c : Char} (h : isUpper c = true) : c ≠ NUL := by
  intro hc; subst hc; exact absurd h (by decide)

theorem station_open (t : List Char) (m : metar_t)
    (hI : m.station = zeros 10 ∨ m.station.headD NUL ≠ NUL)
    (h : ¬ m.station.headD NUL ≠ NUL) :
    ((analyse_token t m).station = zeros 10 ∨ (analyse_token t m).station.headD NUL ≠ NUL) ∧
    ((analyse_token t m).station.headD NUL ≠ NUL ↔
      (analyse_token t metar_cleared).station.headD NUL ≠ NUL) ∧
    ((analyse_token t metar_cleared).station.headD NUL ≠ NUL →
      (analyse_token t m).station = (analyse_token t metar_cleared).station) := by
  have hz : m.station = zeros 10 := hI.resolve_right h
  have hg : m.station.headD NUL = NUL := by simpa using h
  have e1 := station_analyse t m
  have e2 := station_analyse t metar_cleared
  cases hre : re_station t with
  | none =>
    rw [find_station_none _ hre] at e1 e2
    simp only [Option.getD_none] at e1 e2
    rw [e1, e2, hz]
    exact ⟨Or.inl rfl, Iff.rfl, fun _ => rfl⟩
  | some g =>
    rw [find_station_result m hre hg] at e1
    rw [find_station_result metar_cleared hre rfl] at e2
    simp only [Option.getD_some] at e1 e2
    rw [hz] at e1
    have e2' : (analyse_token t metar_cleared).station
        = t.take 10 ++ (zeros 10).drop (min t.length 10) := e2
    rw [e1, e2']
    refine ⟨Or.inr ?_, Iff.rfl, fun _ => rfl⟩
    obtain ⟨-, hne, hu⟩ := re_station_some hre
    cases t with
    | nil => exact absurd rfl hne
    | cons c r =>
      simp only [List.take_succ_cons, List.cons_append, List.headD_cons]
      exact isUpper_ne_NUL (hu c (by simp))

/-! ### Day and time -/

theorem daytime_frozen (t : List Char) (m : metar_t) (h : m.day ≠ 0) :
    daytime_fields (analyse_token t m) = daytime_fields m ∧ (analyse_token t m).day ≠ 0 := by
  have := daytime_analyse t m
  rw [find_daytime_gate h] at this
  refine ⟨this, ?_⟩
  have h2 : (analyse_token t m).day = m.day := congrArg (fun p => p.1) this
  rw [h2]; exact h

theorem daytime_open (t : List Char) (m : metar_t) (_hI : True) (h : ¬ m.day ≠ 0) :
    True ∧
    ((analyse_token t m).day ≠ 0 ↔ (analyse_token t metar_cleared).day ≠ 0) ∧
    ((analyse_token t metar_cleared).day ≠ 0 →
      daytime_fields (analyse_token t m) = daytime_fields (analyse_token t metar_cleared)) := by
  have hg : m.day = 0 := by simpa using h
  have e1 := daytime_analyse t m
  have e2 := daytime_analyse t metar_cleared
  cases hre : re_daytime t with
  | none =>
    rw [find_daytime_none _ hre] at e1 e2
    simp only [daytime_fields, Option.getD_none, Prod.mk.injEq] at e1 e2
    refine ⟨trivial, ?_, ?_⟩
    · rw [e1.1, e2.1, hg]; simp [metar_cleared]
    · intro hc; rw [e2.1] at hc; simp [metar_cleared] at hc
  | some g =>
    obtain ⟨g1, g2⟩ := g
    rw [find_daytime_result m hre hg] at e1
    rw [find_daytime_result metar_cleared hre rfl] at e2
    simp only [daytime_fields, Option.getD_some, Prod.mk.injEq] at e1 e2
    refine ⟨trivial, ?_, ?_⟩
    · rw [e1.1, e2.1]
    · intro _
      simp only [daytime_fields, Prod.mk.injEq]
      exact ⟨by rw [e1.1, e2.1], by rw [e1.2, e2.2]⟩

/-! ### Visibility -/

theorem vis_frozen (t : List Char) (m : metar_t) (h : m.vis ≠ 0) :
    vis_fields (analyse_token t m) = vis_fields m ∧ (analyse_token t m).vis ≠ 0 := by
  have := vis_analyse t m
  rw [find_vis_gate h] at this
  refine ⟨this, ?_⟩
  have h2 : (analyse_token t m).vis = m.vis := congrArg (fun p => p.1) this
  rw [h2]; exact h

theorem vis_open (t : List Char) (m : metar_t) (_hI : True) (h : ¬ m.vis ≠ 0) :
    True ∧
    ((analyse_token t m).vis ≠ 0 ↔ (analyse_token t metar_cleared).vis ≠ 0) ∧
    ((analyse_token t metar_cleared).vis ≠ 0 →
      (analyse_token t m).vis = (analyse_token t metar_cleared).vis) := by
  have hg : m.vis = 0 := by simpa using h
  have e1 := vis_analyse t m
  have e2 := vis_analyse t metar_cleared
  cases hre : re_vis t with
  | none =>
    rw [find_vis_none _ hre] at e1 e2
    simp only [vis_fields, Option.getD_none, Prod.mk.injEq] at e1 e2
    refine ⟨trivial, ?_, ?_⟩
    · rw [e1.1, e2.1, hg]; simp [metar_cleared]
    · intro hc; rw [e2.1] at hc; simp [metar_cleared] at hc
  | some g =>
    obtain ⟨g1, g2⟩ := g
    rw [find_vis_result m hre hg] at e1
    rw [find_vis_result metar_cleared hre rfl] at e2
    simp only [vis_fields, Option.getD_some, Prod.mk.injEq] at e1 e2
    refine ⟨trivial, ?_, ?_⟩
    · rw [e1.1, e2.1]
    · intro _
      rw [e1.1, e2.1]

/-! ### Temperature and dewpoint -/

theorem temp_frozen (t : List Char) (m : metar_t) (h : m.temp ≠ 0) :
    temp_fields (analyse_token t m) = temp_fields m ∧ (analyse_token t m).temp ≠ 0 := by
  have := temp_analyse t m
  rw [find_temp_gate h] at this
  refine ⟨this, ?_⟩
  have h2 : (analyse_token t m).temp = m.temp := congrArg (fun p => p.1) this
  rw [h2]; exact h

theorem temp_open (t : List Char) (m : metar_t) (_hI : True) (h : ¬ m.temp ≠ 0) :
    True ∧
    ((analyse_token t m).temp ≠ 0 ↔ (analyse_token t metar_cleared).temp ≠ 0) ∧
    ((analyse_token t metar_cleared).temp ≠ 0 →
      temp_fields (analyse_token t m) = temp_fields (analyse_token t metar_cleared)) := by
  have hg : m.temp = 0 := by simpa using h
  have e1 := temp_analyse t m
  have e2 := temp_analyse t metar_cleared
  cases hre : re_temp t with
  | none =>
    rw [find_temp_none _ hre] at e1 e2
    simp only [temp_fields, Option.getD_none, Prod.mk.injEq] at e1 e2
    refine ⟨trivial, ?_, ?_⟩
    · rw [e1.1, e2.1, hg]; simp [metar_cleared]
    · intro hc; rw [e2.1] at hc; simp [metar_cleared] at hc
  | some g =>
    obtain ⟨g1, g2, g3, g4⟩ := g
    rw [find_temp_result m hre hg] at e1
    rw [find_temp_result metar_cleared hre rfl] at e2
    simp only [temp_fields, Option.getD_some, Prod.mk.injEq] at e1 e2
    refine ⟨trivial, ?_, ?_⟩
    · rw [e1.1, e2.1]
    · intro _
      simp only [temp_fields, Prod.mk.injEq]
      exact ⟨by rw [e1.1, e2.1], by rw [e1.2, e2.2]⟩

/-! ### Pressure -/

theorem qnh_frozen (t : List Char) (m : metar_t) (h : m.qnh ≠ 0) :
    qnh_fields (analyse_token t m) = qnh_fields m ∧ (analyse_token t m).qnh ≠ 0 := by
  have := qnh_analyse t m
  rw [find_qnh_gate h] at this
  refine ⟨this, ?_⟩
  have h2 : (analyse_token t m).qnh = m.qnh := congrArg (fun p => p.1) this
  rw [h2]; exact h

theorem qnh_open (t : List Char) (m : metar_t) (hI : m.qnhunit.drop 3 = zeros 2)
    (h : ¬ m.qnh ≠ 0) :
    (analyse_token t m).qnhunit.drop 3 = zeros 2 ∧
    ((analyse_token t m).qnh ≠ 0 ↔ (analyse_token t metar_cleared).qnh ≠ 0) ∧
    ((analyse_token t metar_cleared).qnh ≠ 0 →
      ((analyse_token t m).qnh, (analyse_token t m).qnhunit)
        = ((analyse_token t metar_cleared).qnh, (analyse_token t metar_cleared).qnhunit)) := by
  have hg : m.qnh = 0 := by simpa using h
  have e1 := qnh_analyse t m
  have e2 := qnh_analyse t metar_cleared
  cases hre : re_qnh t with
  | none =>
    rw [find_qnh_none _ hre] at e1 e2
    simp only [qnh_fields, Option.getD_none, Prod.mk.injEq] at e1 e2
    refine ⟨by rw [e1.2.1]; exact hI, ?_, ?_⟩
    · rw [e1.1, e2.1, hg]; simp [metar_cleared]
    · intro hc; rw [e2.1] at hc; simp [metar_cleared] at hc
  | some g =>
    obtain ⟨g1, g2⟩ := g
    rw [find_qnh_result m hre hg] at e1
    rw [find_qnh_result metar_cleared hre rfl] at e2
    simp only [qnh_fields, Option.getD_some, Prod.mk.injEq] at e1 e2
    have hlen : (if g1 = ['Q'] then "hPa".toList else inHg).length = 3 := by
      split <;> rfl
    refine ⟨?_, ?_, ?_⟩
    · rw [e1.2.1, List.drop_append_of_le_length (by rw [hlen]), List.drop_of_length_le
        (by rw [hlen]), List.nil_append]
      exact hI
    · rw [e1.1, e2.1]
    · intro _
      simp only [Prod.mk.injEq]
      refine ⟨by rw [e1.1, e2.1], ?_⟩
      rw [e1.2.1, e2.2.1, hI]
      rfl

/-! ## Claim C1 -/

theorem gate_implies_match_station {t : List Char}
    (h : (analyse_token t metar_cleared).station.headD NUL ≠ NUL) : (re_station t).isSome := by
  cases hre : re_station t with
  | some g => rfl
  | none =>
    have e := station_analyse t metar_cleared
    rw [find_station_none _ hre] at e
    rw [e] at h
    exact absurd rfl h

theorem gate_implies_match_daytime {t : List Char}
    (h : (analyse_token t metar_cleared).day ≠ 0) : (re_daytime t).isSome := by
  cases hre : re_daytime t with
  | some g => rfl
  | none =>
    have e := daytime_analyse t metar_cleared
    rw [find_daytime_none _ hre] at e
    have e' : (analyse_token t metar_cleared).day = 0 := congrArg (fun p => p.1) e
    exact absurd e' h

theorem gate_implies_match_wind {t : List Char}
    (h : (analyse_token t metar_cleared).winddir ≠ 0) : (re_wind t).isSome := by
  cases hre : re_wind t with
  | some g => rfl
  | none =>
    have e := wind_analyse t metar_cleared
    rw [find_wind_none _ hre] at e
    have e' : (analyse_token t metar_cleared).winddir = 0 := congrArg (fun p => p.1) e
    exact absurd e' h

theorem gate_implies_match_vis {t : List Char}
    (h : (analyse_token t metar_cleared).vis ≠ 0) : (re_vis t).isSome := by
  cases hre : re_vis t with
  | some g => rfl
  | none =>
    have e := vis_analyse t metar_cleared
    rw [find_vis_none _ hre] at e
    have e' : (analyse_token t metar_cleared).vis = 0 := congrArg (fun p => p.1) e
    exact absurd e' h

theorem gate_implies_match_temp {t : List Char}
    (h : (analyse_token t metar_cleared).temp ≠ 0) : (re_temp t).isSome := by
  cases hre : re_temp t with
  | some g => rfl
  | none =>
    have e := temp_analyse t metar_cleared
    rw [find_temp_none _ hre] at e
    have e' : (analyse_token t metar_cleared).temp = 0 := congrArg (fun p => p.1) e
    exact absurd e' h

theorem gate_implies_match_qnh {t : List Char}
    (h : (analyse_token t metar_cleared).qnh ≠ 0) : (re_qnh t).isSome := by
  cases hre : re_qnh t with
  | some g => rfl
  | none =>
    have e := qnh_analyse t metar_cleared
    rw [find_qnh_none _ hre] at e
    have e' : (analyse_token t metar_cleared).qnh = 0 := congrArg (fun p => p.1) e
    exact absurd e' h

/-- What the gates do guarantee. For every report and every token `t` of it:
when `t` is the first token that, decoded on its own, leaves the gate value of
a singular field nonzero (first station byte, day, wind direction, visibility,
temperature, pressure), then `t` matches the pattern of that field and after
`parse_Metar` the field holds the value decoded from `t`; no later token
overrides it. The value covered is the station text, day and time, wind
direction, speed, gust and unit, the visibility value, temperature and
dewpoint, the pressure value and its unit. -/
theorem first_nonzero_match_wins (report : List Char) (init : metar_t)
    (pre post : List (List Char)) (t : List Char)
    (hsplit : tokens (strip_newlines (report.length + 1) report) = pre ++ t :: post) :
    ((∀ x ∈ pre, (analyse_token x metar_cleared).station.headD NUL = NUL) →
      (analyse_token t metar_cleared).station.headD NUL ≠ NUL →
      (re_station t).isSome ∧
      (parse_Metar report init).station = (analyse_token t metar_cleared).station) ∧
    ((∀ x ∈ pre, (analyse_token x metar_cleared).day = 0) →
      (analyse_token t metar_cleared).day ≠ 0 →
      (re_daytime t).isSome ∧
      daytime_fields (parse_Metar report init)
        = daytime_fields (analyse_token t metar_cleared)) ∧
    ((∀ x ∈ pre, (analyse_token x metar_cleared).winddir = 0) →
      (analyse_token t metar_cleared).winddir ≠ 0 →
      (re_wind t).isSome ∧
      wind_fields (parse_Metar report init) = wind_fields (analyse_token t metar_cleared)) ∧
    ((∀ x ∈ pre, (analyse_token x metar_cleared).vis = 0) →
      (analyse_token t metar_cleared).vis ≠ 0 →
      (re_vis t).isSome ∧
      (parse_Metar report init).vis = (analyse_token t metar_cleared).vis) ∧
    ((∀ x ∈ pre, (analyse_token x metar_cleared).temp = 0) →
      (analyse_token t metar_cleared).temp ≠ 0 →
      (re_temp t).isSome ∧
      temp_fields (parse_Metar report init) = temp_fields (analyse_token t metar_cleared)) ∧
    ((∀ x ∈ pre, (analyse_token x metar_cleared).qnh = 0) →
      (analyse_token t metar_cleared).qnh ≠ 0 →
      (re_qnh t).isSome ∧
      ((parse_Metar report init).qnh, (parse_Metar report init).qnhunit)
        = ((analyse_token t metar_cleared).qnh, (analyse_token t metar_cleared).qnhunit)) := by
  rw [parse_Metar_eq, hsplit]
  refine ⟨?_, ?_, ?_, ?_, ?_, ?_⟩
  · intro hpre ht
    exact ⟨gate_implies_match_station ht,
      run_tokens_first_wins (fun m => m.station) (fun m => m.station.headD NUL ≠ NUL)
        (fun m => m.station = zeros 10 ∨ m.station.headD NUL ≠ NUL)
        station_frozen station_open pre post t metar_cleared (Or.inl rfl) (by decide)
        (fun x hx h => h (hpre x hx)) ht⟩
  · intro hpre ht
    exact ⟨gate_implies_match_daytime ht,
      run_tokens_first_wins daytime_fields (fun m => m.day ≠ 0) (fun _ => True)
        daytime_frozen daytime_open pre post t metar_cleared trivial (by decide)
        (fun x hx h => h (hpre x hx)) ht⟩
  · intro hpre ht
    exact ⟨gate_implies_match_wind ht,
      run_tokens_first_wins wind_fields (fun m => m.winddir ≠ 0)
        (fun m => m.windunit.drop 2 = zeros 3)
        wind_frozen wind_open pre post t metar_cleared rfl (by decide)
        (fun x hx h => h (hpre x hx)) ht⟩
  · intro hpre ht
    exact ⟨gate_implies_match_vis ht,
      run_tokens_first_wins (fun m => m.vis) (fun m => m.vis ≠ 0) (fun _ => True)
        (fun t m h => ⟨congrArg (fun p => p.1) (vis_frozen t m h).1, (vis_frozen t m h).2⟩)
        vis_open pre post t metar_cleared trivial (by decide)
        (fun x hx h => h (hpre x hx)) ht⟩
  · intro hpre ht
    exact ⟨gate_implies_match_temp ht,
      run_tokens_first_wins temp_fields (fun m => m.temp ≠ 0) (fun _ => True)
        temp_frozen temp_open pre post t metar_cleared trivial (by decide)
        (fun x hx h => h (hpre x hx)) ht⟩
  · intro hpre ht
    exact ⟨gate_implies_match_qnh ht,
      run_tokens_first_wins (fun m => (m.qnh, m.qnhunit)) (fun m => m.qnh ≠ 0)
        (fun m => m.qnhunit.drop 3 = zeros 2)
        (fun t m h => ⟨by
          have := (qnh_frozen t m h).1
          simp only [qnh_fields, Prod.mk.injEq] at this
          simp only [Prod.mk.injEq]
          exact ⟨this.1, this.2.1⟩, (qnh_frozen t m h).2⟩)
        qnh_open pre post t metar_cleared rfl (by decide)
        (fun x hx h => h (hpre x hx)) ht⟩

set_option maxRecDepth 100000 in
/-- In `00000KT 24015KT 18010KT` the first wind token decodes to direction 0,
the second one is taken and the third one is ignored. -/
theorem first_nonzero_match_wins_example :
    tokens (strip_newlines ("00000KT 24015KT 18010KT".toList.length + 1)
        "00000KT 24015KT 18010KT".toList)
      = ["00000KT".toList] ++ "24015KT".toList :: ["18010KT".toList] ∧
    wind_fields (parse_Metar "00000KT 24015KT 18010KT".toList metar_cleared)
      = (240, 15, 15, "KT".toList ++ zeros 3) :=
  ⟨by decide,
    (((first_nonzero_match_wins "00000KT 24015KT 18010KT".toList metar_cleared
      ["00000KT".toList] ["18010KT".toList] "24015KT".toList (by decide)).2.2.1
      (by decide) (by decide)).2).trans (by decide)⟩

set_option maxRecDepth 100000 in
/-- C1, at the failing input `00000KT 24015KT`. Both tokens match the wind
pattern and the first one decodes to direction 0, speed 0, gust 0 (calm); the
gate `winddir == 0` then still counts the wind as unset, and the record
returned by `parse_Metar` holds the values of the second token: the later
match overrides the first. So does the wind of the trend group in
`EDDF 241520Z 00000KT 9999 FEW040 00/M02 Q1013 BECMG 24010KT`, and the
second temperature group in `00/M02 05/03`. -/
theorem C1_later_wind_token_overrides :
    tokens (strip_newlines ("00000KT 24015KT".toList.length + 1) "00000KT 24015KT".toList)
      = ["00000KT".toList, "24015KT".toList] ∧
    (re_wind "00000KT".toList).isSome ∧ (re_wind "24015KT".toList).isSome ∧
    wind_fields (analyse_token "00000KT".toList metar_cleared)
      = (0, 0, 0, "KT".toList ++ zeros 3) ∧
    wind_fields (parse_Metar "00000KT 24015KT".toList metar_cleared)
      = (240, 15, 15, "KT".toList ++ zeros 3) ∧
    wind_fields (parse_Metar
        "EDDF 241520Z 00000KT 9999 FEW040 00/M02 Q1013 BECMG 24010KT".toList metar_cleared)
      = (240, 10, 10, "KT".toList ++ zeros 3) ∧
    temp_fields (parse_Metar "00/M02 05/03".toList metar_cleared) = (5, 3) := by
  decide

set_option maxRecDepth 100000 in
/-- The conversion of `%d` on numbers that do not fit: a number above `LONG_MAX`
is stored as -1, a number between `INT_MAX` and `LONG_MAX` is wrapped to 32
bits. In `9223372036854775808SM 7SM` the first token closes the visibility
gate with -1. -/
theorem sscanf_d_out_of_range :
    sscanf_d "9223372036854775808".toList 0 = -1 ∧
    sscanf_d "9223372036854775807".toList 0 = -1 ∧
    sscanf_d "4294967303".toList 0 = 7 ∧
    sscanf_d "2147483647".toList 0 = 2147483647 ∧
    (parse_Metar "9223372036854775808SM 7SM".toList metar_cleared).vis = -1 := by
  decide

/-! ## Claims C2 and C3 -/

set_option maxRecDepth 100000 in
/-- C2, at the failing input `BKN035CBMAM`: the prefix scan stops at the entry
`CB`, which precedes `CBMAM` in the table, so the layer gets the description
of `CB`; the description of the entry whose abbreviation is exactly `CBMAM`
is another one. For the five other modifier codes the scan returns the entry
with exactly that abbreviation. -/
theorem C2_cbmam_lookup_returns_cb :
    decode_cloud_abbreviation "CBMAM".toList
        = some ⟨"CB".toList, ", Cumulonimbus clouds in vicinity".toList, NOT_APPLICABLE⟩
    ∧ (analyse_token "BKN035CBMAM".toList metar_cleared).clouds
        = [⟨"Broken clouds".toList, 35, PRINT_BASE, ", Cumulonimbus clouds in vicinity".toList⟩]
    ∧ cloud_dict.find? (fun e => e.abbreviation == "CBMAM".toList)
        = some ⟨"CBMAM".toList,
            ", Cumulonimbus Mammatus in vicinity (expect turbulent air)".toList, NOT_APPLICABLE⟩
    ∧ (∀ md ∈ ["TCU".toList, "CU".toList, "CB".toList, "ACC".toList, "CLD".toList],
        decode_cloud_abbreviation md = cloud_dict.find? (fun e => e.abbreviation == md)) := by
  decide

set_option maxRecDepth 100000 in
/-- C3, at the failing input `A0000 Q1013`: the token `A0000` sets two implied
decimals and leaves the pressure at 0, so the block runs again for `Q1013`,
which writes the unit `hPa` and the value 1013 and keeps the two decimals. -/
theorem C3_hpa_with_two_decimals :
    cstr (parse_Metar "A0000 Q1013".toList metar_cleared).qnhunit = "hPa".toList
    ∧ (parse_Metar "A0000 Q1013".toList metar_cleared).qnh = 1013
    ∧ (parse_Metar "A0000 Q1013".toList metar_cleared).qnhfp = 2 := by
  decide

/-! ## Claim C6 -/

theorem re_wind_vrb (a b : Char) (ha : isDigit a = true) (hb : isDigit b = true) :
    re_wind ("VRB".toList ++ [a, b] ++ "KT".toList)
      = some ("VRB".toList, [a, b], [], "KT".toList) := by
  simp [re_wind, ha, hb]

theorem decimal_two (a b : Char) : decimal [a, b] = 10 * digitVal a + digitVal b := by
  simp [decimal]

/-- C6. For every token `VRBssKT` (`ss` two digits) processed while the wind
field is unset, the wind direction becomes -1 and both wind speed and wind
gust become `ss`; the report `VRB03KT` decodes to direction -1, speed 3,
gust 3. -/
theorem C6_variable_wind (m : metar_t) (a b : Char) (ha : isDigit a = true)
    (hb : isDigit b = true) (hgate : m.winddir = 0) :
    (analyse_token ("VRB".toList ++ [a, b] ++ "KT".toList) m).winddir = -1 ∧
    (analyse_token ("VRB".toList ++ [a, b] ++ "KT".toList) m).windstr
      = ((10 * digitVal a + digitVal b : Nat) : Int) ∧
    (analyse_token ("VRB".toList ++ [a, b] ++ "KT".toList) m).windgust
      = ((10 * digitVal a + digitVal b : Nat) : Int) ∧
    (∀ init : metar_t,
      (parse_Metar "VRB03KT".toList init).winddir = -1 ∧
      (parse_Metar "VRB03KT".toList init).windstr = 3 ∧
      (parse_Metar "VRB03KT".toList init).windgust = 3) := by
  have e := wind_analyse ("VRB".toList ++ [a, b] ++ "KT".toList) m
  rw [find_wind_result m (re_wind_vrb a b ha hb) hgate] at e
  simp only [wind_fields, Option.getD_some, Prod.mk.injEq] at e
  obtain ⟨e1, e2, e3, -⟩ := e
  refine ⟨by rw [e1]; rfl, by rw [e2, decimal_two], by rw [e3, decimal_two]; rfl, ?_⟩
  intro init
  rw [parse_Metar_eq]
  decide

/-- C6, witness: the token `VRB03KT` on the cleared record. -/
theorem C6_variable_wind_witness :
    isDigit '0' = true ∧ isDigit '3' = true ∧ metar_cleared.winddir = 0 ∧
    (analyse_token ("VRB".toList ++ ['0', '3'] ++ "KT".toList) metar_cleared).winddir = -1 :=
  ⟨by decide, by decide, rfl,
    (C6_variable_wind metar_cleared '0' '3' (by decide) (by decide) rfl).1⟩

/-! ## Claim C7 -/

theorem takeWhile_digits_append (ds rest : List Char) (x : Char)
    (hd : ∀ c ∈ ds, isDigit c = true) (hx : isDigit x = false) :
    (ds ++ x :: rest).takeWhile isDigit = ds ∧ (ds ++ x :: rest).dropWhile isDigit = x :: rest := by
  constructor
  · rw [List.takeWhile_append_of_pos hd, List.takeWhile_cons, hx]; simp
  · rw [List.dropWhile_append_of_pos hd, List.dropWhile_cons, hx]; simp

theorem re_wind_plain (a b c d e : Char) (ha : isDigit a = true) (hb : isDigit b = true)
    (hc : isDigit c = true) (hd : isDigit d = true) (he : isDigit e = true) :
    re_wind ([a, b, c, d, e] ++ "KT".toList) = some ([a, b, c], [d, e], [], "KT".toList) := by
  simp [re_wind, ha, hb, hc, hd, he]

theorem re_wind_gust (a b c d e : Char) (gs : List Char) (ha : isDigit a = true)
    (hb : isDigit b = true) (hc : isDigit c = true) (hd : isDigit d = true)
    (he : isDigit e = true) (hne : gs ≠ []) (hgs : ∀ x ∈ gs, isDigit x = true) :
    re_wind ([a, b, c, d, e] ++ 'G' :: gs ++ "KT".toList)
      = some ([a, b, c], [d, e], 'G' :: gs, "KT".toList) := by
  have h := takeWhile_digits_append gs ['T'] 'K' hgs (by decide)
  have hne' : (gs.takeWhile isDigit ≠ []) := by
    rw [List.takeWhile_eq_self_iff.mpr hgs]; exact hne
  simp only [re_wind, List.cons_append, List.nil_append, List.append_assoc, String.toList]
  simp [ha, hb, hc, hd, he, h.1, h.2, hne]

theorem digits_ne_vrb (a b c : Char) (ha : isDigit a = true) : [a, b, c] ≠ "VRB".toList := by
  intro hv
  simp only [String.toList, List.cons.injEq] at hv
  rw [hv.1] at ha
  exact absurd ha (by decide)

theorem cstr_unit (u : List Char) (rest : List Char) (n : Nat) (hu : ∀ c ∈ u, (c != NUL) = true)
    (hr : rest = zeros n) : cstr (u ++ rest) = u := by
  rw [hr]; exact cstr_append_zeros u n hu

theorem windunit_tail (ts : List (List Char)) (m : metar_t)
    (h : m.windunit.drop 2 = zeros 3) : (run_tokens ts m).windunit.drop 2 = zeros 3 := by
  induction ts generalizing m with
  | nil => exact h
  | cons t ts ih =>
    rw [run_tokens_cons]
    apply ih
    by_cases hg : m.winddir ≠ 0
    · have e := (wind_frozen t m hg).1
      simp only [wind_fields, Prod.mk.injEq] at e
      rw [e.2.2.2]; exact h
    · exact (wind_open t m h hg).1

/-- C7, as the code has it. For every token `ddd ss [G g...] KT` (`ddd` three
digits, `ss` two digits) processed in the course of a decode while the wind
field is unset: wind direction = `ddd`, wind speed = `ss`, wind unit = `KT`,
and wind gust = wind speed when the `G` group is absent, wind gust = the number
after `G` when that number has fewer than 99 digits and is within `int`
range. The report `24015G25KT` decodes to direction 240, speed 15, gust 25. -/
theorem C7_wind_fields (pre : List (List Char)) (a b c d e : Char) (ha : isDigit a = true)
    (hb : isDigit b = true) (hc : isDigit c = true) (hd : isDigit d = true)
    (he : isDigit e = true) (hgate : (run_tokens pre metar_cleared).winddir = 0) :
    ((analyse_token ([a, b, c, d, e] ++ "KT".toList) (run_tokens pre metar_cleared)).winddir
        = (decimal [a, b, c] : Int) ∧
      (analyse_token ([a, b, c, d, e] ++ "KT".toList) (run_tokens pre metar_cleared)).windstr
        = (decimal [d, e] : Int) ∧
      (analyse_token ([a, b, c, d, e] ++ "KT".toList) (run_tokens pre metar_cleared)).windgust
        = (decimal [d, e] : Int) ∧
      cstr (analyse_token ([a, b, c, d, e] ++ "KT".toList)
        (run_tokens pre metar_cleared)).windunit = "KT".toList) ∧
    (∀ gs : List Char, gs ≠ [] → (∀ x ∈ gs, isDigit x = true) → gs.length < TMP_SIZE →
      decimal gs < 2147483648 →
      (analyse_token ([a, b, c, d, e] ++ 'G' :: gs ++ "KT".toList)
        (run_tokens pre metar_cleared)).winddir = (decimal [a, b, c] : Int) ∧
      (analyse_token ([a, b, c, d, e] ++ 'G' :: gs ++ "KT".toList)
        (run_tokens pre metar_cleared)).windstr = (decimal [d, e] : Int) ∧
      (analyse_token ([a, b, c, d, e] ++ 'G' :: gs ++ "KT".toList)
        (run_tokens pre metar_cleared)).windgust = (decimal gs : Int) ∧
      cstr (analyse_token ([a, b, c, d, e] ++ 'G' :: gs ++ "KT".toList)
        (run_tokens pre metar_cleared)).windunit = "KT".toList) ∧
    (∀ init : metar_t,
      (parse_Metar "24015G25KT".toList init).winddir = 240 ∧
      (parse_Metar "24015G25KT".toList init).windstr = 15 ∧
      (parse_Metar "24015G25KT".toList init).windgust = 25) := by
  have hunit := windunit_tail pre metar_cleared rfl
  have hku : cstr ('K' :: 'T' :: (run_tokens pre metar_cleared).windunit.drop 2)
      = "KT".toList := cstr_unit ['K', 'T'] _ 3 (by decide) hunit
  refine ⟨?_, ?_, ?_⟩
  · have hw := wind_analyse ([a, b, c, d, e] ++ "KT".toList) (run_tokens pre metar_cleared)
    rw [find_wind_result _ (re_wind_plain a b c d e ha hb hc hd he) hgate] at hw
    simp only [wind_fields, Option.getD_some, Prod.mk.injEq] at hw
    obtain ⟨e1, e2, e3, e4⟩ := hw
    rw [if_neg (digits_ne_vrb a b c ha)] at e1
    rw [if_pos trivial] at e3
    exact ⟨e1, e2, e3, by rw [e4]; exact hku⟩
  · intro gs hne hgs hlen hval
    have hw := wind_analyse ([a, b, c, d, e] ++ 'G' :: gs ++ "KT".toList)
      (run_tokens pre metar_cleared)
    rw [find_wind_result _ (re_wind_gust a b c d e gs ha hb hc hd he hne hgs) hgate] at hw
    simp only [wind_fields, Option.getD_some, Prod.mk.injEq] at hw
    obtain ⟨e1, e2, e3, e4⟩ := hw
    rw [if_neg (digits_ne_vrb a b c ha)] at e1
    have hne' : ¬ ('G' :: gs = []) := List.cons_ne_nil _ _
    have hdrop : List.drop 1 ('G' :: gs) = gs := rfl
    have hval' : (decimal gs : Int) < 2147483648 := by exact_mod_cast hval
    rw [if_neg hne', hdrop, List.take_of_length_le (Nat.le_of_lt hlen),
      INT_wrap_strtol _ hval'] at e3
    exact ⟨e1, e2, e3, by rw [e4]; exact hku⟩
  · intro init
    rw [parse_Metar_eq]
    decide

/-- C7, witness: the token `24015G25KT` after the tokens `KSFO 241535Z`. -/
theorem C7_wind_fields_witness :
    isDigit '2' = true ∧ isDigit '4' = true ∧ isDigit '0' = true ∧ isDigit '1' = true ∧
    isDigit '5' = true ∧
    (run_tokens ["KSFO".toList, "241535Z".toList] metar_cleared).winddir = 0 ∧
    ['2', '5'] ≠ [] ∧ (∀ x ∈ ['2', '5'], isDigit x = true) ∧
    ['2', '5'].length < TMP_SIZE ∧ decimal ['2', '5'] < 2147483648 ∧
    (analyse_token (['2', '4', '0', '1', '5'] ++ 'G' :: ['2', '5'] ++ "KT".toList)
      (run_tokens ["KSFO".toList, "241535Z".toList] metar_cleared)).windgust
      = (decimal ['2', '5'] : Int) :=
  ⟨by decide, by decide, by decide, by decide, by decide, by decide, by decide, by decide,
    by decide, by decide,
    (((C7_wind_fields ["KSFO".toList, "241535Z".toList] '2' '4' '0' '1' '5' (by decide)
      (by decide) (by decide) (by decide) (by decide) (by decide)).2.1) ['2', '5'] (by decide)
      (by decide) (by decide) (by decide)).2.2.1⟩

set_option maxRecDepth 1000000 in
/-- C7, counterexample: a gust group of 100 digits, 99 zeros followed by 5. Its
value 5 is within `int` range, but only 99 bytes are copied into `tmp`, so the
gust that is stored is the value of the 99 zeros. -/
theorem C7_long_gust_group_is_cut :
    decimal (List.replicate 99 '0' ++ ['5']) = 5 ∧
    (analyse_token ("24015G".toList ++ (List.replicate 99 '0' ++ ['5']) ++ "KT".toList)
      metar_cleared).windgust = 0 := by
  decide

/-! ## Claim C8 -/

theorem opt_M_digit (c : Char) (r : List Char) (hc : isDigit c = true) :
    opt_M (c :: r) = ([], c :: r) := by
  have : c ≠ 'M' := by
    intro h; rw [h] at hc; exact absurd hc (by decide)
  simp [opt_M, this]

theorem opt_M_sign (s ds rest : List Char) (hs : s = [] ∨ s = ['M']) (hne : ds ≠ [])
    (hd : ∀ c ∈ ds, isDigit c = true) : opt_M (s ++ ds ++ rest) = (s, ds ++ rest) := by
  rcases hs with hs | hs
  · subst hs
    cases ds with
    | nil => exact absurd rfl hne
    | cons c r => exact opt_M_digit c _ (hd c (by simp))
  · subst hs
    simp [opt_M]

theorem re_temp_build (s1 s2 td dd : List Char) (hs1 : s1 = [] ∨ s1 = ['M'])
    (hs2 : s2 = [] ∨ s2 = ['M']) (hne1 : td ≠ []) (hd1 : ∀ c ∈ td, isDigit c = true)
    (hne2 : dd ≠ []) (hd2 : ∀ c ∈ dd, isDigit c = true) :
    re_temp (s1 ++ td ++ '/' :: (s2 ++ dd)) = some (s1, td, s2, dd) := by
  have h1 := opt_M_sign s1 td ('/' :: (s2 ++ dd)) hs1 hne1 hd1
  have h2 := opt_M_sign s2 dd [] hs2 hne2 hd2
  simp only [List.append_nil] at h2
  have h3 := takeWhile_digits_append td (s2 ++ dd) '/' hd1 (by decide)
  have h4 : dd.takeWhile isDigit = dd := List.takeWhile_eq_self_iff.mpr hd2
  have h5 : dd.dropWhile isDigit = [] := List.dropWhile_eq_nil_iff.mpr hd2
  unfold re_temp
  simp only [h1, h3.1, h3.2, h2, h4, h5]
  simp [hne1, hne2]

/-- C8, as the code has it. For every token `[M]t/[M]d` (`t`, `d` strings of
fewer than 99 digits, within `int` range) processed while the temperature
field is unset, temperature = -t if an `M` precedes `t` and t otherwise, and
dewpoint = -d if an `M` precedes `d` and d otherwise, each sign independent of
the other; `M05/M10` gives -5 and -10, `05/M10` gives 5 and -10. -/
theorem C8_temperature_dewpoint (m : metar_t) (s1 s2 td dd : List Char)
    (hs1 : s1 = [] ∨ s1 = ['M']) (hs2 : s2 = [] ∨ s2 = ['M'])
    (hne1 : td ≠ []) (hd1 : ∀ c ∈ td, isDigit c = true) (hl1 : td.length < TMP_SIZE)
    (hv1 : decimal td < 2147483648)
    (hne2 : dd ≠ []) (hd2 : ∀ c ∈ dd, isDigit c = true) (hl2 : dd.length < TMP_SIZE)
    (hv2 : decimal dd < 2147483648) (hgate : m.temp = 0) :
    (analyse_token (s1 ++ td ++ '/' :: (s2 ++ dd)) m).temp
      = (if s1 = ['M'] then -(decimal td : Int) else (decimal td : Int)) ∧
    (analyse_token (s1 ++ td ++ '/' :: (s2 ++ dd)) m).dewp
      = (if s2 = ['M'] then -(decimal dd : Int) else (decimal dd : Int)) ∧
    (∀ init : metar_t,
      (parse_Metar "M05/M10".toList init).temp = -5 ∧
      (parse_Metar "M05/M10".toList init).dewp = -10 ∧
      (parse_Metar "05/M10".toList init).temp = 5 ∧
      (parse_Metar "05/M10".toList init).dewp = -10) := by
  have hw := temp_analyse (s1 ++ td ++ '/' :: (s2 ++ dd)) m
  rw [find_temp_result m (re_temp_build s1 s2 td dd hs1 hs2 hne1 hd1 hne2 hd2) hgate] at hw
  simp only [temp_fields, Option.getD_some, Prod.mk.injEq] at hw
  obtain ⟨e1, e2⟩ := hw
  have hv1' : (decimal td : Int) < 2147483648 := by exact_mod_cast hv1
  have hv2' : (decimal dd : Int) < 2147483648 := by exact_mod_cast hv2
  rw [List.take_of_length_le (Nat.le_of_lt hl1), INT_wrap_strtol _ hv1',
    INT_wrap_neg_of_lt _ (Int.natCast_nonneg _) hv1'] at e1
  rw [List.take_of_length_le (Nat.le_of_lt hl2), INT_wrap_strtol _ hv2',
    INT_wrap_neg_of_lt _ (Int.natCast_nonneg _) hv2'] at e2
  refine ⟨e1, e2, ?_⟩
  intro init
  rw [parse_Metar_eq, parse_Metar_eq]
  decide

/-- C8, witness: the token `M05/10` on the cleared record. -/
theorem C8_temperature_dewpoint_witness :
    ((['M'] : List Char) = [] ∨ ['M'] = ['M']) ∧ (([] : List Char) = [] ∨ [] = ['M']) ∧
    ['0', '5'] ≠ [] ∧ (∀ c ∈ ['0', '5'], isDigit c = true) ∧ ['0', '5'].length < TMP_SIZE ∧
    decimal ['0', '5'] < 2147483648 ∧
    ['1', '0'] ≠ [] ∧ (∀ c ∈ ['1', '0'], isDigit c = true) ∧ ['1', '0'].length < TMP_SIZE ∧
    decimal ['1', '0'] < 2147483648 ∧ metar_cleared.temp = 0 ∧
    (analyse_token (['M'] ++ ['0', '5'] ++ '/' :: ([] ++ ['1', '0'])) metar_cleared).temp
      = (if ['M'] = ['M'] then -(decimal ['0', '5'] : Int) else (decimal ['0', '5'] : Int)) :=
  ⟨Or.inr rfl, Or.inl rfl, by decide, by decide, by decide, by decide, by decide, by decide,
    by decide, by decide, rfl,
    (C8_temperature_dewpoint metar_cleared ['M'] [] ['0', '5'] ['1', '0'] (Or.inr rfl)
      (Or.inl rfl) (by decide) (by decide) (by decide) (by decide) (by decide) (by decide)
      (by decide) (by decide) rfl).1⟩

set_option maxRecDepth 1000000 in
/-- C8, counterexample: a temperature of 100 digits, 99 zeros followed by 5. Its
value 5 is within `int` range, but only 99 bytes are copied into `tmp`, so the
temperature that is stored is the value of the 99 zeros. -/
theorem C8_long_temperature_is_cut :
    decimal (List.replicate 99 '0' ++ ['5']) = 5 ∧
    (analyse_token ((List.replicate 99 '0' ++ ['5']) ++ "/10".toList) metar_cleared).temp = 0 ∧
    (analyse_token ((List.replicate 99 '0' ++ ['5']) ++ "/10".toList) metar_cleared).dewp
      = 10 := by
  decide

/-! ## Claim C9 -/

theorem qnh_fields_untouched (pre : List (List Char)) (m : metar_t)
    (hpre : ∀ x ∈ pre, re_qnh x = none) :
    qnh_fields (run_tokens pre m) = qnh_fields m := by
  induction pre generalizing m with
  | nil => rfl
  | cons x pre ih =>
    rw [run_tokens_cons, ih _ (fun y hy => hpre y (by simp [hy])), qnh_analyse,
      find_qnh_none _ (hpre x (by simp))]
    rfl

theorem re_qnh_build (c : Char) (ds : List Char) (hc : c = 'Q' ∨ c = 'A') (hne : ds ≠ [])
    (hd : ∀ x ∈ ds, isDigit x = true) : re_qnh (c :: ds) = some ([c], ds) := by
  unfold re_qnh
  have h1 : (c == 'Q' || c == 'A') = true := by
    rcases hc with h | h <;> simp [h]
  have h2 : ds.isEmpty = false := by simpa using hne
  have h3 : ds.all isDigit = true := List.all_eq_true.mpr hd
  simp [h1, h2, h3]

/-- C9, as the code has it. For every token `Q` followed by digits `n` (fewer
than 99 digits, within `int` range) that is the first pressure-shaped token of
a report, processing it sets pressure = n (the undivided integer), unit =
`hPa` and implied decimals = 0; for every such token `A` followed by digits
`n` it sets pressure = n, unit = inches of mercury and implied decimals = 2;
the report `Q1013` decodes to 1013 / `hPa` / 0 and `A2992` to 2992 / inches
of mercury / 2. -/
theorem C9_pressure (pre : List (List Char)) (ds : List Char)
    (hpre : ∀ x ∈ pre, re_qnh x = none) (hne : ds ≠ [])
    (hd : ∀ x ∈ ds, isDigit x = true) (hl : ds.length < TMP_SIZE)
    (hv : decimal ds < 2147483648) :
    ((analyse_token ('Q' :: ds) (run_tokens pre metar_cleared)).qnh = (decimal ds : Int) ∧
      cstr (analyse_token ('Q' :: ds) (run_tokens pre metar_cleared)).qnhunit = "hPa".toList ∧
      (analyse_token ('Q' :: ds) (run_tokens pre metar_cleared)).qnhfp = 0) ∧
    ((analyse_token ('A' :: ds) (run_tokens pre metar_cleared)).qnh = (decimal ds : Int) ∧
      cstr (analyse_token ('A' :: ds) (run_tokens pre metar_cleared)).qnhunit = inHg ∧
      (analyse_token ('A' :: ds) (run_tokens pre metar_cleared)).qnhfp = 2) ∧
    (∀ init : metar_t,
      (parse_Metar "Q1013".toList init).qnh = 1013 ∧
      cstr (parse_Metar "Q1013".toList init).qnhunit = "hPa".toList ∧
      (parse_Metar "Q1013".toList init).qnhfp = 0 ∧
      (parse_Metar "A2992".toList init).qnh = 2992 ∧
      cstr (parse_Metar "A2992".toList init).qnhunit = inHg ∧
      (parse_Metar "A2992".toList init).qnhfp = 2) := by
  have h0 := qnh_fields_untouched pre metar_cleared hpre
  simp only [qnh_fields, Prod.mk.injEq] at h0
  obtain ⟨g0, u0, f0⟩ := h0
  have hv' : (decimal ds : Int) < 2147483648 := by exact_mod_cast hv
  refine ⟨?_, ?_, ?_⟩
  · have hw := qnh_analyse ('Q' :: ds) (run_tokens pre metar_cleared)
    rw [find_qnh_result _ (re_qnh_build 'Q' ds (Or.inl rfl) hne hd) g0] at hw
    simp only [qnh_fields, Option.getD_some, Prod.mk.injEq] at hw
    obtain ⟨e1, e2, e3⟩ := hw
    rw [List.take_of_length_le (Nat.le_of_lt hl), INT_wrap_strtol _ hv']
      at e1
    rw [if_pos trivial, u0] at e2
    rw [if_pos trivial, f0] at e3
    exact ⟨e1, by rw [e2]; decide, by rw [e3]; rfl⟩
  · have hw := qnh_analyse ('A' :: ds) (run_tokens pre metar_cleared)
    rw [find_qnh_result _ (re_qnh_build 'A' ds (Or.inr rfl) hne hd) g0] at hw
    simp only [qnh_fields, Option.getD_some, Prod.mk.injEq] at hw
    obtain ⟨e1, e2, e3⟩ := hw
    rw [List.take_of_length_le (Nat.le_of_lt hl), INT_wrap_strtol _ hv']
      at e1
    rw [if_neg (by decide), u0] at e2
    rw [if_neg (by decide)] at e3
    exact ⟨e1, by rw [e2]; decide, e3⟩
  · intro init
    rw [parse_Metar_eq, parse_Metar_eq]
    decide

/-- C9, witness: the token `Q1013` after the tokens `KSFO 10SM`. -/
theorem C9_pressure_witness :
    (∀ x ∈ ["KSFO".toList, "10SM".toList], re_qnh x = none) ∧ "1013".toList ≠ [] ∧
    (∀ x ∈ "1013".toList, isDigit x = true) ∧ "1013".toList.length < TMP_SIZE ∧
    decimal "1013".toList < 2147483648 ∧
    (analyse_token ('Q' :: "1013".toList)
      (run_tokens ["KSFO".toList, "10SM".toList] metar_cleared)).qnh
      = (decimal "1013".toList : Int) :=
  ⟨by decide, by decide, by decide, by decide, by decide,
    (C9_pressure ["KSFO".toList, "10SM".toList] "1013".toList (by decide) (by decide)
      (by decide) (by decide) (by decide)).1.1⟩

set_option maxRecDepth 1000000 in
/-- C9, counterexample: the report `Q` followed by 100 digits, 99 zeros and 5.
The value 5 is within `int` range, but only 99 bytes are copied into `tmp`, so
the pressure that is stored is the value of the 99 zeros. -/
theorem C9_long_pressure_is_cut :
    decimal (List.replicate 99 '0' ++ ['5']) = 5 ∧
    (parse_Metar ('Q' :: (List.replicate 99 '0' ++ ['5'])) metar_cleared).qnh = 0 := by
  decide

/-! ## Tokens that reach the cloud block -/

theorem add_cloud_eq (l : List cloud_t) (c : cloud_t) : add_cloud l c = l ++ [c] := by
  induction l with
  | nil => rfl
  | cons x xs ih => simp [add_cloud, ih]

theorem add_phenomenon_eq (l : List (List Char)) (p : List Char) :
    add_phenomenon l p = l ++ [p] := by
  induction l with
  | nil => rfl
  | cons x xs ih => simp [add_phenomenon, ih]

theorem re_daytime_none_of_head (x : Char) (r : List Char) (hx : isDigit x = false) :
    re_daytime (x :: r) = none := by
  cases h : re_daytime (x :: r) with
  | none => rfl
  | some g =>
    obtain ⟨g1, g2⟩ := g
    obtain ⟨a, b, c, d, e, f, ht, -, -, ha, -⟩ := re_daytime_some h
    simp only [List.cons.injEq] at ht
    rw [← ht.1, hx] at ha
    exact absurd ha (by simp)

theorem re_vis_none_of_head (x : Char) (r : List Char) (hx : isDigit x = false) :
    re_vis (x :: r) = none := by
  cases h : re_vis (x :: r) with
  | none => rfl
  | some g =>
    obtain ⟨c, r', ht, hd⟩ := re_vis_head h
    simp only [List.cons.injEq] at ht
    rw [← ht.1, hx] at hd
    exact absurd hd (by simp)

theorem re_temp_none_of_head (x : Char) (r : List Char) (hx : isDigit x = false)
    (hm : x ≠ 'M') : re_temp (x :: r) = none := by
  unfold re_temp
  have h1 : opt_M (x :: r) = ([], x :: r) := by simp [opt_M, hm]
  simp [h1, List.dropWhile_cons, List.takeWhile_cons, hx]

theorem re_qnh_none_of_head (x : Char) (r : List Char) (hq : x ≠ 'Q') (ha : x ≠ 'A') :
    re_qnh (x :: r) = none := by
  simp [re_qnh, hq, ha]

theorem re_wind_none_of_head (x y : Char) (r : List Char) (hx : isDigit x = false)
    (hv : x ≠ 'V' ∨ y ≠ 'R') : re_wind (x :: y :: r) = none := by
  cases h : re_wind (x :: y :: r) with
  | none => rfl
  | some g =>
    obtain ⟨g1, g2, g3, g4⟩ := g
    obtain ⟨a, b, c, d, e, h1, h2, h4, ht, hvd, -⟩ := re_wind_some h
    rw [h1, h2] at ht
    simp only [List.cons_append, List.nil_append, List.cons.injEq] at ht
    obtain ⟨hxa, hyb, -⟩ := ht
    rcases hvd with hvd | ⟨ha, -, -⟩
    · rw [h1] at hvd
      simp only [String.toList, List.cons.injEq] at hvd
      rcases hv with hv | hv
      · exact absurd (hxa.trans hvd.1) hv
      · exact absurd (hyb.trans hvd.2.1) hv
    · rw [← hxa, hx] at ha
      exact absurd ha (by simp)

theorem analyse_token_of_cloud {t : List Char} {m r : metar_t}
    (h1 : find_station t m = none) (h2 : re_daytime t = none) (h3 : re_wind t = none)
    (h4 : re_vis t = none) (h5 : re_temp t = none) (h6 : re_qnh t = none)
    (h7 : find_cloud t m = some r) : analyse_token t m = r := by
  unfold analyse_token
  rw [h1, find_daytime_none m h2, find_wind_none m h3, find_vis_none m h4,
    find_temp_none m h5, find_qnh_none m h6, h7]

theorem analyse_token_of_phenomena {t : List Char} {m : metar_t}
    (h1 : find_station t m = none) (h2 : re_daytime t = none) (h3 : re_wind t = none)
    (h4 : re_vis t = none) (h5 : re_temp t = none) (h6 : re_qnh t = none)
    (h7 : re_cloud t = none) : analyse_token t m = find_phenomena t m := by
  unfold analyse_token
  rw [h1, find_daytime_none m h2, find_wind_none m h3, find_vis_none m h4,
    find_temp_none m h5, find_qnh_none m h6, find_cloud_none m h7]

/-! ## Claim C10 -/

set_option maxRecDepth 100000 in
/-- C10, counterexample: the single token of the report `SKC` consists of
uppercase letters only and the station is unset, so the station block takes it;
the cloud list stays empty. -/
theorem C10_skc_alone_is_station :
    (parse_Metar "SKC".toList metar_cleared).clouds = [] ∧
    cstr (parse_Metar "SKC".toList metar_cleared).station = "SKC".toList := by
  decide

set_option maxRecDepth 100000 in
/-- C10, as the code has it. Processing the token `SKC` once the station is set
appends exactly one layer to the cloud list, with altitude -1 (not applicable),
an empty modifier and the altitude-display flag hide, and changes nothing else;
decoding the report `KSFO SKC` yields a cloud list of exactly that layer. -/
theorem C10_skc_after_station (m : metar_t) (hst : m.station.headD NUL ≠ NUL) :
    analyse_token "SKC".toList m
      = { m with clouds := m.clouds ++
          [{ amount := "Sky Clear (no clouds within sensors range)".toList,
             layer_altitude := -1, print_altitude := DONT_PRINT_BASE,
             layer_modifier := [] }] } ∧
    (∀ init : metar_t, (parse_Metar "KSFO SKC".toList init).clouds
      = [{ amount := "Sky Clear (no clouds within sensors range)".toList,
           layer_altitude := -1, print_altitude := DONT_PRINT_BASE,
           layer_modifier := [] }]) := by
  constructor
  · apply analyse_token_of_cloud (find_station_gate hst) (by decide) (by decide) (by decide)
      (by decide) (by decide)
    have h1 : re_cloud "SKC".toList = some ("SKC".toList, [], [], []) := by decide
    have h2 : decode_cloud_abbreviation "SKC".toList
        = some ⟨"SKC".toList, "Sky Clear (no clouds within sensors range)".toList,
            DONT_PRINT_BASE⟩ := by decide
    unfold find_cloud
    rw [h1]
    simp only [h2, add_cloud_eq]
    rfl
  · intro init
    rw [parse_Metar_eq]
    decide

/-- C10, witness: the token `SKC` on the record left by the token `KSFO`. -/
theorem C10_skc_after_station_witness :
    (analyse_token "KSFO".toList metar_cleared).station.headD NUL ≠ NUL ∧
    analyse_token "SKC".toList (analyse_token "KSFO".toList metar_cleared)
      = { analyse_token "KSFO".toList metar_cleared with
          clouds := (analyse_token "KSFO".toList metar_cleared).clouds ++
          [{ amount := "Sky Clear (no clouds within sensors range)".toList,
             layer_altitude := -1, print_altitude := DONT_PRINT_BASE,
             layer_modifier := [] }] } :=
  ⟨by decide, (C10_skc_after_station (analyse_token "KSFO".toList metar_cleared) (by decide)).1⟩

/-! ## Claim C4 -/

theorem re_cloud_build (cover md : List Char) (a b c : Char) (hcover : cover ∈ cover_codes)
    (hmd : md = [] ∨ md ∈ modifier_codes) (ha : isDigit a = true) (hb : isDigit b = true)
    (hc : isDigit c = true) :
    re_cloud (cover ++ [a, b, c] ++ md) = some ([], cover, [a, b, c], md) := by
  have hm : ¬ md = [] → md ∈ modifier_codes := fun h => hmd.resolve_left h
  simp only [cover_codes, List.mem_cons, List.mem_singleton, List.not_mem_nil, or_false] at hcover
  rcases hcover with h | h | h | h | h <;> subst h <;>
    simp [re_cloud, no_cloud_codes, cover_codes, List.isPrefixOf, ha, hb, hc] <;> exact hm

theorem decode_cover (cover rest : List Char) (a b : Char) (hcover : cover ∈ cover_codes) :
    decode_cloud_abbreviation (cover ++ a :: b :: rest) = lookup_exact cover ∧
    (lookup_exact cover).map (fun e => e.print_altitude) = some PRINT_BASE := by
  simp only [cover_codes, List.mem_cons, List.mem_singleton, List.not_mem_nil, or_false] at hcover
  rcases hcover with h | h | h | h | h <;> subst h <;> refine ⟨?_, by decide⟩ <;>
    simp [decode_cloud_abbreviation, lookup_exact, cloud_dict, strncmp_eq, LONGEST_CLOUD_DICT_KEY]

theorem decode_modifier (md : List Char) (hmd : md ∈ modifier_codes) :
    (decode_cloud_abbreviation md).isSome = true := by
  simp only [modifier_codes, List.mem_cons, List.mem_singleton, List.not_mem_nil, or_false] at hmd
  rcases hmd with h | h | h | h | h | h <;> subst h <;> decide

theorem altitude_value (a b c : Char) (ha : isDigit a = true) (hb : isDigit b = true)
    (hc : isDigit c = true) :
    sscanf_d (cstr (memcpy (zeros TMP_SIZE) [a, b, c]
      (if [a, b, c].length < 3 then [a, b, c].length else 3))) 0 = (decimal [a, b, c] : Int) := by
  have hg : ∀ x ∈ [a, b, c], isDigit x = true := by
    intro x hx; simp at hx; rcases hx with rfl | rfl | rfl <;> assumption
  have b1 := decimal_lt_pow [a, b, c] hg
  rw [cstr_memcpy_zeros _ _ (fun x hx => isDigit_ne_NUL (hg x hx))]
  have : ([a, b, c].take (if [a, b, c].length < 3 then [a, b, c].length else 3)) = [a, b, c] := rfl
  rw [this, sscanf_d_digits _ _ hg (by simp), INT_wrap_strtol _
    (by simp only [List.length_cons, List.length_nil] at b1; omega)]

/-- C4. For every token of the form cover + three digits `hhh` + optional
modifier, with cover in FEW, SCT, BKN, OVC, VV, `analyse_token` appends exactly
one layer to the end of the cloud list and changes nothing else; the amount of
the layer is the dictionary description of the cover, its altitude is the
number `hhh`, its altitude-display flag is show (`PRINT_BASE`), and its modifier
is the empty string when no modifier is present. `BKN035CB` gives altitude 35,
amount "Broken clouds", modifier ", Cumulonimbus clouds in vicinity", flag
show. -/
theorem C4_cloud_layer (m : metar_t) (cover md : List Char) (a b c : Char)
    (hcover : cover ∈ cover_codes) (hmd : md = [] ∨ md ∈ modifier_codes)
    (ha : isDigit a = true) (hb : isDigit b = true) (hc : isDigit c = true) :
    (∃ layer : cloud_t,
      analyse_token (cover ++ [a, b, c] ++ md) m = { m with clouds := m.clouds ++ [layer] } ∧
      (lookup_exact cover).map (fun e => e.description) = some layer.amount ∧
      layer.layer_altitude = (decimal [a, b, c] : Int) ∧
      layer.print_altitude = PRINT_BASE ∧
      (md = [] → layer.layer_modifier = [])) ∧
    analyse_token "BKN035CB".toList m
      = { m with clouds := m.clouds ++
          [{ amount := "Broken clouds".toList, layer_altitude := 35,
             print_altitude := PRINT_BASE,
             layer_modifier := ", Cumulonimbus clouds in vicinity".toList }] } := by
  have key : ∀ (cover md : List Char) (a b c : Char), cover ∈ cover_codes →
      (md = [] ∨ md ∈ modifier_codes) → isDigit a = true → isDigit b = true →
      isDigit c = true →
      ∃ e, lookup_exact cover = some e ∧ e.print_altitude = PRINT_BASE ∧
        analyse_token (cover ++ [a, b, c] ++ md) m = { m with clouds := m.clouds ++
          [{ amount := e.description, layer_altitude := (decimal [a, b, c] : Int),
             print_altitude := e.print_altitude,
             layer_modifier := if md = [] then []
               else ((decode_cloud_abbreviation md).map (fun e4 => e4.description)).getD [] }] } := by
    intro cover md a b c hcover hmd ha hb hc
    have hre := re_cloud_build cover md a b c hcover hmd ha hb hc
    have hdec := decode_cover cover (c :: md) a b hcover
    have htok : cover ++ [a, b, c] ++ md = cover ++ a :: b :: c :: md := by simp
    obtain ⟨hd1, hd2⟩ := hdec
    cases hl : lookup_exact cover with
    | none => rw [hl] at hd2; simp at hd2
    | some e =>
      rw [hl] at hd1 hd2
      simp only [Option.map_some', Option.some.injEq] at hd2
      refine ⟨e, rfl, hd2, ?_⟩
      have hhead : ∃ x y r, cover ++ [a, b, c] ++ md = x :: y :: r ∧ isDigit x = false ∧
          x ≠ 'M' ∧ x ≠ 'Q' ∧ x ≠ 'A' ∧ (x ≠ 'V' ∨ y ≠ 'R') := by
        simp only [cover_codes, List.mem_cons, List.mem_singleton, List.not_mem_nil,
          or_false] at hcover
        rcases hcover with h | h | h | h | h <;> subst h <;>
          exact ⟨_, _, _, rfl, by decide, by decide, by decide, by decide, by decide⟩
      obtain ⟨x, y, r, hxy, hx1, hx2, hx3, hx4, hx5⟩ := hhead
      apply analyse_token_of_cloud
        (find_station_none m (re_station_none_of_digit ⟨a, by simp, ha⟩))
        (by rw [hxy]; exact re_daytime_none_of_head x _ hx1)
        (by rw [hxy]; exact re_wind_none_of_head x y r hx1 hx5)
        (by rw [hxy]; exact re_vis_none_of_head x _ hx1)
        (by rw [hxy]; exact re_temp_none_of_head x _ hx1 hx2)
        (by rw [hxy]; exact re_qnh_none_of_head x _ hx3 hx4)
      unfold find_cloud
      rw [hre]
      simp only [List.length_nil, gt_iff_lt, Nat.lt_irrefl, if_false]
      rw [← htok] at hd1
      rw [hd1]
      simp only [altitude_value a b c ha hb hc, add_cloud_eq]
      rcases hmd with h | h
      · subst h
        simp
      · have h4 := decode_modifier md h
        have hne : md ≠ [] := by
          intro hn; rw [hn] at h; exact absurd h (by decide)
        have hlen : md.length > 0 := List.length_pos.mpr hne
        cases hd4 : decode_cloud_abbreviation md with
        | none => rw [hd4] at h4; simp at h4
        | some e4 => simp [hlen, hne]
  constructor
  · obtain ⟨e, h1, h2, h3⟩ := key cover md a b c hcover hmd ha hb hc
    refine ⟨_, h3, by rw [h1]; rfl, rfl, h2, ?_⟩
    intro hmd0
    simp [hmd0]
  · obtain ⟨e, h1, h2, h3⟩ := key "BKN".toList "CB".toList '0' '3' '5' (by decide)
      (Or.inr (by decide)) (by decide) (by decide) (by decide)
    have he : e = ⟨"BKN".toList, "Broken clouds".toList, PRINT_BASE⟩ := by
      have : lookup_exact "BKN".toList
          = some ⟨"BKN".toList, "Broken clouds".toList, PRINT_BASE⟩ := by decide
      rw [this] at h1
      exact (Option.some.inj h1).symm
    subst he
    have hd : decimal ['0', '3', '5'] = 35 := by decide
    have hm : decode_cloud_abbreviation "CB".toList
        = some ⟨"CB".toList, ", Cumulonimbus clouds in vicinity".toList, NOT_APPLICABLE⟩ := by
      decide
    have htok : "BKN".toList ++ ['0', '3', '5'] ++ "CB".toList = "BKN035CB".toList := by decide
    rw [htok, hd, hm] at h3
    rw [h3]
    simp

/-- C4, witness: the token `FEW010` on the cleared record. -/
theorem C4_cloud_layer_witness :
    "FEW".toList ∈ cover_codes ∧ (([] : List Char) = [] ∨ [] ∈ modifier_codes) ∧
    isDigit '0' = true ∧ isDigit '1' = true ∧
    ∃ layer : cloud_t,
      analyse_token ("FEW".toList ++ ['0', '1', '0'] ++ []) metar_cleared
        = { metar_cleared with clouds := metar_cleared.clouds ++ [layer] } ∧
      (lookup_exact "FEW".toList).map (fun e => e.description) = some layer.amount ∧
      layer.layer_altitude = (decimal ['0', '1', '0'] : Int) ∧
      layer.print_altitude = PRINT_BASE ∧
      (([] : List Char) = [] → layer.layer_modifier = []) :=
  ⟨by decide, Or.inl rfl, by decide, by decide,
    (C4_cloud_layer metar_cleared "FEW".toList [] '0' '1' '0' (by decide) (Or.inl rfl)
      (by decide) (by decide) (by decide)).1⟩

/-! ## Claim C5 -/

/-- The sequence of codes of a list of dictionary entries, back to back. -/
theorem codes_cons (p : phenomenon_t) (ps : List phenomenon_t) :
    ((p :: ps).map (fun q => q.code)).flatten = p.code ++ (ps.map (fun q => q.code)).flatten := by
  simp

set_option maxRecDepth 100000 in
theorem phenomena_alternatives_eq : phenomena_alternatives = phenomena.map (fun p => p.code) := by
  decide

set_option maxRecDepth 100000 in
theorem phenomena_facts : ∀ p ∈ phenomena,
    p.code.length = 2 ∧ p.code.all isUpper = true ∧
    decode_phenomena p.code = some p.description ∧
    p.code ≠ "CA".toList ∧ p.code ≠ "AV".toList ∧ 4 ≤ p.description.length := by
  decide

theorem code_shape {p : phenomenon_t} (hp : p ∈ phenomena) :
    ∃ x y, p.code = [x, y] ∧ isUpper x = true ∧ isUpper y = true ∧
      ¬ (x = 'C' ∧ y = 'A') ∧ ¬ (x = 'A' ∧ y = 'V') := by
  obtain ⟨h1, h2, -, h4, h5, -⟩ := phenomena_facts p hp
  match hc : p.code, h1 with
  | [x, y], _ =>
    rw [hc] at h2 h4 h5
    simp only [List.all_cons, List.all_nil, Bool.and_true, Bool.and_eq_true] at h2
    refine ⟨x, y, rfl, h2.1, h2.2, ?_, ?_⟩
    · rintro ⟨rfl, rfl⟩; exact h4 rfl
    · rintro ⟨rfl, rfl⟩; exact h5 rfl

theorem isUpper_not_isDigit {c : Char} (h : isUpper c = true) : isDigit c = false := by
  simp only [isDigit, isUpper, decide_eq_true_eq, decide_eq_false_iff_not] at *
  omega

theorem body_upper (ps : List phenomenon_t) (hps : ∀ p ∈ ps, p ∈ phenomena) :
    ∀ c ∈ (ps.map (fun q => q.code)).flatten, isUpper c = true := by
  induction ps with
  | nil => simp
  | cons p ps ih =>
    intro c hc
    rw [codes_cons, List.mem_append] at hc
    rcases hc with hc | hc
    · obtain ⟨-, h2, -⟩ := phenomena_facts p (hps p (by simp))
      exact List.all_eq_true.mp h2 c hc
    · exact ih (fun q hq => hps q (by simp [hq])) c hc

theorem body_length (ps : List phenomenon_t) (hps : ∀ p ∈ ps, p ∈ phenomena) :
    ((ps.map (fun q => q.code)).flatten).length = 2 * ps.length := by
  induction ps with
  | nil => rfl
  | cons p ps ih =>
    obtain ⟨h1, -⟩ := phenomena_facts p (hps p (by simp))
    rw [codes_cons, List.length_append, h1, ih (fun q hq => hps q (by simp [hq])),
      List.length_cons]
    omega

theorem sign_no_digit (sign : List Char) (hsign : sign = [] ∨ sign = ['+'] ∨ sign = ['-']) :
    ∀ c ∈ sign, isDigit c = false ∧ isUpper c = false := by
  rcases hsign with h | h | h <;> subst h <;> decide

theorem token_no_digit (sign : List Char) (ps : List phenomenon_t)
    (hsign : sign = [] ∨ sign = ['+'] ∨ sign = ['-']) (hps : ∀ p ∈ ps, p ∈ phenomena) :
    ¬ ∃ c ∈ sign ++ (ps.map (fun q => q.code)).flatten, isDigit c = true := by
  rintro ⟨c, hc, hd⟩
  rw [List.mem_append] at hc
  rcases hc with hc | hc
  · rw [(sign_no_digit sign hsign c hc).1] at hd; exact absurd hd (by simp)
  · rw [isUpper_not_isDigit (body_upper ps hps c hc)] at hd; exact absurd hd (by simp)

theorem re_cloud_some_cases {t : List Char} {g : List Char × List Char × List Char × List Char}
    (h : re_cloud t = some g) : t ∈ no_cloud_codes ∨ ∃ c ∈ t, isDigit c = true := by
  unfold re_cloud at h
  split at h
  · rename_i hc
    exact Or.inl (by simpa using hc)
  · split at h
    · rename_i c hfind
      simp only at h
      split at h
      · rename_i hcond
        simp only [Bool.and_eq_true, beq_iff_eq, List.all_eq_true] at hcond
        obtain ⟨⟨hlen, hdig⟩, -⟩ := hcond
        right
        have hne : (List.take 3 (List.drop c.length t)) ≠ [] := by
          intro hn; rw [hn] at hlen; simp at hlen
        obtain ⟨x, hx⟩ := List.exists_mem_of_ne_nil _ hne
        exact ⟨x, List.mem_of_mem_drop (List.mem_of_mem_take hx), hdig x hx⟩
      · simp at h
    · simp at h

theorem re_cloud_none_of_phenomena (sign : List Char) (ps : List phenomenon_t)
    (hsign : sign = [] ∨ sign = ['+'] ∨ sign = ['-']) (hps : ∀ p ∈ ps, p ∈ phenomena) :
    re_cloud (sign ++ (ps.map (fun q => q.code)).flatten) = none := by
  cases h : re_cloud (sign ++ (ps.map (fun q => q.code)).flatten) with
  | none => rfl
  | some g =>
    exfalso
    rcases re_cloud_some_cases h with hm | hd
    · have hlen : (sign ++ (ps.map (fun q => q.code)).flatten).length = 3 := by
        simp only [no_cloud_codes, List.mem_cons, List.mem_singleton, List.not_mem_nil,
          or_false] at hm
        rcases hm with e | e | e | e <;> rw [e] <;> rfl
      rcases hsign with hs | hs | hs
      · subst hs
        rw [List.nil_append, body_length ps hps] at hlen
        omega
      · subst hs
        simp only [no_cloud_codes, List.mem_cons, List.mem_singleton, List.not_mem_nil,
          or_false, String.toList, List.cons_append, List.nil_append, List.cons.injEq] at hm
        rcases hm with e | e | e | e <;> exact absurd e.1 (by decide)
      · subst hs
        simp only [no_cloud_codes, List.mem_cons, List.mem_singleton, List.not_mem_nil,
          or_false, String.toList, List.cons_append, List.nil_append, List.cons.injEq] at hm
        rcases hm with e | e | e | e <;> exact absurd e.1 (by decide)
    · exact token_no_digit sign ps hsign hps hd

theorem no_digit_nones {t : List Char} (h : ¬ ∃ c ∈ t, isDigit c = true) :
    re_daytime t = none ∧ re_wind t = none ∧ re_vis t = none ∧ re_temp t = none ∧
      re_qnh t = none := by
  refine ⟨?_, ?_, ?_, ?_, ?_⟩
  · cases hr : re_daytime t with
    | none => rfl
    | some g => exact absurd (re_daytime_digit hr) h
  · cases hr : re_wind t with
    | none => rfl
    | some g => exact absurd (re_wind_digit hr) h
  · cases hr : re_vis t with
    | none => rfl
    | some g => exact absurd (re_vis_digit hr) h
  · cases hr : re_temp t with
    | none => rfl
    | some g => exact absurd (re_temp_digit hr) h
  · cases hr : re_qnh t with
    | none => rfl
    | some g => exact absurd (re_qnh_digit hr) h

/-! ### No sequence of codes contains `CAVOK` -/

theorem cavok_prefix_body (ps : List phenomenon_t) (hps : ∀ p ∈ ps, p ∈ phenomena) :
    "CAVOK".toList.isPrefixOf ((ps.map (fun q => q.code)).flatten) = false := by
  cases ps with
  | nil => rfl
  | cons p ps =>
    obtain ⟨x, y, hc, -, -, h1, -⟩ := code_shape (hps p (by simp))
    rw [codes_cons, hc]
    simp only [String.toList, List.cons_append, List.nil_append, List.isPrefixOf]
    by_cases hx : x = 'C'
    · by_cases hy : y = 'A'
      · exact absurd ⟨hx, hy⟩ h1
      · have : ('A' == y) = false := by simpa using Ne.symm hy
        simp [this]
    · have : ('C' == x) = false := by simpa using Ne.symm hx
      simp [this]

theorem cavok_prefix_shift (ps : List phenomenon_t) (hps : ∀ p ∈ ps, p ∈ phenomena) (c : Char) :
    "CAVOK".toList.isPrefixOf (c :: (ps.map (fun q => q.code)).flatten) = false := by
  cases ps with
  | nil => simp [String.toList, List.isPrefixOf]
  | cons p ps =>
    obtain ⟨x, y, hc, -, -, -, h2⟩ := code_shape (hps p (by simp))
    rw [codes_cons, hc]
    simp only [String.toList, List.cons_append, List.nil_append, List.isPrefixOf]
    by_cases hx : x = 'A'
    · by_cases hy : y = 'V'
      · exact absurd ⟨hx, hy⟩ h2
      · have : ('V' == y) = false := by simpa using Ne.symm hy
        simp [this]
    · have : ('A' == x) = false := by simpa using Ne.symm hx
      simp [this]

theorem strstr_cavok_body (ps : List phenomenon_t) (hps : ∀ p ∈ ps, p ∈ phenomena) :
    strstr ((ps.map (fun q => q.code)).flatten) "CAVOK".toList = false := by
  induction ps with
  | nil => rfl
  | cons p ps ih =>
    have hps' : ∀ q ∈ ps, q ∈ phenomena := fun q hq => hps q (by simp [hq])
    have h1 := cavok_prefix_body (p :: ps) hps
    obtain ⟨x, y, hc, -⟩ := code_shape (hps p (by simp))
    rw [codes_cons, hc] at h1 ⊢
    simp only [List.cons_append, List.nil_append] at h1 ⊢
    rw [strstr, h1, strstr, cavok_prefix_shift ps hps' y, ih hps']
    rfl

theorem strstr_cavok_token (sign : List Char) (ps : List phenomenon_t)
    (hsign : sign = [] ∨ sign = ['+'] ∨ sign = ['-']) (hps : ∀ p ∈ ps, p ∈ phenomena) :
    strstr (sign ++ (ps.map (fun q => q.code)).flatten) "CAVOK".toList = false := by
  rcases hsign with h | h | h <;> subst h
  · exact strstr_cavok_body ps hps
  · rw [List.singleton_append, strstr, strstr_cavok_body ps hps]
    rfl
  · rw [List.singleton_append, strstr, strstr_cavok_body ps hps]
    rfl

/-! ### The phenomenon pattern matches every sequence of codes -/

theorem match_iter_body (ps : List phenomenon_t) (hps : ∀ p ∈ ps, p ∈ phenomena) (fuel : Nat)
    (hf : ps.length ≤ fuel) :
    match_iter phenomena_alternatives fuel ((ps.map (fun q => q.code)).flatten) = true := by
  induction ps generalizing fuel with
  | nil => cases fuel <;> simp [match_iter]
  | cons p ps ih =>
    cases fuel with
    | zero => simp at hf
    | succ f =>
      have hp := hps p (by simp)
      obtain ⟨x, y, hc, -⟩ := code_shape hp
      rw [match_iter, Bool.or_eq_true]
      right
      rw [List.any_eq_true]
      refine ⟨p.code, ?_, ?_⟩
      · rw [phenomena_alternatives_eq]
        exact List.mem_map_of_mem _ hp
      · rw [codes_cons]
        have h1 : (p.code).isPrefixOf (p.code ++ (ps.map (fun q => q.code)).flatten) = true :=
          List.isPrefixOf_iff_prefix.mpr (List.prefix_append _ _)
        have h2 : (p.code ++ (ps.map (fun q => q.code)).flatten).drop p.code.length
            = (ps.map (fun q => q.code)).flatten := List.drop_left _ _
        rw [h1, h2, ih (fun q hq => hps q (by simp [hq])) f (by simpa using hf), hc]
        rfl

theorem regexec_phenomena_token (sign : List Char) (ps : List phenomenon_t)
    (hsign : sign = [] ∨ sign = ['+'] ∨ sign = ['-']) (hne : ps ≠ [])
    (hps : ∀ p ∈ ps, p ∈ phenomena) :
    regexec_phenomena phenomena_alternatives (sign ++ (ps.map (fun q => q.code)).flatten)
      = some (sign, (ps.map (fun q => q.code)).flatten) := by
  have hlen := body_length ps hps
  have hpos : 0 < ps.length := List.length_pos.mpr hne
  have hbne : ((ps.map (fun q => q.code)).flatten).isEmpty = false := by
    rw [List.isEmpty_eq_false]
    exact List.ne_nil_of_length_pos (by rw [hlen]; omega)
  have hm := match_iter_body ps hps ((ps.map (fun q => q.code)).flatten).length
    (by rw [hlen]; omega)
  have hsg : sign_group (sign ++ (ps.map (fun q => q.code)).flatten) = sign := by
    rcases hsign with h | h | h
    · subst h
      cases ps with
      | nil => exact absurd rfl hne
      | cons p ps =>
        obtain ⟨x, y, hc, hx, -⟩ := code_shape (hps p (by simp))
        rw [List.nil_append, codes_cons, hc]
        have h1 : x ≠ '+' := by rintro rfl; exact absurd hx (by decide)
        have h2 : x ≠ '-' := by rintro rfl; exact absurd hx (by decide)
        simp [sign_group, h1, h2]
    · subst h; rfl
    · subst h; rfl
  unfold regexec_phenomena
  simp only [hsg, List.drop_left, hbne, hm]
  rfl

/-! ### The text built by the decoding loop -/

theorem take_strncat (a d r : List Char) (n : Nat) (ha : a.length ≤ n) :
    (a ++ d.take (n - a.length) ++ r).take n = (a ++ d ++ r).take n := by
  by_cases hd : d.length ≤ n - a.length
  · rw [List.take_of_length_le hd]
  · have hlen : (a ++ d.take (n - a.length)).length = n := by
      rw [List.length_append, List.length_take]; omega
    rw [List.take_append_of_le_length (by omega), List.take_of_length_le (by omega),
      List.append_assoc, List.take_append_eq_append_take, List.take_of_length_le ha,
      List.take_append_of_le_length (by omega)]

theorem decode_phenomena_single (x : Char) : decode_phenomena [x] = none := by
  unfold decode_phenomena
  rw [Option.map_eq_none', List.find?_eq_none]
  intro p hp
  obtain ⟨a, b, hc, -⟩ := code_shape hp
  simp [strncmp_eq, hc]

theorem descs_cons (p : phenomenon_t) (ps : List phenomenon_t) :
    ((p :: ps).map (fun q => q.description)).flatten
      = p.description ++ (ps.map (fun q => q.description)).flatten := by
  simp

theorem decode_groups_take (ps : List phenomenon_t) (hps : ∀ p ∈ ps, p ∈ phenomena)
    (n : Nat) (str : List Char) (hstr : str.length ≤ PHENOMENON_STR_SIZE) :
    decode_groups (((ps.map (fun q => q.code)).flatten).take n) str
      = (str ++ ((ps.take (n / 2)).map (fun q => q.description)).flatten).take
          PHENOMENON_STR_SIZE := by
  induction ps generalizing n str with
  | nil => simp [decode_groups, List.take_of_length_le hstr]
  | cons p ps ih =>
    have hp := hps p (by simp)
    obtain ⟨x, y, hc, -⟩ := code_shape hp
    obtain ⟨-, -, hdec, -⟩ := phenomena_facts p hp
    rw [codes_cons, hc]
    rw [hc] at hdec
    match n with
    | 0 => simp [decode_groups, List.take_of_length_le hstr]
    | 1 =>
      simp [decode_groups, decode_phenomena_single, strncat, List.take_of_length_le hstr]
    | k + 2 =>
      have hk : (k + 2) / 2 = k / 2 + 1 := by omega
      have ht : ([x, y] ++ (ps.map (fun q => q.code)).flatten).take (k + 2)
          = x :: y :: ((ps.map (fun q => q.code)).flatten).take k := rfl
      have hlen' : (str ++ p.description.take (PHENOMENON_STR_SIZE - str.length)).length
          ≤ PHENOMENON_STR_SIZE := by
        rw [List.length_append, List.length_take]; omega
      rw [hk, List.take_succ_cons, descs_cons, ht, decode_groups, hdec]
      simp only [Option.getD_some, strncat]
      rw [ih (fun q hq => hps q (by simp [hq])) k _ hlen', take_strncat _ _ _ _ hstr,
        List.append_assoc]

theorem descs_length (ps : List phenomenon_t) (hps : ∀ p ∈ ps, p ∈ phenomena) :
    4 * ps.length ≤ ((ps.map (fun q => q.description)).flatten).length := by
  induction ps with
  | nil => simp
  | cons p ps ih =>
    obtain ⟨-, -, -, -, -, h4⟩ := phenomena_facts p (hps p (by simp))
    have := ih (fun q hq => hps q (by simp [hq]))
    rw [descs_cons, List.length_append, List.length_cons]
    omega

theorem decode_groups_token (ps : List phenomenon_t) (hps : ∀ p ∈ ps, p ∈ phenomena)
    (str : List Char) (hstr : str.length ≤ PHENOMENON_STR_SIZE) :
    decode_groups (tmp_of ((ps.map (fun q => q.code)).flatten)) str
      = (str ++ (ps.map (fun q => q.description)).flatten).take PHENOMENON_STR_SIZE := by
  rw [tmp_of_eq _ (fun c hc => by
    have := isUpper_ne_NUL (body_upper ps hps c hc)
    simpa using this), decode_groups_take ps hps TMP_SIZE str hstr]
  have h49 : TMP_SIZE / 2 = 49 := by decide
  rw [h49]
  by_cases hl : ps.length ≤ 49
  · rw [List.take_of_length_le hl]
  · have hsplit : ps = ps.take 49 ++ ps.drop 49 := (List.take_append_drop 49 ps).symm
    have hlen := descs_length (ps.take 49) (fun q hq => hps q (List.mem_of_mem_take hq))
    rw [List.length_take, Nat.min_eq_left (by omega)] at hlen
    have hbig : PHENOMENON_STR_SIZE
        ≤ (str ++ ((ps.take 49).map (fun q => q.description)).flatten).length := by
      rw [List.length_append]
      have : PHENOMENON_STR_SIZE = 99 := rfl
      omega
    conv_rhs => rw [hsplit, List.map_append, List.flatten_append, ← List.append_assoc,
      List.take_append_of_le_length hbig]

theorem intensity_of_sign (sign : List Char) (hsign : sign = [] ∨ sign = ['+'] ∨ sign = ['-']) :
    (if (cstr (memcpy (zeros TMP_SIZE) sign (if sign.length < 1 then sign.length else 1))).head?
        == some '-' then
      cstr (strncpy (zeros PHENOMENON_STR_SIZE) "Light ".toList PHENOMENON_STR_SIZE)
    else if (cstr (memcpy (zeros TMP_SIZE) sign
        (if sign.length < 1 then sign.length else 1))).head? == some '+' then
      cstr (strncpy (zeros PHENOMENON_STR_SIZE) "Heavy ".toList PHENOMENON_STR_SIZE)
    else []) = intensity_text sign ∧ (intensity_text sign).length ≤ PHENOMENON_STR_SIZE := by
  rcases hsign with h | h | h <;> subst h <;> decide

theorem find_phenomena_token (m : metar_t) (sign : List Char) (ps : List phenomenon_t)
    (hsign : sign = [] ∨ sign = ['+'] ∨ sign = ['-']) (hne : ps ≠ [])
    (hps : ∀ p ∈ ps, p ∈ phenomena) :
    find_phenomena (sign ++ (ps.map (fun q => q.code)).flatten) m
      = { m with phenomena := m.phenomena ++
          [((intensity_text sign ++ (ps.map (fun q => q.description)).flatten).take
            PHENOMENON_STR_SIZE).dropLast] } := by
  obtain ⟨hi1, hi2⟩ := intensity_of_sign sign hsign
  unfold find_phenomena
  simp only [strstr_cavok_token sign ps hsign hps, regexec_phenomena_token sign ps hsign hne hps,
    Bool.false_eq_true, if_false]
  rw [hi1, decode_groups_token ps hps _ hi2, add_phenomenon_eq]

theorem descs_end_with_space (ps : List phenomenon_t) (hne : ps ≠ [])
    (hps : ∀ p ∈ ps, p ∈ phenomena) :
    ((ps.map (fun q => q.description)).flatten).getLast? = some ' ' := by
  have hall : ∀ p ∈ phenomena, p.description.getLast? = some ' ' := by decide
  induction ps with
  | nil => exact absurd rfl hne
  | cons p ps ih =>
    rw [descs_cons, List.getLast?_append]
    by_cases h : ps = []
    · subst h
      simp [hall p (hps p (by simp))]
    · rw [ih h (fun q hq => hps q (by simp [hq]))]
      rfl

theorem text_ends_with_space (sign : List Char) (ps : List phenomenon_t) (hne : ps ≠ [])
    (hps : ∀ p ∈ ps, p ∈ phenomena) :
    intensity_text sign ++ (ps.map (fun q => q.description)).flatten
      = (intensity_text sign ++ (ps.map (fun q => q.description)).flatten).dropLast ++ [' '] := by
  have h : (intensity_text sign ++ (ps.map (fun q => q.description)).flatten).getLast?
      = some ' ' := by
    rw [List.getLast?_append, descs_end_with_space ps hne hps]
    rfl
  exact (List.dropLast_append_getLast? _ h).symm

/-- C5, for the texts that fit. For every token that is an optional `+` or `-`
followed by one or more phenomenon codes, that reaches the phenomenon
recognizer (it carries a sign, or the station is already set), and whose text
("Light " for `-`, "Heavy " for `+`, nothing for no sign, followed by the
dictionary descriptions of the codes in order) has fewer than 99 characters,
so that it fits the 99-byte text buffer with its terminator, `analyse_token`
appends exactly one string to the phenomenon list and changes nothing else:
that text with its final character, the trailing space, removed. `-SHRA`
gives "Light Showers Rain". -/
theorem C5_phenomenon_text (m : metar_t) (sign : List Char) (ps : List phenomenon_t)
    (hsign : sign = [] ∨ sign = ['+'] ∨ sign = ['-']) (hne : ps ≠ [])
    (hps : ∀ p ∈ ps, p ∈ phenomena) (hreach : sign = [] → m.station.headD NUL ≠ NUL)
    (hfit : (intensity_text sign ++ (ps.map (fun q => q.description)).flatten).length
      < PHENOMENON_STR_SIZE) :
    analyse_token (sign ++ (ps.map (fun q => q.code)).flatten) m
      = { m with phenomena := m.phenomena ++
          [(intensity_text sign ++ (ps.map (fun q => q.description)).flatten).dropLast] } ∧
    intensity_text sign ++ (ps.map (fun q => q.description)).flatten
      = (intensity_text sign ++ (ps.map (fun q => q.description)).flatten).dropLast ++ [' '] ∧
    analyse_token "-SHRA".toList m
      = { m with phenomena := m.phenomena ++ ["Light Showers Rain".toList] } := by
  have key : ∀ (sign : List Char) (ps : List phenomenon_t),
      (sign = [] ∨ sign = ['+'] ∨ sign = ['-']) → ps ≠ [] → (∀ p ∈ ps, p ∈ phenomena) →
      (sign = [] → m.station.headD NUL ≠ NUL) →
      analyse_token (sign ++ (ps.map (fun q => q.code)).flatten) m
        = { m with phenomena := m.phenomena ++
            [((intensity_text sign ++ (ps.map (fun q => q.description)).flatten).take
              PHENOMENON_STR_SIZE).dropLast] } := by
    intro sign ps hsign hne hps hreach
    obtain ⟨n1, n2, n3, n4, n5⟩ := no_digit_nones (token_no_digit sign ps hsign hps)
    have hst : find_station (sign ++ (ps.map (fun q => q.code)).flatten) m = none := by
      by_cases hs : sign = []
      · exact find_station_gate (hreach hs)
      · apply find_station_none
        cases hre : re_station (sign ++ (ps.map (fun q => q.code)).flatten) with
        | none => rfl
        | some g =>
          exfalso
          obtain ⟨c, hc⟩ := List.exists_mem_of_ne_nil sign hs
          have hu := (re_station_some hre).2.2 c (List.mem_append_left _ hc)
          rw [(sign_no_digit sign hsign c hc).2] at hu
          exact absurd hu (by simp)
    rw [analyse_token_of_phenomena hst n1 n2 n3 n4 n5
      (re_cloud_none_of_phenomena sign ps hsign hps)]
    exact find_phenomena_token m sign ps hsign hne hps
  refine ⟨?_, text_ends_with_space sign ps hne hps, ?_⟩
  · rw [key sign ps hsign hne hps hreach, List.take_of_length_le (Nat.le_of_lt hfit)]
  · have h := key ['-'] [⟨"SH".toList, "Showers ".toList⟩, ⟨"RA".toList, "Rain ".toList⟩]
      (Or.inr (Or.inr rfl)) (by simp) (by decide) (by simp)
    have e1 : (['-'] ++ ([⟨"SH".toList, "Showers ".toList⟩,
        ⟨"RA".toList, "Rain ".toList⟩].map (fun q : phenomenon_t => q.code)).flatten)
        = "-SHRA".toList := by decide
    have e2 : ((intensity_text ['-'] ++ ([⟨"SH".toList, "Showers ".toList⟩,
        ⟨"RA".toList, "Rain ".toList⟩].map (fun q : phenomenon_t => q.description)).flatten).take
          PHENOMENON_STR_SIZE).dropLast = "Light Showers Rain".toList := by decide
    rw [e1, e2] at h
    exact h

/-- C5, witness: the token `+TSRA` on the cleared record; its text "Heavy
Thunderstorm Rain " has 24 characters. -/
theorem C5_phenomenon_text_witness :
    ((['+'] : List Char) = [] ∨ ['+'] = ['+'] ∨ ['+'] = ['-']) ∧
    ([⟨"TS".toList, "Thunderstorm ".toList⟩, ⟨"RA".toList, "Rain ".toList⟩] : List phenomenon_t)
      ≠ [] ∧
    (∀ p ∈ ([⟨"TS".toList, "Thunderstorm ".toList⟩, ⟨"RA".toList, "Rain ".toList⟩] :
      List phenomenon_t), p ∈ phenomena) ∧
    ((['+'] : List Char) = [] → metar_cleared.station.headD NUL ≠ NUL) ∧
    (intensity_text ['+'] ++ (([⟨"TS".toList, "Thunderstorm ".toList⟩,
        ⟨"RA".toList, "Rain ".toList⟩] : List phenomenon_t).map
          (fun q => q.description)).flatten).length < PHENOMENON_STR_SIZE ∧
    analyse_token (['+'] ++ (([⟨"TS".toList, "Thunderstorm ".toList⟩,
        ⟨"RA".toList, "Rain ".toList⟩] : List phenomenon_t).map (fun q => q.code)).flatten)
        metar_cleared
      = { metar_cleared with phenomena := metar_cleared.phenomena ++
          [(intensity_text ['+'] ++ (([⟨"TS".toList, "Thunderstorm ".toList⟩,
            ⟨"RA".toList, "Rain ".toList⟩] : List phenomenon_t).map
              (fun q => q.description)).flatten).dropLast] } :=
  ⟨Or.inr (Or.inl rfl), by simp, by decide, by simp, by decide,
    (C5_phenomenon_text metar_cleared ['+']
      [⟨"TS".toList, "Thunderstorm ".toList⟩, ⟨"RA".toList, "Rain ".toList⟩]
      (Or.inr (Or.inl rfl)) (by simp) (by decide) (by simp) (by decide)).1⟩

set_option maxRecDepth 100000 in
/-- C5, counterexample: for `+POPOPO` the text "Heavy " followed by the three
descriptions has 102 characters and does not fit the 99-byte buffer; the
string appended to the list is its first 99 characters less the last one (a
letter), not the whole text less its trailing space. -/
theorem C5_long_text_is_cut :
    (analyse_token "+POPOPO".toList metar_cleared).phenomena
      = [("Heavy Well developed dust/sand swirls Well developed dust/sand swirls " ++
          "Well developed dust/sand swi").toList] ∧
    (analyse_token "+POPOPO".toList metar_cleared).phenomena
      ≠ [("Heavy Well developed dust/sand swirls Well developed dust/sand swirls " ++
          "Well developed dust/sand swirls").toList] ∧
    (intensity_text ['+'] ++ "Well developed dust/sand swirls ".toList ++
        "Well developed dust/sand swirls ".toList ++
        "Well developed dust/sand swirls ".toList).dropLast
      = ("Heavy Well developed dust/sand swirls Well developed dust/sand swirls " ++
          "Well developed dust/sand swirls").toList := by
  decide

/-! ## What a match of the cloud and phenomenon patterns says about the token -/

theorem strstr_mem {t needle : List Char} (h : strstr t needle = true) :
    ∀ c ∈ needle, c ∈ t := by
  induction t with
  | nil =>
    simp only [strstr, List.isEmpty_iff] at h
    intro c hc; rw [h] at hc; exact absurd hc (by simp)
  | cons x xs ih =>
    rw [strstr, Bool.or_eq_true] at h
    rcases h with h | h
    · have hp := List.isPrefixOf_iff_prefix.mp h
      intro c hc
      exact hp.subset hc
    · intro c hc
      exact List.mem_cons_of_mem _ (ih h c hc)

theorem match_iter_sound (fuel : Nat) (s : List Char)
    (h : match_iter phenomena_alternatives fuel s = true) :
    ∃ ps : List phenomenon_t, (∀ p ∈ ps, p ∈ phenomena) ∧
      s = (ps.map (fun q => q.code)).flatten := by
  induction fuel generalizing s with
  | zero =>
    simp only [match_iter, List.isEmpty_iff] at h
    exact ⟨[], by simp, by simp [h]⟩
  | succ f ih =>
    rw [match_iter, Bool.or_eq_true] at h
    rcases h with h | h
    · simp only [List.isEmpty_iff] at h
      exact ⟨[], by simp, by simp [h]⟩
    · rw [List.any_eq_true] at h
      obtain ⟨a, ha, hcond⟩ := h
      simp only [Bool.and_eq_true] at hcond
      obtain ⟨⟨-, hpre⟩, hrest⟩ := hcond
      rw [phenomena_alternatives_eq, List.mem_map] at ha
      obtain ⟨p, hp, rfl⟩ := ha
      obtain ⟨ps, hps, hs⟩ := ih _ hrest
      obtain ⟨r, hr⟩ := List.isPrefixOf_iff_prefix.mp hpre
      refine ⟨p :: ps, ?_, ?_⟩
      · intro q hq
        rcases List.mem_cons.mp hq with rfl | hq
        · exact hp
        · exact hps q hq
      · rw [codes_cons, ← hs, ← hr, List.drop_left]

theorem sign_group_spec (t : List Char) :
    (sign_group t = [] ∨ sign_group t = ['+'] ∨ sign_group t = ['-']) ∧
      sign_group t ++ t.drop (sign_group t).length = t := by
  unfold sign_group
  split
  · rename_i c r
    by_cases h1 : c = '+'
    · subst h1; simp
    · by_cases h2 : c = '-'
      · subst h2; simp
      · simp [h1, h2]
  · simp

set_option maxRecDepth 100000 in
theorem alternatives_no_empty : phenomena_alternatives.contains [] = false := by
  decide

theorem regexec_phenomena_some {t g1 g2 : List Char}
    (h : regexec_phenomena phenomena_alternatives t = some (g1, g2)) :
    ∃ ps : List phenomenon_t, ps ≠ [] ∧ (∀ p ∈ ps, p ∈ phenomena) ∧
      (g1 = [] ∨ g1 = ['+'] ∨ g1 = ['-']) ∧
      g2 = (ps.map (fun q => q.code)).flatten ∧ t = g1 ++ g2 := by
  unfold regexec_phenomena at h
  simp only [alternatives_no_empty, Bool.and_false, Bool.false_or] at h
  split at h
  · rename_i hc
    simp only [Bool.and_eq_true, Bool.not_eq_true', List.isEmpty_eq_false] at hc
    simp only [Option.some.injEq, Prod.mk.injEq] at h
    obtain ⟨e1, e2⟩ := h
    obtain ⟨ps, hps, hs⟩ := match_iter_sound _ _ hc.2
    obtain ⟨hsg, hcat⟩ := sign_group_spec t
    refine ⟨ps, ?_, hps, by rw [← e1]; exact hsg, by rw [← e2]; exact hs, ?_⟩
    · rintro rfl
      rw [hs] at hc
      simp at hc
    · rw [← e1, ← e2]; exact hcat.symm
  · simp at h

theorem re_cloud_some {t g1 g2 g3 g4 : List Char} (h : re_cloud t = some (g1, g2, g3, g4)) :
    (t ∈ no_cloud_codes ∧ g1 = t ∧ g2 = [] ∧ g3 = [] ∧ g4 = []) ∨
    (g1 = [] ∧ g2 ∈ cover_codes ∧ t = g2 ++ g3 ++ g4 ∧ g3.length = 3 ∧
      (∀ c ∈ g3, isDigit c = true) ∧ (g4 = [] ∨ g4 ∈ modifier_codes)) := by
  unfold re_cloud at h
  split at h
  · rename_i hc
    simp only [Option.some.injEq, Prod.mk.injEq] at h
    obtain ⟨e1, e2, e3, e4⟩ := h
    exact Or.inl ⟨by simpa using hc, e1.symm, e2.symm, e3.symm, e4.symm⟩
  · split at h
    · rename_i c hfind
      simp only at h
      split at h
      · rename_i hcond
        simp only [Bool.and_eq_true, beq_iff_eq, List.all_eq_true, Bool.or_eq_true,
          List.isEmpty_iff] at hcond
        obtain ⟨⟨hlen, hdig⟩, hmd⟩ := hcond
        simp only [Option.some.injEq, Prod.mk.injEq] at h
        obtain ⟨e1, e2, e3, e4⟩ := h
        subst e1; subst e2; subst e3; subst e4
        have hmem := List.mem_of_find?_eq_some hfind
        have hpre := List.find?_some hfind
        obtain ⟨r, hr⟩ := List.isPrefixOf_iff_prefix.mp hpre
        right
        refine ⟨rfl, hmem, ?_, hlen, hdig, ?_⟩
        · rw [List.append_assoc, List.take_append_drop]
          conv_lhs => rw [← hr]
          rw [← hr, List.drop_left]
        · rcases hmd with hmd | hmd
          · exact Or.inl hmd
          · exact Or.inr (by simpa using hmd)
      · simp at h
    · simp at h

/-! ## Tokens that nothing takes (claims C18, C19) -/

theorem analyse_token_unrecognized (t : List Char) (m : metar_t) (h : unrecognized t = true) :
    analyse_token t m = m := by
  simp only [unrecognized, Bool.and_eq_true, Option.isNone_iff_eq_none, Bool.not_eq_true'] at h
  obtain ⟨⟨⟨⟨⟨⟨⟨⟨⟨h1, h2⟩, h3⟩, h4⟩, h5⟩, h6⟩, h7⟩, h8⟩, h9⟩, h10⟩ := h
  rw [analyse_token_of_phenomena (find_station_none m h1) h2 h3 h4 h5 h6 h7]
  unfold find_phenomena
  simp only [h8, h9, h10, Bool.false_eq_true, if_false]

set_option maxRecDepth 100000 in
/-- C18. For every record state and every token that matches none of the
recognizer patterns, does not contain `CAVOK` and does not begin with `$`,
`analyse_token` returns the record it was given: every field and both lists
are unchanged. The runway group `R26L/2400FT` is such a token. -/
theorem C18_unmatched_token_changes_nothing (t : List Char) (m : metar_t)
    (h : unrecognized t = true) :
    analyse_token t m = m ∧ unrecognized "R26L/2400FT".toList = true := by
  refine ⟨analyse_token_unrecognized t m h, by decide⟩

set_option maxRecDepth 100000 in
/-- C18, witness: the token `R26L/2400FT` on the record left by `KSFO 10SM`. -/
theorem C18_unmatched_token_changes_nothing_witness :
    unrecognized "R26L/2400FT".toList = true ∧
    analyse_token "R26L/2400FT".toList (run_tokens ["KSFO".toList, "10SM".toList] metar_cleared)
      = run_tokens ["KSFO".toList, "10SM".toList] metar_cleared :=
  ⟨by decide,
    (C18_unmatched_token_changes_nothing "R26L/2400FT".toList
      (run_tokens ["KSFO".toList, "10SM".toList] metar_cleared) (by decide)).1⟩

/-! ## The newline loop cuts the text at its first newline -/

theorem strrchr_none {s : List Char} {c : Char} (h : strrchr s c = none) : c ∉ s := by
  induction s with
  | nil => simp
  | cons x xs ih =>
    rw [strrchr] at h
    cases hx : strrchr xs c with
    | some i => rw [hx] at h; simp at h
    | none =>
      rw [hx] at h
      simp only at h
      by_cases hxc : x = c
      · simp [hxc] at h
      · intro hm
        rcases List.mem_cons.mp hm with e | e
        · exact hxc e.symm
        · exact ih hx e

theorem strrchr_some {s : List Char} {c : Char} {i : Nat} (h : strrchr s c = some i) :
    ∃ b, s = s.take i ++ c :: b := by
  induction s generalizing i with
  | nil => simp [strrchr] at h
  | cons x xs ih =>
    rw [strrchr] at h
    cases hx : strrchr xs c with
    | some j =>
      rw [hx] at h
      simp only [Option.some.injEq] at h
      obtain ⟨b, hb⟩ := ih hx
      refine ⟨b, ?_⟩
      rw [← h, List.take_succ_cons, List.cons_append, ← hb]
    | none =>
      rw [hx] at h
      simp only at h
      by_cases hxc : x = c
      · simp only [hxc, beq_self_eq_true, if_true, Option.some.injEq] at h
        exact ⟨xs, by rw [← h, hxc]; rfl⟩
      · simp [hxc] at h

theorem takeWhile_append_stop (p : Char → Bool) (a b : List Char) (c : Char)
    (hc : p c = false) : (a ++ c :: b).takeWhile p = a.takeWhile p := by
  induction a with
  | nil => simp [List.takeWhile_cons, hc]
  | cons x xs ih =>
    simp only [List.cons_append, List.takeWhile_cons]
    split
    · rw [ih]
    · rfl

theorem strip_newlines_eq (fuel : Nat) (s : List Char) (h : s.length < fuel) :
    strip_newlines fuel s = s.takeWhile (fun c => c != '\n') := by
  induction fuel generalizing s with
  | zero => omega
  | succ f ih =>
    rw [strip_newlines]
    cases hs : strrchr s '\n' with
    | none =>
      simp only
      symm
      rw [List.takeWhile_eq_self_iff]
      intro x hx
      have := strrchr_none hs
      simp only [bne_iff_ne, ne_eq]
      rintro rfl
      exact this hx
    | some i =>
      simp only
      obtain ⟨b, hb⟩ := strrchr_some hs
      have hlen : (s.take i).length < s.length := by
        conv_rhs => rw [hb]
        simp
      rw [ih _ (by omega)]
      conv_rhs => rw [hb]
      rw [takeWhile_append_stop _ _ _ _ (by simp)]

theorem strip_no_newline (s : List Char) (h : '\n' ∉ s) :
    strip_newlines (s.length + 1) s = s := by
  rw [strip_newlines_eq _ _ (Nat.lt_succ_self _), List.takeWhile_eq_self_iff]
  intro x hx
  simp only [bne_iff_ne, ne_eq]
  rintro rfl
  exact h hx

theorem strip_trailing_newlines (r : List Char) (n : Nat) (h : '\n' ∉ r) :
    strip_newlines ((r ++ List.replicate n '\n').length + 1) (r ++ List.replicate n '\n') = r := by
  rw [strip_newlines_eq _ _ (Nat.lt_succ_self _)]
  cases n with
  | zero =>
    simp only [List.replicate_zero, List.append_nil, List.takeWhile_eq_self_iff]
    intro x hx
    simp only [bne_iff_ne, ne_eq]
    rintro rfl
    exact h hx
  | succ k =>
    rw [List.replicate_succ, takeWhile_append_stop _ _ _ _ (by simp),
      List.takeWhile_eq_self_iff]
    intro x hx
    simp only [bne_iff_ne, ne_eq]
    rintro rfl
    exact h hx

/-! ## Claim C20 -/

/-- C20. For every report `r` that contains no newline character and every
`n`, `parse_Metar` on `r` followed by `n` newline characters returns the same
record as `parse_Metar` on `r`: the trailing line terminators are stripped
before the text is split and no token of `r` is lost. -/
theorem C20_trailing_newlines_are_stripped (r : List Char) (n : Nat) (init init2 : metar_t)
    (h : '\n' ∉ r) :
    parse_Metar (r ++ List.replicate n '\n') init = parse_Metar r init2 ∧
    tokens (strip_newlines ((r ++ List.replicate n '\n').length + 1)
      (r ++ List.replicate n '\n')) = tokens r := by
  rw [parse_Metar_eq, parse_Metar_eq, strip_trailing_newlines r n h, strip_no_newline r h]
  exact ⟨rfl, rfl⟩

set_option maxRecDepth 100000 in
/-- C20, witness: the report `KSFO 10SM` followed by two newlines. -/
theorem C20_trailing_newlines_are_stripped_witness :
    '\n' ∉ "KSFO 10SM".toList ∧
    parse_Metar ("KSFO 10SM".toList ++ List.replicate 2 '\n') metar_cleared
      = parse_Metar "KSFO 10SM".toList metar_cleared :=
  ⟨by decide,
    (C20_trailing_newlines_are_stripped "KSFO 10SM".toList 2 metar_cleared metar_cleared
      (by decide)).1⟩

/-! ## Claim C19 -/

theorem run_tokens_unrecognized (ts : List (List Char)) (m : metar_t)
    (h : ∀ t ∈ ts, unrecognized t = true) : run_tokens ts m = m := by
  induction ts generalizing m with
  | nil => rfl
  | cons t ts ih =>
    rw [run_tokens_cons, analyse_token_unrecognized t m (h t (by simp))]
    exact ih m (fun x hx => h x (by simp [hx]))

theorem tokens_spaces (n : Nat) : tokens (List.replicate n ' ') = [] := by
  induction n with
  | zero => exact tokens_nil
  | succ k ih => rw [List.replicate_succ, tokens_cons_space, ih]

/-- C19. For every report none of whose tokens is recognized (each token
matches none of the patterns, does not contain `CAVOK` and does not begin with
`$`), `parse_Metar` returns the cleared record: station all NUL (the empty
string), day, time, wind, visibility, temperature, dewpoint, pressure and
implied decimals 0, unit buffers all NUL, maintenance flag not-needed, and
empty cloud and phenomenon lists. The empty report and every report of
spaces only are such reports. -/
theorem C19_nothing_recognized_gives_cleared_record (report : List Char) (init : metar_t)
    (h : ∀ t ∈ tokens (strip_newlines (report.length + 1) report), unrecognized t = true) :
    parse_Metar report init = metar_cleared ∧
    metar_cleared =
      { station := zeros 10, day := 0, time := 0, winddir := 0, windstr := 0,
        windgust := 0, windunit := zeros 5, vis := 0, visunit := zeros 5, qnh := 0,
        qnhunit := zeros 5, qnhfp := 0, temp := 0, dewp := 0,
        maintenance_needed := MAINTENANCE_NOT_NEEDED, clouds := [], phenomena := [] } ∧
    cstr metar_cleared.station = [] ∧ cstr metar_cleared.windunit = [] ∧
    cstr metar_cleared.visunit = [] ∧ cstr metar_cleared.qnhunit = [] ∧
    parse_Metar [] init = metar_cleared ∧
    (∀ n : Nat, parse_Metar (List.replicate n ' ') init = metar_cleared) := by
  refine ⟨?_, rfl, by decide, by decide, by decide, by decide, ?_, ?_⟩
  · rw [parse_Metar_eq]
    exact run_tokens_unrecognized _ _ h
  · rw [parse_Metar_eq]
    rfl
  · intro n
    rw [parse_Metar_eq, strip_no_newline _ (by simp), tokens_spaces]
    rfl

set_option maxRecDepth 100000 in
/-- C19, witness: the report `R26L/2400FT rmk` has no recognized token. -/
theorem C19_nothing_recognized_gives_cleared_record_witness :
    (∀ t ∈ tokens (strip_newlines ("R26L/2400FT rmk".toList.length + 1)
      "R26L/2400FT rmk".toList), unrecognized t = true) ∧
    parse_Metar "R26L/2400FT rmk".toList metar_cleared = metar_cleared :=
  ⟨by decide,
    (C19_nothing_recognized_gives_cleared_record "R26L/2400FT rmk".toList metar_cleared
      (by decide)).1⟩

/-! ## Claim C17 -/

theorem find_phenomena_maintenance (t : List Char) (m : metar_t) :
    (find_phenomena t m).maintenance_needed = m.maintenance_needed ∨
      (find_phenomena t m).maintenance_needed = MAINTENANCE_NEEDED := by
  unfold find_phenomena
  simp only
  split
  · split
    · exact Or.inl rfl
    · exact Or.inl rfl
  · split
    · exact Or.inr rfl
    · split
      · exact Or.inl rfl
      · exact Or.inl rfl

theorem maintenance_kept (t : List Char) (m : metar_t)
    (h : m.maintenance_needed = MAINTENANCE_NEEDED) :
    (analyse_token t m).maintenance_needed = MAINTENANCE_NEEDED := by
  rcases analyse_token_cases t m with h1 | ⟨-, h1⟩ | ⟨-, -, h1⟩ | ⟨-, -, -, h1⟩ |
    ⟨-, -, -, -, h1⟩ | ⟨-, -, -, -, -, h1⟩ | ⟨-, -, -, -, -, -, h1⟩ | ⟨-, -, -, -, -, -, -, h1⟩
  · obtain ⟨-, g, -, hr⟩ := find_station_some h1
    rw [hr]; exact h
  · obtain ⟨-, g1, g2, -, hr⟩ := find_daytime_some h1
    rw [hr]; exact h
  · obtain ⟨-, -, wd, ws, wg, wu, hr⟩ := find_wind_some h1
    rw [hr]; exact h
  · obtain ⟨-, -, v, vu, hr⟩ := find_vis_some h1
    rw [hr]; exact h
  · obtain ⟨-, -, x, y, hr⟩ := find_temp_some h1
    rw [hr]; exact h
  · obtain ⟨-, -, u, fp, q, hr⟩ := find_qnh_some h1
    rw [hr]; exact h
  · obtain ⟨-, cl, hr⟩ := find_cloud_some h1
    rw [hr]; exact h
  · rw [h1]
    rcases find_phenomena_maintenance t m with e | e
    · rw [e]; exact h
    · exact e

theorem run_tokens_maintenance_kept (ts : List (List Char)) (m : metar_t)
    (h : m.maintenance_needed = MAINTENANCE_NEEDED) :
    (run_tokens ts m).maintenance_needed = MAINTENANCE_NEEDED := by
  induction ts generalizing m with
  | nil => exact h
  | cons t ts ih => rw [run_tokens_cons]; exact ih _ (maintenance_kept t m h)

set_option maxRecDepth 100000 in
theorem analyse_token_dollar (m : metar_t) :
    analyse_token "$".toList m = { m with maintenance_needed := MAINTENANCE_NEEDED } := by
  rw [analyse_token_of_phenomena (find_station_none m (by decide)) (by decide) (by decide)
    (by decide) (by decide) (by decide) (by decide)]
  have h1 : strstr "$".toList "CAVOK".toList = false := by decide
  have h2 : regexec_phenomena phenomena_alternatives "$".toList = none := by decide
  have h3 : strncmp_eq "$".toList "$".toList 1 = true := by decide
  unfold find_phenomena
  simp only [h1, h2, h3, Bool.false_eq_true, if_false, if_true]

/-- C17. For every report that contains the token `$`, `parse_Metar` returns a
record whose maintenance flag is `MAINTENANCE_NEEDED`; processing the token
`$` sets that flag, changes no other field and appends to neither list. -/
theorem C17_dollar_sets_maintenance_flag (report : List Char) (init m : metar_t)
    (h : "$".toList ∈ tokens (strip_newlines (report.length + 1) report)) :
    (parse_Metar report init).maintenance_needed = MAINTENANCE_NEEDED ∧
    analyse_token "$".toList m = { m with maintenance_needed := MAINTENANCE_NEEDED } := by
  refine ⟨?_, analyse_token_dollar m⟩
  rw [parse_Metar_eq]
  obtain ⟨pre, post, hsplit⟩ := List.append_of_mem h
  rw [hsplit, run_tokens_append, run_tokens_cons]
  apply run_tokens_maintenance_kept
  rw [analyse_token_dollar]

set_option maxRecDepth 100000 in
/-- C17, witness: the report `KSFO 10SM $`. -/
theorem C17_dollar_sets_maintenance_flag_witness :
    "$".toList ∈ tokens (strip_newlines ("KSFO 10SM $".toList.length + 1) "KSFO 10SM $".toList) ∧
    (parse_Metar "KSFO 10SM $".toList metar_cleared).maintenance_needed = MAINTENANCE_NEEDED :=
  ⟨by decide,
    (C17_dollar_sets_maintenance_flag "KSFO 10SM $".toList metar_cleared metar_cleared
      (by decide)).1⟩

/-! ## Claim C14 -/

theorem re_daytime_build (a b c d e f : Char) (ha : isDigit a = true) (hb : isDigit b = true)
    (hc : isDigit c = true) (hd : isDigit d = true) (he : isDigit e = true)
    (hf : isDigit f = true) :
    re_daytime [a, b, c, d, e, f, 'Z'] = some ([a, b], [c, d, e, f]) := by
  simp [re_daytime, ha, hb, hc, hd, he, hf]

/-- C14. For every token made of exactly six digits followed by `Z`, processed
while the day field is unset, day becomes the decimal value of the first two
digits and time the decimal value of the next four digits; `241535Z` gives
day 24 and time 1535. -/
theorem C14_day_and_time (m : metar_t) (a b c d e f : Char) (ha : isDigit a = true)
    (hb : isDigit b = true) (hc : isDigit c = true) (hd : isDigit d = true)
    (he : isDigit e = true) (hf : isDigit f = true) (hgate : m.day = 0) :
    (analyse_token [a, b, c, d, e, f, 'Z'] m).day = (decimal [a, b] : Int) ∧
    (analyse_token [a, b, c, d, e, f, 'Z'] m).time = (decimal [c, d, e, f] : Int) ∧
    decimal "24".toList = 24 ∧ decimal "1535".toList = 1535 ∧
    (∀ init : metar_t, (parse_Metar "241535Z".toList init).day = 24 ∧
      (parse_Metar "241535Z".toList init).time = 1535) := by
  have hw := daytime_analyse [a, b, c, d, e, f, 'Z'] m
  rw [find_daytime_result m (re_daytime_build a b c d e f ha hb hc hd he hf) hgate] at hw
  simp only [daytime_fields, Option.getD_some, Prod.mk.injEq] at hw
  refine ⟨hw.1, hw.2, by decide, by decide, ?_⟩
  intro init
  rw [parse_Metar_eq]
  decide

/-- C14, witness: the token `241535Z` on the cleared record. -/
theorem C14_day_and_time_witness :
    isDigit '2' = true ∧ isDigit '4' = true ∧ isDigit '1' = true ∧ isDigit '5' = true ∧
    isDigit '3' = true ∧ metar_cleared.day = 0 ∧
    (analyse_token ['2', '4', '1', '5', '3', '5', 'Z'] metar_cleared).day
      = (decimal ['2', '4'] : Int) :=
  ⟨by decide, by decide, by decide, by decide, by decide, rfl,
    (C14_day_and_time metar_cleared '2' '4' '1' '5' '3' '5' (by decide) (by decide) (by decide)
      (by decide) (by decide) (by decide) rfl).1⟩

/-! ## Claim C15 -/

set_option maxRecDepth 100000 in
/-- C15, at the failing input `0SM 9999`: the token `0SM` writes the unit `SM`
and leaves the visibility at 0, so the block runs again for `9999`, which
stores 9999 and overwrites only the first byte of the unit; the unit reads
`MM`. -/
theorem C15_unit_keeps_residue :
    (parse_Metar "0SM 9999".toList metar_cleared).vis = 9999 ∧
    cstr (parse_Metar "0SM 9999".toList metar_cleared).visunit = "MM".toList ∧
    cstr (parse_Metar "9999".toList metar_cleared).visunit = "M".toList ∧
    cstr (parse_Metar "0 10SM".toList metar_cleared).visunit = "SM".toList := by
  decide

/-! ## Claim C13 -/

theorem station_of_unmatched {t : List Char} (h : re_station t = none) :
    (analyse_token t metar_cleared).station = zeros 10 := by
  rw [station_analyse, find_station_none _ h]
  rfl

theorem station_of_matched {t g : List Char} (h : re_station t = some g) :
    (analyse_token t metar_cleared).station = t.take 10 ++ zeros (10 - min t.length 10) ∧
    (analyse_token t metar_cleared).station.headD NUL ≠ NUL := by
  have e := station_analyse t metar_cleared
  rw [find_station_result metar_cleared h rfl] at e
  simp only [Option.getD_some] at e
  have e' : (analyse_token t metar_cleared).station
      = t.take 10 ++ zeros (10 - min t.length 10) := by
    rw [e]
    have : metar_cleared.station = List.replicate 10 NUL := rfl
    rw [this, zeros, List.drop_replicate]
  refine ⟨e', ?_⟩
  rw [e']
  obtain ⟨-, hne, hu⟩ := re_station_some h
  cases t with
  | nil => exact absurd rfl hne
  | cons c r =>
    simp only [List.take_succ_cons, List.cons_append, List.headD_cons]
    exact isUpper_ne_NUL (hu c (by simp))

theorem station_stays_empty (ts : List (List Char)) (m : metar_t) (hm : m.station = zeros 10)
    (h : ∀ x ∈ ts, re_station x = none) : (run_tokens ts m).station = zeros 10 := by
  induction ts generalizing m with
  | nil => exact hm
  | cons t ts ih =>
    rw [run_tokens_cons]
    apply ih _ _ (fun x hx => h x (by simp [hx]))
    rw [station_analyse, find_station_none _ (h t (by simp))]
    exact hm

/-- C13. For every report, after `parse_Metar` the station field holds the first
min(n, 10) characters of the first token that consists only of uppercase
letters (n being the length of that token), the rest of its 10 bytes being
NUL; the field is all NUL (the empty string) when the report has no such
token. -/
theorem C13_station_is_first_uppercase_token (report : List Char) (init : metar_t) :
    (∀ (pre post : List (List Char)) (t : List Char),
      tokens (strip_newlines (report.length + 1) report) = pre ++ t :: post →
      (∀ x ∈ pre, re_station x = none) → (re_station t).isSome = true →
      (parse_Metar report init).station = t.take (min t.length 10)
        ++ zeros (10 - min t.length 10) ∧
      cstr (parse_Metar report init).station = t.take (min t.length 10)) ∧
    ((∀ x ∈ tokens (strip_newlines (report.length + 1) report), re_station x = none) →
      (parse_Metar report init).station = zeros 10 ∧
      cstr (parse_Metar report init).station = []) := by
  constructor
  · intro pre post t hsplit hpre ht
    obtain ⟨g, hg⟩ := Option.isSome_iff_exists.mp ht
    obtain ⟨h1, h2⟩ := station_of_matched hg
    have hmin : t.take (min t.length 10) = t.take 10 := by
      rw [Nat.min_comm, ← List.take_take, List.take_length]
    have hst : (parse_Metar report init).station
        = t.take 10 ++ zeros (10 - min t.length 10) := by
      rw [parse_Metar_eq, hsplit, ← h1]
      exact run_tokens_first_wins (fun m => m.station) (fun m => m.station.headD NUL ≠ NUL)
        (fun m => m.station = zeros 10 ∨ m.station.headD NUL ≠ NUL)
        station_frozen station_open pre post t metar_cleared (Or.inl rfl) (by decide)
        (fun x hx hn => hn (by rw [station_of_unmatched (hpre x hx)]; rfl)) h2
    rw [hmin, hst]
    refine ⟨rfl, ?_⟩
    apply cstr_append_zeros
    intro c hc
    have hu := (re_station_some hg).2.2 c (List.mem_of_mem_take hc)
    simpa using isUpper_ne_NUL hu
  · intro hall
    have hst : (parse_Metar report init).station = zeros 10 := by
      rw [parse_Metar_eq]
      exact station_stays_empty _ _ rfl hall
    rw [hst]
    exact ⟨rfl, by decide⟩

set_option maxRecDepth 100000 in
/-- C13, witness: in `10sm KSFOAIRPORTX EHAM` the first all-uppercase token has 12
letters and the station holds its first 10. -/
theorem C13_station_is_first_uppercase_token_witness :
    tokens (strip_newlines ("10sm KSFOAIRPORTX EHAM".toList.length + 1)
        "10sm KSFOAIRPORTX EHAM".toList)
      = ["10sm".toList] ++ "KSFOAIRPORTX".toList :: ["EHAM".toList] ∧
    (∀ x ∈ ["10sm".toList], re_station x = none) ∧
    (re_station "KSFOAIRPORTX".toList).isSome = true ∧
    cstr (parse_Metar "10sm KSFOAIRPORTX EHAM".toList metar_cleared).station
      = "KSFOAIRPOR".toList :=
  ⟨by decide, by decide, by decide,
    (((C13_station_is_first_uppercase_token "10sm KSFOAIRPORTX EHAM".toList metar_cleared).1
      ["10sm".toList] ["EHAM".toList] "KSFOAIRPORTX".toList (by decide) (by decide)
      (by decide)).2).trans (by decide)⟩

/-! ## More exclusions between the patterns -/

theorem cloud_head {t : List Char} {g : List Char × List Char × List Char × List Char}
    (h : re_cloud t = some g) :
    ∃ x y r, t = x :: y :: r ∧ isUpper x = true ∧ isUpper y = true ∧ x ≠ 'M' ∧ x ≠ 'Q' ∧
      x ≠ 'A' ∧ (x ≠ 'V' ∨ y ≠ 'R') := by
  obtain ⟨g1, g2, g3, g4⟩ := g
  rcases re_cloud_some h with ⟨hm, -⟩ | ⟨-, hc, ht, -⟩
  · simp only [no_cloud_codes, List.mem_cons, List.mem_singleton, List.not_mem_nil,
      or_false] at hm
    rcases hm with e | e | e | e <;> subst e <;>
      exact ⟨_, _, _, rfl, by decide, by decide, by decide, by decide, by decide, by decide⟩
  · simp only [cover_codes, List.mem_cons, List.mem_singleton, List.not_mem_nil,
      or_false] at hc
    rcases hc with e | e | e | e | e <;> subst e <;> subst ht <;>
      exact ⟨_, _, _, rfl, by decide, by decide, by decide, by decide, by decide, by decide⟩

theorem cloud_excl_singular {t : List Char} {g : List Char × List Char × List Char × List Char}
    (h : re_cloud t = some g) :
    re_daytime t = none ∧ re_wind t = none ∧ re_vis t = none ∧ re_temp t = none ∧
      re_qnh t = none := by
  obtain ⟨x, y, r, ht, hx, -, hM, hQ, hA, hV⟩ := cloud_head h
  have hd := isUpper_not_isDigit hx
  subst ht
  exact ⟨re_daytime_none_of_head x _ hd, re_wind_none_of_head x y r hd hV,
    re_vis_none_of_head x _ hd, re_temp_none_of_head x _ hd hM, re_qnh_none_of_head x _ hQ hA⟩

theorem regexec_none_of_digit {t : List Char} (h : ∃ c ∈ t, isDigit c = true) :
    regexec_phenomena phenomena_alternatives t = none := by
  cases hr : regexec_phenomena phenomena_alternatives t with
  | none => rfl
  | some g =>
    obtain ⟨g1, g2⟩ := g
    obtain ⟨ps, -, hps, hs, h2, ht⟩ := regexec_phenomena_some hr
    rw [ht, h2] at h
    exact absurd h (token_no_digit g1 ps hs hps)

theorem regexec_none_of_cavok {t : List Char} (h : strstr t "CAVOK".toList = true) :
    regexec_phenomena phenomena_alternatives t = none := by
  cases hr : regexec_phenomena phenomena_alternatives t with
  | none => rfl
  | some g =>
    obtain ⟨g1, g2⟩ := g
    obtain ⟨ps, -, hps, hs, h2, ht⟩ := regexec_phenomena_some hr
    rw [ht, h2, strstr_cavok_token g1 ps hs hps] at h
    exact absurd h (by simp)

set_option maxRecDepth 100000 in
theorem cloud_excl_phenomena {t : List Char}
    {g : List Char × List Char × List Char × List Char} (h : re_cloud t = some g) :
    regexec_phenomena phenomena_alternatives t = none := by
  obtain ⟨g1, g2, g3, g4⟩ := g
  rcases re_cloud_some h with ⟨hm, -⟩ | ⟨-, -, ht, hlen, hdig, -⟩
  · simp only [no_cloud_codes, List.mem_cons, List.mem_singleton, List.not_mem_nil,
      or_false] at hm
    rcases hm with e | e | e | e <;> subst e <;> decide
  · apply regexec_none_of_digit
    have hne : g3 ≠ [] := by
      intro hn; rw [hn] at hlen; simp at hlen
    obtain ⟨c, hc⟩ := List.exists_mem_of_ne_nil g3 hne
    exact ⟨c, by rw [ht]; simp [hc], hdig c hc⟩

theorem re_temp_none_of_no_slash {t : List Char} (h : '/' ∉ t) : re_temp t = none := by
  cases hr : re_temp t with
  | none => rfl
  | some g => exact absurd (re_temp_slash hr) h

/-- The characters of a token matching one of the singular patterns with a
digit in it: digits and a few letters, never `C`. -/
theorem singular_no_C (t : List Char) :
    (re_daytime t ≠ none ∨ re_wind t ≠ none ∨ re_vis t ≠ none ∨ re_temp t ≠ none ∨
      re_qnh t ≠ none) → 'C' ∉ t := by
  have hdig : ∀ l : List Char, (∀ c ∈ l, isDigit c = true) → 'C' ∉ l :=
    fun l hl hm => absurd (hl _ hm) (by decide)
  rintro (h | h | h | h | h)
  · cases hr : re_daytime t with
    | none => exact absurd hr h
    | some g =>
      obtain ⟨g1, g2⟩ := g
      obtain ⟨a, b, c, d, e, f, ht, -, -, ha, hb, hc, hd, he, hf⟩ := re_daytime_some hr
      rw [ht]
      intro hm
      simp only [List.mem_cons, List.mem_singleton, List.not_mem_nil, or_false] at hm
      rcases hm with e1 | e1 | e1 | e1 | e1 | e1 | e1
      · rw [← e1] at ha; exact absurd ha (by decide)
      · rw [← e1] at hb; exact absurd hb (by decide)
      · rw [← e1] at hc; exact absurd hc (by decide)
      · rw [← e1] at hd; exact absurd hd (by decide)
      · rw [← e1] at he; exact absurd he (by decide)
      · rw [← e1] at hf; exact absurd hf (by decide)
      · exact absurd e1 (by decide)
  · cases hr : re_wind t with
    | none => exact absurd hr h
    | some g =>
      obtain ⟨g1, g2, g3, g4⟩ := g
      obtain ⟨a, b, c, d, e, h1, h2, h4, ht, hv, hd, he, h3⟩ := re_wind_some hr
      rw [ht]
      intro hm
      simp only [List.mem_append] at hm
      rcases hm with ((hm | hm) | hm) | hm
      · rcases hv with hv | ⟨ha, hb, hc⟩
        · rw [hv] at hm; exact absurd hm (by decide)
        · rw [h1] at hm
          simp only [List.mem_cons, List.mem_singleton, List.not_mem_nil, or_false] at hm
          rcases hm with e1 | e1 | e1
          · rw [← e1] at ha; exact absurd ha (by decide)
          · rw [← e1] at hb; exact absurd hb (by decide)
          · rw [← e1] at hc; exact absurd hc (by decide)
      · rw [h2] at hm
        simp only [List.mem_cons, List.mem_singleton, List.not_mem_nil, or_false] at hm
        rcases hm with e1 | e1
        · rw [← e1] at hd; exact absurd hd (by decide)
        · rw [← e1] at he; exact absurd he (by decide)
      · rcases h3 with h3 | ⟨ds, h3, -, hds⟩
        · rw [h3] at hm; exact absurd hm (by simp)
        · rw [h3] at hm
          rcases List.mem_cons.mp hm with e1 | e1
          · exact absurd e1 (by decide)
          · exact hdig ds hds e1
      · rw [h4] at hm; exact absurd hm (by decide)
  · cases hr : re_vis t with
    | none => exact absurd hr h
    | some g =>
      obtain ⟨g1, g2⟩ := g
      obtain ⟨ht, -, hd, h2⟩ := re_vis_some hr
      rw [ht]
      intro hm
      rcases List.mem_append.mp hm with hm | hm
      · exact hdig g1 hd hm
      · rcases h2 with h2 | h2 <;> rw [h2] at hm <;> exact absurd hm (by decide)
  · cases hr : re_temp t with
    | none => exact absurd hr h
    | some g =>
      obtain ⟨g1, g2, g3, g4⟩ := g
      obtain ⟨ht, h1, h3, -, hd2, -, hd4⟩ := re_temp_some hr
      rw [ht]
      intro hm
      simp only [List.mem_append, List.mem_cons] at hm
      rcases hm with (hm | hm) | hm | hm | hm
      · rcases h1 with h1 | h1 <;> rw [h1] at hm <;> exact absurd hm (by decide)
      · exact hdig g2 hd2 hm
      · exact absurd hm (by decide)
      · rcases h3 with h3 | h3 <;> rw [h3] at hm <;> exact absurd hm (by decide)
      · exact hdig g4 hd4 hm
  · cases hr : re_qnh t with
    | none => exact absurd hr h
    | some g =>
      obtain ⟨g1, g2⟩ := g
      obtain ⟨ht, h1, -, hd⟩ := re_qnh_some hr
      rw [ht]
      intro hm
      rcases List.mem_append.mp hm with hm | hm
      · rcases h1 with h1 | h1 <;> rw [h1] at hm <;> exact absurd hm (by decide)
      · exact hdig g2 hd hm

theorem cavok_excl_singular {t : List Char} (h : strstr t "CAVOK".toList = true) :
    re_daytime t = none ∧ re_wind t = none ∧ re_vis t = none ∧ re_temp t = none ∧
      re_qnh t = none := by
  have hC : 'C' ∈ t := strstr_mem h 'C' (by decide)
  have key := singular_no_C t
  refine ⟨?_, ?_, ?_, ?_, ?_⟩
  · by_contra hn; exact key (Or.inl hn) hC
  · by_contra hn; exact key (Or.inr (Or.inl hn)) hC
  · by_contra hn; exact key (Or.inr (Or.inr (Or.inl hn))) hC
  · by_contra hn; exact key (Or.inr (Or.inr (Or.inr (Or.inl hn)))) hC
  · by_contra hn; exact key (Or.inr (Or.inr (Or.inr (Or.inr hn)))) hC

theorem cavok_excl_cloud {t : List Char} (h : strstr t "CAVOK".toList = true) :
    re_cloud t = none := by
  cases hr : re_cloud t with
  | none => rfl
  | some g =>
    exfalso
    obtain ⟨g1, g2, g3, g4⟩ := g
    have hO : 'O' ∈ t := strstr_mem h 'O' (by decide)
    have hK : 'K' ∈ t := strstr_mem h 'K' (by decide)
    have hdig : ∀ l : List Char, (∀ c ∈ l, isDigit c = true) → 'O' ∉ l ∧ 'K' ∉ l :=
      fun l hl => ⟨fun hm => absurd (hl _ hm) (by decide), fun hm => absurd (hl _ hm) (by decide)⟩
    rcases re_cloud_some hr with ⟨hm, -⟩ | ⟨-, hc, ht, -, hd, hmd⟩
    · simp only [no_cloud_codes, List.mem_cons, List.mem_singleton, List.not_mem_nil,
        or_false] at hm
      rcases hm with e | e | e | e <;> subst e <;> exact absurd hO (by decide)
    · have hmdO : 'O' ∉ g4 ∧ 'K' ∉ g4 := by
        rcases hmd with e | e
        · subst e; simp
        · simp only [modifier_codes, List.mem_cons, List.mem_singleton, List.not_mem_nil,
            or_false] at e
          rcases e with e | e | e | e | e | e <;> subst e <;> decide
      rw [ht] at hO hK
      simp only [List.mem_append] at hO hK
      have hO2 : 'O' ∈ g2 := by
        rcases hO with (hO | hO) | hO
        · exact hO
        · exact absurd hO (hdig g3 hd).1
        · exact absurd hO hmdO.1
      have hK2 : 'K' ∈ g2 := by
        rcases hK with (hK | hK) | hK
        · exact hK
        · exact absurd hK (hdig g3 hd).2
        · exact absurd hK hmdO.2
      simp only [cover_codes, List.mem_cons, List.mem_singleton, List.not_mem_nil,
        or_false] at hc
      rcases hc with e | e | e | e | e <;> subst e
      · exact absurd hO2 (by decide)
      · exact absurd hO2 (by decide)
      · exact absurd hO2 (by decide)
      · exact absurd hK2 (by decide)
      · exact absurd hO2 (by decide)

/-! ## Claim C11 -/

theorem find_phenomena_cavok (t : List Char) (m : metar_t)
    (hc : strstr t "CAVOK".toList = true) :
    ∃ mn, find_phenomena t m = { m with
      phenomena := m.phenomena ++ ["Ceiling and visibility OK".toList],
      maintenance_needed := mn } := by
  unfold find_phenomena
  simp only [hc, regexec_none_of_cavok hc, if_true, add_phenomenon_eq]
  split
  · exact ⟨_, rfl⟩
  · exact ⟨_, rfl⟩

/-- C11. For every token that contains `CAVOK` as a substring, processed while
the station field is already set, `analyse_token` appends exactly one entry
"Ceiling and visibility OK" to the end of the phenomenon list: no earlier
recognizer takes the token and the phenomenon pattern does not match it. The
station, day and time, wind, visibility, temperature and dewpoint, pressure
and the cloud list are unchanged. -/
theorem C11_cavok_appends_one_entry (t : List Char) (m : metar_t)
    (hc : strstr t "CAVOK".toList = true) (hst : m.station.headD NUL ≠ NUL) :
    (analyse_token t m).phenomena = m.phenomena ++ ["Ceiling and visibility OK".toList] ∧
    (find_station t m = none ∧ re_daytime t = none ∧ re_wind t = none ∧ re_vis t = none ∧
      re_temp t = none ∧ re_qnh t = none ∧ re_cloud t = none ∧
      regexec_phenomena phenomena_alternatives t = none) ∧
    (analyse_token t m).station = m.station ∧
    daytime_fields (analyse_token t m) = daytime_fields m ∧
    wind_fields (analyse_token t m) = wind_fields m ∧
    vis_fields (analyse_token t m) = vis_fields m ∧
    temp_fields (analyse_token t m) = temp_fields m ∧
    qnh_fields (analyse_token t m) = qnh_fields m ∧
    (analyse_token t m).clouds = m.clouds := by
  obtain ⟨n1, n2, n3, n4, n5⟩ := cavok_excl_singular hc
  have n6 := cavok_excl_cloud hc
  have n0 : find_station t m = none := find_station_gate hst
  obtain ⟨mn, hf⟩ := find_phenomena_cavok t m hc
  rw [analyse_token_of_phenomena n0 n1 n2 n3 n4 n5 n6, hf]
  exact ⟨rfl, ⟨n0, n1, n2, n3, n4, n5, n6, regexec_none_of_cavok hc⟩, rfl, rfl, rfl, rfl, rfl,
    rfl, rfl⟩

set_option maxRecDepth 100000 in
/-- C11, witness: the token `CAVOK` on the record left by the token `KSFO`. -/
theorem C11_cavok_appends_one_entry_witness :
    strstr "CAVOK".toList "CAVOK".toList = true ∧
    (analyse_token "KSFO".toList metar_cleared).station.headD NUL ≠ NUL ∧
    (analyse_token "CAVOK".toList (analyse_token "KSFO".toList metar_cleared)).phenomena
      = (analyse_token "KSFO".toList metar_cleared).phenomena
        ++ ["Ceiling and visibility OK".toList] :=
  ⟨by decide, by decide,
    (C11_cavok_appends_one_entry "CAVOK".toList (analyse_token "KSFO".toList metar_cleared)
      (by decide) (by decide)).1⟩

/-! ## Claim C16 -/

theorem letter_digits_unrecognized (c : Char) (ds : List Char) (hu : isUpper c = true)
    (hq : c ≠ 'Q') (ha : c ≠ 'A') (hne : ds ≠ []) (hd : ∀ x ∈ ds, isDigit x = true) :
    unrecognized (c :: ds) = true := by
  obtain ⟨d, hdm⟩ := List.exists_mem_of_ne_nil ds hne
  have hdig : ∃ x ∈ c :: ds, isDigit x = true := ⟨d, by simp [hdm], hd d hdm⟩
  have hcd : isDigit c = false := isUpper_not_isDigit hu
  have h1 := re_station_none_of_digit hdig
  have h2 := re_daytime_none_of_head c ds hcd
  have h4 := re_vis_none_of_head c ds hcd
  have h6 := re_qnh_none_of_head c ds hq ha
  have h8 := regexec_none_of_digit hdig
  have h3 : re_wind (c :: ds) = none := by
    cases ds with
    | nil => exact absurd rfl hne
    | cons y r =>
      apply re_wind_none_of_head c y r hcd
      right
      rintro rfl
      exact absurd (hd 'R' (by simp)) (by decide)
  have h5 : re_temp (c :: ds) = none := by
    apply re_temp_none_of_no_slash
    intro hm
    rcases List.mem_cons.mp hm with e | e
    · rw [← e] at hu; exact absurd hu (by decide)
    · exact absurd (hd _ e) (by decide)
  have h7 : re_cloud (c :: ds) = none := by
    cases hr : re_cloud (c :: ds) with
    | none => rfl
    | some g =>
      exfalso
      obtain ⟨x, y, r, ht, -, hy, -⟩ := cloud_head hr
      cases ds with
      | nil => exact absurd rfl hne
      | cons y' r' =>
        simp only [List.cons.injEq] at ht
        have := hd y' (by simp)
        rw [ht.2.1, isUpper_not_isDigit hy] at this
        exact absurd this (by simp)
  have h9 : strstr (c :: ds) "CAVOK".toList = false := by
    cases hs : strstr (c :: ds) "CAVOK".toList with
    | false => rfl
    | true =>
      exfalso
      have hA := strstr_mem hs 'A' (by decide)
      rcases List.mem_cons.mp hA with e | e
      · exact ha e.symm
      · exact absurd (hd _ e) (by decide)
  have h10 : strncmp_eq (c :: ds) "$".toList 1 = false := by
    have : c ≠ '$' := by
      rintro rfl; exact absurd hu (by decide)
    simp [strncmp_eq, this]
  unfold unrecognized
  rw [h1, h2, h3, h4, h5, h6, h7, h8, h9, h10]
  rfl

set_option maxRecDepth 100000 in
/-- C16, counterexample: the token `B1013` on the cleared record. The pressure
pattern admits the letters `Q` and `A` only, so the token is not taken: the
pressure stays 0 and the unit stays empty, not the marker `Unkn`. -/
theorem C16_other_letter_is_not_pressure :
    re_qnh "B1013".toList = none ∧
    (analyse_token "B1013".toList metar_cleared).qnh = 0 ∧
    cstr (analyse_token "B1013".toList metar_cleared).qnhunit = [] ∧
    analyse_token "B1013".toList metar_cleared = metar_cleared := by
  decide

/-- C16, as the code has it. A token made of one uppercase letter other than `Q`
and `A` followed by digits (for instance `B1013`) does not match the pressure
pattern and is taken by no recognizer: `analyse_token` returns the record
unchanged, so the pressure value, its unit and the implied decimals keep
their values and the unit is not set to the unknown marker. -/
theorem C16_other_letter_token_is_skipped (c : Char) (ds : List Char) (m : metar_t)
    (hu : isUpper c = true) (hq : c ≠ 'Q') (ha : c ≠ 'A') (hne : ds ≠ [])
    (hd : ∀ x ∈ ds, isDigit x = true) :
    re_qnh (c :: ds) = none ∧ analyse_token (c :: ds) m = m ∧
    qnh_fields (analyse_token (c :: ds) m) = qnh_fields m := by
  have h := analyse_token_unrecognized (c :: ds) m
    (letter_digits_unrecognized c ds hu hq ha hne hd)
  exact ⟨re_qnh_none_of_head c ds hq ha, h, by rw [h]⟩

/-- C16, witness: the token `B1013` on the cleared record. -/
theorem C16_other_letter_token_is_skipped_witness :
    isUpper 'B' = true ∧ 'B' ≠ 'Q' ∧ 'B' ≠ 'A' ∧ "1013".toList ≠ [] ∧
    (∀ x ∈ "1013".toList, isDigit x = true) ∧
    analyse_token ('B' :: "1013".toList) metar_cleared = metar_cleared :=
  ⟨by decide, by decide, by decide, by decide, by decide,
    (C16_other_letter_token_is_skipped 'B' "1013".toList metar_cleared (by decide) (by decide)
      (by decide) (by decide) (by decide)).2.1⟩

/-! ## What one token adds to the two lists -/

theorem find_cloud_clouds {t : List Char} {m r : metar_t} (h : find_cloud t m = some r) :
    r = { m with clouds := m.clouds ++ clouds_of_token t } := by
  unfold clouds_of_token
  unfold find_cloud at h ⊢
  cases hre : re_cloud t with
  | none => rw [hre] at h; simp at h
  | some g =>
    obtain ⟨g1, g2, g3, g4⟩ := g
    rw [hre] at h
    simp only [hre] at h ⊢
    cases hd : decode_cloud_abbreviation t with
    | none =>
      simp only [hd, ite_self, Option.some.injEq] at h
      simp [hd, ← h, metar_cleared]
    | some e =>
      simp only [hd] at h ⊢
      by_cases hg1 : g1.length > 0
      · simp only [hg1, if_true, Option.some.injEq, add_cloud_eq] at h
        simp [hg1, ← h, add_cloud_eq, metar_cleared]
      · simp only [hg1, if_false] at h
        by_cases hg4 : g4.length > 0
        · simp only [hg4, if_true] at h
          cases hd4 : decode_cloud_abbreviation g4 with
          | none =>
            simp only [hd4, Option.some.injEq] at h
            simp [hg1, hg4, hd4, ← h, metar_cleared]
          | some e4 =>
            simp only [hd4, Option.some.injEq, add_cloud_eq] at h
            simp [hg1, hg4, hd4, ← h, add_cloud_eq, metar_cleared]
        · simp only [hg4, if_false, Option.some.injEq, add_cloud_eq] at h
          simp [hg1, hg4, ← h, add_cloud_eq, metar_cleared]

theorem find_cloud_none_iff {t : List Char} {m : metar_t} (h : find_cloud t m = none) :
    re_cloud t = none := by
  cases hre : re_cloud t with
  | none => rfl
  | some g =>
    exfalso
    obtain ⟨g1, g2, g3, g4⟩ := g
    unfold find_cloud at h
    rw [hre] at h
    simp only at h
    repeat' split at h
    all_goals simp at h

theorem clouds_of_token_nil {t : List Char} (h : re_cloud t = none) : clouds_of_token t = [] := by
  unfold clouds_of_token
  rw [find_cloud_none _ h]
  rfl

set_option maxRecDepth 100000 in
theorem clouds_of_token_one {t : List Char}
    {g : List Char × List Char × List Char × List Char} (h : re_cloud t = some g) :
    (clouds_of_token t).length = 1 := by
  obtain ⟨g1, g2, g3, g4⟩ := g
  rcases re_cloud_some h with ⟨hm, -⟩ | ⟨e1, hc, ht, hlen, hdig, hmd⟩
  · simp only [no_cloud_codes, List.mem_cons, List.mem_singleton, List.not_mem_nil,
      or_false] at hm
    rcases hm with e | e | e | e <;> subst e <;> decide
  · subst e1
    match g3, hlen, hdig with
    | [a, b, c], _, hdig =>
      have ha := hdig a (by simp)
      have hb := hdig b (by simp)
      have hc' := hdig c (by simp)
      have htok : t = g2 ++ a :: b :: c :: g4 := by rw [ht]; simp
      obtain ⟨hd1, hd2⟩ := decode_cover g2 (c :: g4) a b hc
      rw [← htok] at hd1
      cases hl : lookup_exact g2 with
      | none => rw [hl] at hd2; simp at hd2
      | some e =>
        rw [hl] at hd1
        unfold clouds_of_token find_cloud
        rw [h]
        simp only [List.length_nil, gt_iff_lt, Nat.lt_irrefl, if_false, hd1]
        rcases hmd with e4 | e4
        · subst e4
          simp [add_cloud_eq, metar_cleared]
        · have h4 := decode_modifier g4 e4
          have hne : g4 ≠ [] := by
            intro hn; rw [hn] at e4; exact absurd e4 (by decide)
          have hpos : g4.length > 0 := List.length_pos.mpr hne
          cases hd4 : decode_cloud_abbreviation g4 with
          | none => rw [hd4] at h4; simp at h4
          | some e4' => simp [hpos, add_cloud_eq, metar_cleared]

theorem find_phenomena_phenomena (t : List Char) (m : metar_t) :
    (find_phenomena t m).phenomena = m.phenomena ++ phenomena_of_token t := by
  unfold phenomena_of_token find_phenomena
  cases regexec_phenomena phenomena_alternatives t <;>
    cases strstr t "CAVOK".toList <;>
    cases strncmp_eq t "$".toList 1 <;>
    simp only [Bool.false_eq_true, if_false, if_true, add_phenomenon_eq] <;>
    simp [metar_cleared]

theorem phenomena_of_token_nil {t : List Char}
    (h1 : regexec_phenomena phenomena_alternatives t = none)
    (h2 : strstr t "CAVOK".toList = false) : phenomena_of_token t = [] := by
  unfold phenomena_of_token find_phenomena
  simp only [h1, h2, Bool.false_eq_true, if_false]
  split <;> rfl

theorem phenomena_of_token_length (t : List Char) :
    (phenomena_of_token t).length
      = if (regexec_phenomena phenomena_alternatives t).isSome || strstr t "CAVOK".toList
        then 1 else 0 := by
  cases hr : regexec_phenomena phenomena_alternatives t with
  | none =>
    cases hc : strstr t "CAVOK".toList with
    | false => rw [phenomena_of_token_nil hr hc]; rfl
    | true =>
      obtain ⟨mn, hf⟩ := find_phenomena_cavok t metar_cleared hc
      unfold phenomena_of_token
      rw [hf]
      rfl
  | some g =>
    obtain ⟨g1, g2⟩ := g
    have hc : strstr t "CAVOK".toList = false := by
      cases hs : strstr t "CAVOK".toList with
      | false => rfl
      | true => rw [regexec_none_of_cavok hs] at hr; simp at hr
    unfold phenomena_of_token find_phenomena
    simp only [hr, hc, Bool.false_eq_true, if_false, add_phenomenon_eq]
    simp [metar_cleared]

theorem singular_adds_nothing {t : List Char}
    (h : re_daytime t ≠ none ∨ re_wind t ≠ none ∨ re_vis t ≠ none ∨ re_temp t ≠ none ∨
      re_qnh t ≠ none) : clouds_of_token t = [] ∧ phenomena_of_token t = [] := by
  have hdig : ∃ c ∈ t, isDigit c = true := by
    rcases h with h | h | h | h | h
    · cases hr : re_daytime t with
      | none => exact absurd hr h
      | some g => exact re_daytime_digit hr
    · cases hr : re_wind t with
      | none => exact absurd hr h
      | some g => exact re_wind_digit hr
    · cases hr : re_vis t with
      | none => exact absurd hr h
      | some g => exact re_vis_digit hr
    · cases hr : re_temp t with
      | none => exact absurd hr h
      | some g => exact re_temp_digit hr
    · cases hr : re_qnh t with
      | none => exact absurd hr h
      | some g => exact re_qnh_digit hr
  have hC := singular_no_C t h
  constructor
  · apply clouds_of_token_nil
    cases hr : re_cloud t with
    | none => rfl
    | some g =>
      exfalso
      obtain ⟨n1, n2, n3, n4, n5⟩ := cloud_excl_singular hr
      rcases h with h | h | h | h | h
      · exact h n1
      · exact h n2
      · exact h n3
      · exact h n4
      · exact h n5
  · apply phenomena_of_token_nil (regexec_none_of_digit hdig)
    cases hs : strstr t "CAVOK".toList with
    | false => rfl
    | true => exact absurd (strstr_mem hs 'C' (by decide)) hC

/-! ## Claim C12 -/

theorem lists_step (t : List Char) (m : metar_t) (hst : m.station.headD NUL ≠ NUL) :
    (analyse_token t m).station.headD NUL ≠ NUL ∧
    (analyse_token t m).clouds = m.clouds ++ clouds_of_token t ∧
    (analyse_token t m).phenomena = m.phenomena ++ phenomena_of_token t := by
  refine ⟨(station_frozen t m hst).2, ?_⟩
  rcases analyse_token_cases t m with h | ⟨-, h⟩ | ⟨-, -, h⟩ | ⟨-, -, -, h⟩ |
    ⟨-, -, -, -, h⟩ | ⟨-, -, -, -, -, h⟩ | ⟨-, -, -, -, -, -, h⟩ | ⟨-, -, -, -, -, -, h7, h⟩
  · rw [find_station_gate hst] at h; simp at h
  · obtain ⟨-, g1, g2, hg, hr⟩ := find_daytime_some h
    obtain ⟨c0, p0⟩ := singular_adds_nothing (t := t) (Or.inl (by rw [hg]; simp))
    rw [hr, c0, p0]; simp
  · obtain ⟨-, ⟨g, hg⟩, wd, ws, wg, wu, hr⟩ := find_wind_some h
    obtain ⟨c0, p0⟩ := singular_adds_nothing (t := t) (Or.inr (Or.inl (by rw [hg]; simp)))
    rw [hr, c0, p0]; simp
  · obtain ⟨-, ⟨g, hg⟩, v, vu, hr⟩ := find_vis_some h
    obtain ⟨c0, p0⟩ := singular_adds_nothing (t := t)
      (Or.inr (Or.inr (Or.inl (by rw [hg]; simp))))
    rw [hr, c0, p0]; simp
  · obtain ⟨-, ⟨g, hg⟩, x, y, hr⟩ := find_temp_some h
    obtain ⟨c0, p0⟩ := singular_adds_nothing (t := t)
      (Or.inr (Or.inr (Or.inr (Or.inl (by rw [hg]; simp)))))
    rw [hr, c0, p0]; simp
  · obtain ⟨-, ⟨g, hg⟩, u, fp, q, hr⟩ := find_qnh_some h
    obtain ⟨c0, p0⟩ := singular_adds_nothing (t := t)
      (Or.inr (Or.inr (Or.inr (Or.inr (by rw [hg]; simp)))))
    rw [hr, c0, p0]; simp
  · obtain ⟨⟨g, hg⟩, -⟩ := find_cloud_some h
    have hr := find_cloud_clouds h
    have p0 : phenomena_of_token t = [] := by
      apply phenomena_of_token_nil (cloud_excl_phenomena hg)
      cases hs : strstr t "CAVOK".toList with
      | false => rfl
      | true => rw [cavok_excl_cloud hs] at hg; simp at hg
    rw [hr, p0]; simp
  · rw [h, find_phenomena_phenomena, clouds_of_token_nil (find_cloud_none_iff h7)]
    obtain ⟨ph, mn, hs⟩ := find_phenomena_shape t m
    refine ⟨?_, rfl⟩
    rw [hs]; simp

theorem lists_fold (ts : List (List Char)) (m : metar_t) (hst : m.station.headD NUL ≠ NUL) :
    (run_tokens ts m).clouds = m.clouds ++ (ts.map clouds_of_token).flatten ∧
    (run_tokens ts m).phenomena = m.phenomena ++ (ts.map phenomena_of_token).flatten := by
  induction ts generalizing m with
  | nil => simp [run_tokens]
  | cons t ts ih =>
    obtain ⟨h1, h2, h3⟩ := lists_step t m hst
    obtain ⟨i1, i2⟩ := ih _ h1
    rw [run_tokens_cons, i1, i2, h2, h3]
    simp

theorem clouds_of_token_length (t : List Char) :
    (clouds_of_token t).length = if (re_cloud t).isSome then 1 else 0 := by
  cases hr : re_cloud t with
  | none => rw [clouds_of_token_nil hr]; rfl
  | some g => rw [clouds_of_token_one hr]; rfl

set_option maxRecDepth 100000 in
/-- C12, as the code has it. For every report whose first token is an
all-uppercase station id, the decoded cloud list consists of exactly one layer
per later token that matches the cloud pattern, in token order, and the
decoded phenomenon list consists of exactly one entry per later token that
matches the phenomenon pattern or contains `CAVOK`, in token order; other
tokens add nothing to either list. In particular three cloud-layer tokens
after the station give a cloud list of exactly three entries in original
order. -/
theorem C12_one_entry_per_later_token (report : List Char) (init : metar_t) (t0 : List Char)
    (rest : List (List Char))
    (hsplit : tokens (strip_newlines (report.length + 1) report) = t0 :: rest)
    (hfirst : (re_station t0).isSome = true) :
    (parse_Metar report init).clouds = (rest.map clouds_of_token).flatten ∧
    (parse_Metar report init).phenomena = (rest.map phenomena_of_token).flatten ∧
    (∀ t, (clouds_of_token t).length = if (re_cloud t).isSome then 1 else 0) ∧
    (∀ t, (phenomena_of_token t).length
      = if (regexec_phenomena phenomena_alternatives t).isSome || strstr t "CAVOK".toList
        then 1 else 0) ∧
    (∀ m : metar_t, (parse_Metar "KSFO FEW010 SCT025 BKN035CB".toList m).clouds =
      [{ amount := "Few clouds".toList, layer_altitude := 10, print_altitude := PRINT_BASE,
         layer_modifier := [] },
       { amount := "Scattered clouds".toList, layer_altitude := 25,
         print_altitude := PRINT_BASE, layer_modifier := [] },
       { amount := "Broken clouds".toList, layer_altitude := 35, print_altitude := PRINT_BASE,
         layer_modifier := ", Cumulonimbus clouds in vicinity".toList }]) := by
  obtain ⟨g, hg⟩ := Option.isSome_iff_exists.mp hfirst
  have h0 : analyse_token t0 metar_cleared
      = { metar_cleared with
          station := t0.take 10 ++ metar_cleared.station.drop (min t0.length 10) } := by
    unfold analyse_token
    rw [find_station_result metar_cleared hg rfl]
  have hset := (station_of_matched hg).2
  obtain ⟨f1, f2⟩ := lists_fold rest _ hset
  rw [parse_Metar_eq, hsplit, run_tokens_cons, f1, f2, h0]
  refine ⟨by simp [metar_cleared], by simp [metar_cleared], clouds_of_token_length,
    phenomena_of_token_length, ?_⟩
  intro m
  rw [parse_Metar_eq]
  decide

set_option maxRecDepth 100000 in
/-- C12, witness: the report `KSFO FEW010 10SM -RA SCT025`. -/
theorem C12_one_entry_per_later_token_witness :
    tokens (strip_newlines ("KSFO FEW010 10SM -RA SCT025".toList.length + 1)
        "KSFO FEW010 10SM -RA SCT025".toList)
      = "KSFO".toList :: ["FEW010".toList, "10SM".toList, "-RA".toList, "SCT025".toList] ∧
    (re_station "KSFO".toList).isSome = true ∧
    (parse_Metar "KSFO FEW010 10SM -RA SCT025".toList metar_cleared).clouds
      = (["FEW010".toList, "10SM".toList, "-RA".toList, "SCT025".toList].map
          clouds_of_token).flatten :=
  ⟨by decide, by decide,
    (C12_one_entry_per_later_token "KSFO FEW010 10SM -RA SCT025".toList metar_cleared
      "KSFO".toList ["FEW010".toList, "10SM".toList, "-RA".toList, "SCT025".toList]
      (by decide) (by decide)).1⟩

set_option maxRecDepth 100000 in
/-- C12, counterexample: in the report `SKC FEW010` the first token is all
uppercase and both tokens match the cloud pattern, but the first one is taken
as the station id and the cloud list has one layer only. -/
theorem C12_first_token_gives_no_layer :
    tokens (strip_newlines ("SKC FEW010".toList.length + 1) "SKC FEW010".toList)
      = ["SKC".toList, "FEW010".toList] ∧
    (re_station "SKC".toList).isSome = true ∧
    (re_cloud "SKC".toList).isSome = true ∧ (re_cloud "FEW010".toList).isSome = true ∧
    (parse_Metar "SKC FEW010".toList metar_cleared).clouds
      = [{ amount := "Few clouds".toList, layer_altitude := 10, print_altitude := PRINT_BASE,
           layer_modifier := [] }] := by
  decide

/-! ## Claim C22 -/

set_option maxRecDepth 100000 in
/-- C22. For every report text and any two initial contents of the record handed
to `parse_Metar` (for example the record left by a previous decode), the
results are equal: the record is cleared before the first token is looked at,
so the result is the fold of the recognizer chain over the tokens of the
report, started on the cleared record. The clearing is what makes it so: fed
to the recognizers without it, the record left by `KSFO 10/08` keeps its
station and temperature when the tokens of `EHAM 05/03` follow. -/
theorem C22_result_is_a_function_of_the_report (report : List Char) (init1 init2 : metar_t) :
    parse_Metar report init1 = parse_Metar report init2 ∧
    (∀ previous : List Char,
      parse_Metar report (parse_Metar previous init1) = parse_Metar report init2) ∧
    parse_Metar report init1
      = run_tokens (tokens (strip_newlines (report.length + 1) report)) metar_cleared ∧
    run_tokens (tokens "EHAM 05/03".toList) (parse_Metar "KSFO 10/08".toList init1)
      ≠ parse_Metar "EHAM 05/03".toList init1 := by
  refine ⟨rfl, fun _ => rfl, parse_Metar_eq report init1, ?_⟩
  rw [parse_Metar_eq, parse_Metar_eq]
  decide

/-! ## Claim C25 -/

/-- C25, counterexample: the table `phenomena` has 31 entries, not 30. -/
theorem C25_phenomena_has_31_entries : phenomena.length = 31 ∧ phenomena.length ≠ 30 := by
  decide

/-- C25, as the code has it. The cloud-abbreviation dictionary has exactly 15
entries and the phenomenon-code dictionary has exactly 31 entries, with 31
different codes, each code being exactly two uppercase letters. -/
theorem C25_dictionary_sizes :
    cloud_dict.length = 15 ∧ phenomena.length = 31 ∧
    (phenomena.map (fun p => p.code)).Nodup ∧
    phenomena.all (fun p => p.code.length == 2 && p.code.all isUpper) = true := by
  decide

/-! ## Claim C28 -/

theorem strip_at_first_newline (a b : List Char) (h : '\n' ∉ a) :
    strip_newlines ((a ++ '\n' :: b).length + 1) (a ++ '\n' :: b) = a := by
  rw [strip_newlines_eq _ _ (Nat.lt_succ_self _),
    takeWhile_append_stop _ a b '\n' (by decide)]
  apply List.takeWhile_eq_self_iff.mpr
  intro c hc
  have : c ≠ '\n' := fun e => h (e ▸ hc)
  simpa using this

set_option maxRecDepth 100000 in
/-- C28. The newline loop of `parse_Metar` cuts the report at its first newline
character wherever it occurs: for every text `a` containing no newline and
every text `b`, `parse_Metar` on `a` + newline + `b` returns the same record as
`parse_Metar` on `a`, so tokens after an embedded newline are never decoded;
the wind token behind the newline of `KSFO` + newline + `24015KT` is not. -/
theorem C28_report_is_cut_at_first_newline (a b : List Char) (init init2 : metar_t)
    (h : '\n' ∉ a) :
    parse_Metar (a ++ '\n' :: b) init = parse_Metar a init2 ∧
    tokens (strip_newlines ((a ++ '\n' :: b).length + 1) (a ++ '\n' :: b)) = tokens a ∧
    (parse_Metar ("KSFO".toList ++ '\n' :: "24015KT".toList) init).winddir = 0 ∧
    (parse_Metar "KSFO 24015KT".toList init).winddir = 240 := by
  refine ⟨?_, by rw [strip_at_first_newline a b h], ?_, ?_⟩
  · rw [parse_Metar_eq, parse_Metar_eq, strip_at_first_newline a b h, strip_no_newline a h]
  · rw [parse_Metar_eq]; decide
  · rw [parse_Metar_eq]; decide

set_option maxRecDepth 100000 in
/-- C28, witness: the report `KSFO 10SM` + newline + `24015KT`. -/
theorem C28_report_is_cut_at_first_newline_witness :
    '\n' ∉ "KSFO 10SM".toList ∧
    parse_Metar ("KSFO 10SM".toList ++ '\n' :: "24015KT".toList) metar_cleared
      = parse_Metar "KSFO 10SM".toList metar_cleared :=
  ⟨by decide,
    (C28_report_is_cut_at_first_newline "KSFO 10SM".toList "24015KT".toList metar_cleared
      metar_cleared (by decide)).1⟩

/-! ## Claim C23 -/

set_option maxRecDepth 100000 in
theorem build_pattern_text :
    build_phenomena_regex_patterns PHENOMENA_REGEX_SIZE
      = some ("^([+-]?)((".toList
          ++ List.intercalate ['|'] (phenomena.map (fun p => p.code)) ++ ")+)$".toList) := by
  decide

set_option maxRecDepth 100000 in
/-- C23. Called with the 275-byte buffer, `build_phenomena_regex_patterns`
produces the pattern `^([+-]?)((c1|c2|...|cN)+)$` in which c1..cN are all the
codes of the phenomenon dictionary in declaration order: no code is dropped by
the space checks and no empty alternative is left. A token therefore matches
the phenomenon pattern if and only if it is an optional `+` or `-` followed by
one or more dictionary codes back to back. -/
theorem C23_phenomenon_pattern :
    build_phenomena_regex_patterns PHENOMENA_REGEX_SIZE
      = some ("^([+-]?)((".toList
          ++ List.intercalate ['|'] (phenomena.map (fun p => p.code)) ++ ")+)$".toList) ∧
    build_phenomena_regex_patterns PHENOMENA_REGEX_SIZE
      = some ("^([+-]?)((MI|BL|BC|SH|PR|DR|TS|FZ|DZ|IC|UP|RA|PL|SN|GR|SG|GS|BR|SA|FU|HZ|FG|"
          ++ "VA|PY|DU|SQ|FC|SS|DS|PO|VC)+)$").toList ∧
    phenomena_alternatives = phenomena.map (fun p => p.code) ∧
    phenomena_alternatives.contains [] = false ∧
    (∀ t : List Char, (regexec_phenomena phenomena_alternatives t).isSome = true ↔
      ∃ (sign : List Char) (ps : List phenomenon_t),
        (sign = [] ∨ sign = ['+'] ∨ sign = ['-']) ∧ ps ≠ [] ∧ (∀ p ∈ ps, p ∈ phenomena) ∧
        t = sign ++ (ps.map (fun q => q.code)).flatten) := by
  refine ⟨build_pattern_text, by decide, phenomena_alternatives_eq, alternatives_no_empty, ?_⟩
  intro t
  constructor
  · intro h
    obtain ⟨⟨g1, g2⟩, hg⟩ := Option.isSome_iff_exists.mp h
    obtain ⟨ps, hne, hps, hs, h2, ht⟩ := regexec_phenomena_some hg
    exact ⟨g1, ps, hs, hne, hps, by rw [ht, h2]⟩
  · rintro ⟨sign, ps, hs, hne, hps, rfl⟩
    rw [regexec_phenomena_token sign ps hs hne hps]
    rfl

/-! ## Claim C26 -/

theorem find_station_tried (t : List Char) (m : metar_t) :
    (find_station t m).isSome = true ↔
      m.station.headD NUL = NUL ∧ (re_station t).isSome = true := by
  by_cases hg : m.station.headD NUL = NUL
  · unfold find_station
    rw [if_pos (beq_iff_eq.mpr hg)]
    cases hr : re_station t with
    | none => exact ⟨fun h => absurd h (by simp), fun h => absurd h.2 (by simp)⟩
    | some g => exact ⟨fun _ => ⟨hg, rfl⟩, fun _ => rfl⟩
  · rw [find_station_gate hg]
    exact ⟨fun h => absurd h (by simp), fun h => absurd h.1 hg⟩

theorem find_daytime_tried (t : List Char) (m : metar_t) :
    (find_daytime t m).isSome = true ↔ m.day = 0 ∧ (re_daytime t).isSome = true := by
  unfold find_daytime
  by_cases hg : m.day = 0
  · cases hr : re_daytime t <;> simp [hg]
  · simp [hg]

theorem find_wind_tried (t : List Char) (m : metar_t) :
    (find_wind t m).isSome = true ↔ m.winddir = 0 ∧ (re_wind t).isSome = true := by
  unfold find_wind
  by_cases hg : m.winddir = 0
  · cases hr : re_wind t <;> simp [hg]
  · simp [hg]

theorem find_vis_tried (t : List Char) (m : metar_t) :
    (find_vis t m).isSome = true ↔ m.vis = 0 ∧ (re_vis t).isSome = true := by
  unfold find_vis
  by_cases hg : m.vis = 0
  · cases hr : re_vis t <;> simp [hg]
  · simp [hg]

theorem find_temp_tried (t : List Char) (m : metar_t) :
    (find_temp t m).isSome = true ↔ m.temp = 0 ∧ (re_temp t).isSome = true := by
  unfold find_temp
  by_cases hg : m.temp = 0
  · cases hr : re_temp t <;> simp [hg]
  · simp [hg]

theorem find_qnh_tried (t : List Char) (m : metar_t) :
    (find_qnh t m).isSome = true ↔ m.qnh = 0 ∧ (re_qnh t).isSome = true := by
  unfold find_qnh
  by_cases hg : m.qnh = 0
  · cases hr : re_qnh t <;> simp [hg]
  · simp [hg]

/-- C26. A singular field counts as set exactly when its gate value is nonzero,
and a set field is never changed. For every record state and every token,
`analyse_token` leaves the station unchanged if its first byte is not NUL;
leaves day and time unchanged if day is not 0; leaves wind direction, speed,
gust and unit unchanged if the direction is not 0; leaves the visibility value
and unit unchanged if the visibility is not 0; leaves temperature and dewpoint
unchanged if the temperature is not 0; and leaves the pressure value, unit and
implied decimals unchanged if the pressure is not 0. Each block takes a token
exactly when its gate value is zero and its pattern matches. -/
theorem C26_set_fields_are_frozen (t : List Char) (m : metar_t) :
    (m.station.headD NUL ≠ NUL → (analyse_token t m).station = m.station) ∧
    (m.day ≠ 0 → daytime_fields (analyse_token t m) = daytime_fields m) ∧
    (m.winddir ≠ 0 → wind_fields (analyse_token t m) = wind_fields m) ∧
    (m.vis ≠ 0 → vis_fields (analyse_token t m) = vis_fields m) ∧
    (m.temp ≠ 0 → temp_fields (analyse_token t m) = temp_fields m) ∧
    (m.qnh ≠ 0 → qnh_fields (analyse_token t m) = qnh_fields m) ∧
    ((find_station t m).isSome = true ↔
      m.station.headD NUL = NUL ∧ (re_station t).isSome = true) ∧
    ((find_daytime t m).isSome = true ↔ m.day = 0 ∧ (re_daytime t).isSome = true) ∧
    ((find_wind t m).isSome = true ↔ m.winddir = 0 ∧ (re_wind t).isSome = true) ∧
    ((find_vis t m).isSome = true ↔ m.vis = 0 ∧ (re_vis t).isSome = true) ∧
    ((find_temp t m).isSome = true ↔ m.temp = 0 ∧ (re_temp t).isSome = true) ∧
    ((find_qnh t m).isSome = true ↔ m.qnh = 0 ∧ (re_qnh t).isSome = true) :=
  ⟨fun h => (station_frozen t m h).1, fun h => (daytime_frozen t m h).1,
    fun h => (wind_frozen t m h).1, fun h => (vis_frozen t m h).1,
    fun h => (temp_frozen t m h).1, fun h => (qnh_frozen t m h).1,
    find_station_tried t m, find_daytime_tried t m, find_wind_tried t m, find_vis_tried t m,
    find_temp_tried t m, find_qnh_tried t m⟩

set_option maxRecDepth 100000 in
/-- C26, witness: the wind token `18005KT` on the record left by `KSFO 24015KT`,
whose wind direction is 240. -/
theorem C26_set_fields_are_frozen_witness :
    (run_tokens ["KSFO".toList, "24015KT".toList] metar_cleared).winddir ≠ 0 ∧
    (re_wind "18005KT".toList).isSome = true ∧
    wind_fields (analyse_token "18005KT".toList
        (run_tokens ["KSFO".toList, "24015KT".toList] metar_cleared))
      = wind_fields (run_tokens ["KSFO".toList, "24015KT".toList] metar_cleared) :=
  ⟨by decide, by decide,
    (C26_set_fields_are_frozen "18005KT".toList
      (run_tokens ["KSFO".toList, "24015KT".toList] metar_cleared)).2.2.1 (by decide)⟩

/-! ## Claim C27 -/

theorem re_station_of_upper {t : List Char} (hne : t ≠ []) (hup : ∀ c ∈ t, isUpper c = true) :
    re_station t = some t := by
  unfold re_station
  have h1 : t.isEmpty = false := by cases t <;> simp_all
  have h2 : t.all isUpper = true := List.all_eq_true.mpr hup
  simp [h1, h2]

theorem analyse_token_upper {t : List Char} (m : metar_t) (hne : t ≠ [])
    (hup : ∀ c ∈ t, isUpper c = true) (hgate : m.station.headD NUL = NUL) :
    analyse_token t m = { m with station := t.take 10 ++ m.station.drop (min t.length 10) } := by
  unfold analyse_token
  rw [find_station_result m (re_station_of_upper hne hup) hgate]

set_option maxRecDepth 100000 in
/-- C27. For every token consisting only of uppercase letters that is processed
while the station field is unset, `analyse_token` stores its first 10
characters as the station and changes nothing else. Even when the token is
`SKC`, `CLR`, `NSC` or `NCD`, is `CAVOK`, or is an unsigned sequence of
phenomenon codes such as `RA`, no cloud layer and no phenomenon entry is
appended. -/
theorem C27_uppercase_token_becomes_station (t : List Char) (m : metar_t) (hne : t ≠ [])
    (hup : ∀ c ∈ t, isUpper c = true) (hgate : m.station.headD NUL = NUL) :
    analyse_token t m = { m with station := t.take 10 ++ m.station.drop (min t.length 10) } ∧
    (analyse_token t m).clouds = m.clouds ∧ (analyse_token t m).phenomena = m.phenomena ∧
    (m.station = zeros 10 → cstr (analyse_token t m).station = t.take 10) ∧
    (∀ k ∈ no_cloud_codes, (re_cloud k).isSome = true ∧
      analyse_token k metar_cleared = { metar_cleared with station := k ++ zeros 7 }) ∧
    (strstr "CAVOK".toList "CAVOK".toList = true ∧
      analyse_token "CAVOK".toList metar_cleared
        = { metar_cleared with station := "CAVOK".toList ++ zeros 5 }) ∧
    ((regexec_phenomena phenomena_alternatives "RA".toList).isSome = true ∧
      analyse_token "RA".toList metar_cleared
        = { metar_cleared with station := "RA".toList ++ zeros 8 }) := by
  have h := analyse_token_upper m hne hup hgate
  refine ⟨h, by rw [h], by rw [h], ?_, by decide, by decide, by decide⟩
  intro hz
  rw [h]
  simp only [hz, zeros, List.drop_replicate]
  have hnn : ∀ c ∈ t.take 10, (c != NUL) = true :=
    fun c hc => by simpa using isUpper_ne_NUL (hup c (List.mem_of_mem_take hc))
  exact cstr_append_zeros _ _ hnn

set_option maxRecDepth 100000 in
/-- C27, witness: the token `CAVOK` on the cleared record. -/
theorem C27_uppercase_token_becomes_station_witness :
    "CAVOK".toList ≠ [] ∧ (∀ c ∈ "CAVOK".toList, isUpper c = true) ∧
    metar_cleared.station.headD NUL = NUL ∧
    (analyse_token "CAVOK".toList metar_cleared).phenomena = metar_cleared.phenomena :=
  ⟨by decide, by decide, by decide,
    (C27_uppercase_token_becomes_station "CAVOK".toList metar_cleared (by decide) (by decide)
      (by decide)).2.2.1⟩

/-! ## Claim C29 -/

theorem dollar_unmatched (r : List Char) :
    re_station ('$' :: r) = none ∧ re_daytime ('$' :: r) = none ∧ re_wind ('$' :: r) = none ∧
    re_vis ('$' :: r) = none ∧ re_temp ('$' :: r) = none ∧ re_qnh ('$' :: r) = none ∧
    re_cloud ('$' :: r) = none ∧ regexec_phenomena phenomena_alternatives ('$' :: r) = none := by
  refine ⟨?_, re_daytime_none_of_head _ _ (by decide), ?_, re_vis_none_of_head _ _ (by decide),
    re_temp_none_of_head _ _ (by decide) (by decide),
    re_qnh_none_of_head _ _ (by decide) (by decide), ?_, ?_⟩
  · cases hs : re_station ('$' :: r) with
    | none => rfl
    | some g =>
      have := (re_station_some hs).2.2 '$' (by simp)
      exact absurd this (by decide)
  · cases r with
    | nil => rfl
    | cons y r => exact re_wind_none_of_head _ _ _ (by decide) (Or.inl (by decide))
  · cases hs : re_cloud ('$' :: r) with
    | none => rfl
    | some g =>
      obtain ⟨x, y, r2, ht, hx, -⟩ := cloud_head hs
      have hx2 : x = '$' := by injection ht with h1 _; exact h1.symm
      rw [hx2] at hx
      exact absurd hx (by decide)
  · cases hs : regexec_phenomena phenomena_alternatives ('$' :: r) with
    | none => rfl
    | some g =>
      obtain ⟨g1, g2⟩ := g
      obtain ⟨ps, hne, hps, hsign, h2, ht⟩ := regexec_phenomena_some hs
      exfalso
      rcases hsign with h | h | h
      · rw [h, List.nil_append] at ht
        have hup := body_upper ps hps '$' (by rw [← h2, ← ht]; simp)
        exact absurd hup (by decide)
      · rw [h] at ht
        injection ht with h1 _
        exact absurd h1 (by decide)
      · rw [h] at ht
        injection ht with h1 _
        exact absurd h1 (by decide)

theorem find_phenomena_flag (t : List Char) (m : metar_t) :
    (find_phenomena t m).maintenance_needed
      = if (regexec_phenomena phenomena_alternatives t).isNone && strncmp_eq t "$".toList 1
        then MAINTENANCE_NEEDED else m.maintenance_needed := by
  unfold find_phenomena
  cases regexec_phenomena phenomena_alternatives t <;> cases strstr t "CAVOK".toList <;>
    cases strncmp_eq t "$".toList 1 <;> rfl

theorem strncmp_dollar {t : List Char} (h : strncmp_eq t "$".toList 1 = true) :
    t.head? = some '$' := by
  cases t with
  | nil => exact absurd h (by decide)
  | cons c r =>
    have : c = '$' := by simpa [strncmp_eq] using h
    rw [this]; rfl

theorem analyse_token_flag (t : List Char) (m : metar_t) :
    (analyse_token t m).maintenance_needed = m.maintenance_needed ∨
    ((analyse_token t m).maintenance_needed = MAINTENANCE_NEEDED ∧ t.head? = some '$') := by
  rcases analyse_token_cases t m with h | ⟨-, h⟩ | ⟨-, -, h⟩ | ⟨-, -, -, h⟩ |
    ⟨-, -, -, -, h⟩ | ⟨-, -, -, -, -, h⟩ | ⟨-, -, -, -, -, -, h⟩ | ⟨-, -, -, -, -, -, -, h⟩
  · obtain ⟨-, g, -, hr⟩ := find_station_some h
    left; rw [hr]
  · obtain ⟨-, g1, g2, -, hr⟩ := find_daytime_some h
    left; rw [hr]
  · obtain ⟨-, -, wd, ws, wg, wu, hr⟩ := find_wind_some h
    left; rw [hr]
  · obtain ⟨-, -, v, vu, hr⟩ := find_vis_some h
    left; rw [hr]
  · obtain ⟨-, -, x, y, hr⟩ := find_temp_some h
    left; rw [hr]
  · obtain ⟨-, -, u, fp, q, hr⟩ := find_qnh_some h
    left; rw [hr]
  · obtain ⟨-, cl, hr⟩ := find_cloud_some h
    left; rw [hr]
  · rw [h, find_phenomena_flag]
    cases hre : (regexec_phenomena phenomena_alternatives t).isNone
    · left; rfl
    · cases hs : strncmp_eq t "$".toList 1
      · left; rfl
      · right; exact ⟨rfl, strncmp_dollar hs⟩

theorem analyse_token_dollar_head (r : List Char) (m : metar_t) :
    (analyse_token ('$' :: r) m).maintenance_needed = MAINTENANCE_NEEDED := by
  obtain ⟨h1, h2, h3, h4, h5, h6, h7, h8⟩ := dollar_unmatched r
  rw [analyse_token_of_phenomena (find_station_none m h1) h2 h3 h4 h5 h6 h7,
    find_phenomena_flag, h8]
  rfl

theorem run_tokens_flag (ts : List (List Char)) (m : metar_t) :
    ((run_tokens ts m).maintenance_needed = MAINTENANCE_NEEDED ↔
      m.maintenance_needed = MAINTENANCE_NEEDED ∨ ∃ t ∈ ts, t.head? = some '$') ∧
    ((run_tokens ts m).maintenance_needed = m.maintenance_needed ∨
      (run_tokens ts m).maintenance_needed = MAINTENANCE_NEEDED) := by
  induction ts generalizing m with
  | nil => simp [run_tokens]
  | cons t ts ih =>
    obtain ⟨i1, i2⟩ := ih (analyse_token t m)
    rw [run_tokens_cons]
    constructor
    · rw [i1]
      constructor
      · rintro (h | ⟨x, hx, hd⟩)
        · rcases analyse_token_flag t m with e | ⟨-, e⟩
          · left; rw [← e]; exact h
          · right; exact ⟨t, by simp, e⟩
        · right; exact ⟨x, by simp [hx], hd⟩
      · rintro (h | ⟨x, hx, hd⟩)
        · left; exact maintenance_kept t m h
        · rcases List.mem_cons.mp hx with e | e
          · left
            subst e
            cases x with
            | nil => exact absurd hd (by simp)
            | cons c r =>
              have : c = '$' := by simpa using hd
              subst this
              exact analyse_token_dollar_head r m
          · right; exact ⟨x, e, hd⟩
    · rcases i2 with e | e
      · rcases analyse_token_flag t m with e2 | ⟨e2, -⟩
        · left; rw [e, e2]
        · right; rw [e, e2]
      · right; exact e

set_option maxRecDepth 100000 in
/-- C29. For every report, the maintenance flag of the record returned by
`parse_Metar` is `MAINTENANCE_NEEDED` if and only if some token of the report
(of its text up to the first newline, as split by the decoder) begins with the
character `$`, and is `MAINTENANCE_NOT_NEEDED` otherwise. Only the first
character is compared and no earlier recognizer takes a token that begins
with `$`, so `$ABC` sets the flag as `$` does. -/
theorem C29_maintenance_flag (report : List Char) (init : metar_t) :
    ((parse_Metar report init).maintenance_needed = MAINTENANCE_NEEDED ↔
      ∃ t ∈ tokens (strip_newlines (report.length + 1) report), t.head? = some '$') ∧
    ((¬ ∃ t ∈ tokens (strip_newlines (report.length + 1) report), t.head? = some '$') →
      (parse_Metar report init).maintenance_needed = MAINTENANCE_NOT_NEEDED) ∧
    (('\n' ∉ report) → tokens (strip_newlines (report.length + 1) report) = tokens report) ∧
    (∀ (r : List Char) (m : metar_t),
      (re_station ('$' :: r) = none ∧ re_daytime ('$' :: r) = none ∧
        re_wind ('$' :: r) = none ∧ re_vis ('$' :: r) = none ∧ re_temp ('$' :: r) = none ∧
        re_qnh ('$' :: r) = none ∧ re_cloud ('$' :: r) = none ∧
        regexec_phenomena phenomena_alternatives ('$' :: r) = none) ∧
      (analyse_token ('$' :: r) m).maintenance_needed = MAINTENANCE_NEEDED) ∧
    (parse_Metar "KSFO $ABC".toList init).maintenance_needed = MAINTENANCE_NEEDED ∧
    (parse_Metar "KSFO A$".toList init).maintenance_needed = MAINTENANCE_NOT_NEEDED := by
  obtain ⟨f1, f2⟩ := run_tokens_flag (tokens (strip_newlines (report.length + 1) report))
    metar_cleared
  have hc : metar_cleared.maintenance_needed ≠ MAINTENANCE_NEEDED := by decide
  refine ⟨?_, ?_, fun h => by rw [strip_no_newline report h],
    fun r m => ⟨dollar_unmatched r, analyse_token_dollar_head r m⟩, ?_, ?_⟩
  · rw [parse_Metar_eq, f1]
    exact ⟨fun h => h.resolve_left hc, fun h => Or.inr h⟩
  · intro hno
    rw [parse_Metar_eq]
    rcases f2 with e | e
    · rw [e]; rfl
    · exact absurd (f1.mp e) (fun h => hno (h.resolve_left hc))
  · rw [parse_Metar_eq]; decide
  · rw [parse_Metar_eq]; decide

set_option maxRecDepth 100000 in
/-- C29, witness: the report `KSFO 10SM` has no token that begins with `$`. -/
theorem C29_maintenance_flag_witness :
    (¬ ∃ t ∈ tokens (strip_newlines ("KSFO 10SM".toList.length + 1) "KSFO 10SM".toList),
      t.head? = some '$') ∧
    (parse_Metar "KSFO 10SM".toList metar_cleared).maintenance_needed
      = MAINTENANCE_NOT_NEEDED :=
  ⟨by decide,
    (C29_maintenance_flag "KSFO 10SM".toList metar_cleared).2.1 (by decide)⟩

/-! ## The result depends on the tokens only (claim C21) -/

theorem split_on_cons_exists (sep : Char) (s : List Char) :
    ∃ w ws, split_on sep s = w :: ws := by
  cases s with
  | nil => exact ⟨[], [], rfl⟩
  | cons c cs =>
    unfold split_on
    by_cases h : (c == sep) = true
    · exact ⟨[], _, by rw [if_pos h]⟩
    · rw [if_neg h]
      cases split_on sep cs with
      | nil => exact ⟨_, _, rfl⟩
      | cons w ws => exact ⟨_, _, rfl⟩

theorem split_on_cons_of_ne (sep c : Char) (cs w : List Char) (ws : List (List Char))
    (hc : (c == sep) = false) (hw : split_on sep cs = w :: ws) :
    split_on sep (c :: cs) = (c :: w) :: ws := by
  rw [split_on, hc, hw]
  rfl

theorem split_on_cons_sep (sep : Char) (cs : List Char) :
    split_on sep (sep :: cs) = [] :: split_on sep cs := by
  rw [split_on]
  simp

theorem split_on_takeWhile (s : List Char) :
    split_on ' ' (s.takeWhile (fun c => c != '\n')) = cut_at_newline (split_on ' ' s) := by
  induction s with
  | nil => rfl
  | cons c cs ih =>
    obtain ⟨w, ws, hw⟩ := split_on_cons_exists ' ' cs
    by_cases hn : c = '\n'
    · subst hn
      rw [split_on_cons_of_ne ' ' '\n' cs w ws (by decide) hw]
      simp [cut_at_newline, split_on]
    · have htw : (c :: cs).takeWhile (fun c => c != '\n')
          = c :: cs.takeWhile (fun c => c != '\n') := by
        simp [hn]
      rw [htw]
      by_cases hs : c = ' '
      · subst hs
        rw [split_on_cons_sep, split_on_cons_sep, ih]
        simp [cut_at_newline]
      · have hcs : (c == ' ') = false := by simpa using hs
        rw [split_on_cons_of_ne ' ' c cs w ws hcs hw]
        rw [hw] at ih
        by_cases hc : w.contains '\n' = true
        · have ih2 : split_on ' ' (cs.takeWhile (fun c => c != '\n'))
              = [w.takeWhile (fun c => c != '\n')] := by
            rw [ih, cut_at_newline, if_pos hc]
          rw [split_on_cons_of_ne ' ' c _ _ _ hcs ih2]
          have hc2 : (c :: w).contains '\n' = true := by
            simp only [List.contains_cons, hc, Bool.or_true]
          rw [cut_at_newline, if_pos hc2]
          simp [hn]
        · have ih2 : split_on ' ' (cs.takeWhile (fun c => c != '\n'))
              = w :: cut_at_newline ws := by
            rw [ih, cut_at_newline, if_neg hc]
          rw [split_on_cons_of_ne ' ' c _ _ _ hcs ih2]
          have hc2 : ¬ (c :: w).contains '\n' = true := by
            simp only [List.contains_cons, Bool.or_eq_true, not_or]
            refine ⟨?_, hc⟩
            simpa using fun e => hn e.symm
          rw [cut_at_newline, if_neg hc2]

theorem filter_cut_at_newline (l : List (List Char)) :
    (cut_at_newline l).filter (fun t => !t.isEmpty)
      = (cut_at_newline (l.filter (fun t => !t.isEmpty))).filter (fun t => !t.isEmpty) := by
  induction l with
  | nil => rfl
  | cons w ws ih =>
    cases w with
    | nil =>
      have : cut_at_newline ([] :: ws) = [] :: cut_at_newline ws := by
        rw [cut_at_newline]; simp
      rw [this]
      simpa using ih
    | cons x xs =>
      have hf : (((x :: xs) :: ws).filter (fun t => !t.isEmpty))
          = (x :: xs) :: ws.filter (fun t => !t.isEmpty) := by simp
      rw [hf]
      by_cases hc : (x :: xs).contains '\n' = true
      · rw [cut_at_newline, if_pos hc, cut_at_newline, if_pos hc]
      · rw [cut_at_newline, if_neg hc, cut_at_newline, if_neg hc]
        simp only [List.filter_cons, List.isEmpty_cons, Bool.not_false, if_true]
        rw [ih]

theorem tokens_takeWhile (s : List Char) :
    tokens (s.takeWhile (fun c => c != '\n'))
      = (cut_at_newline (tokens s)).filter (fun t => !t.isEmpty) := by
  unfold tokens
  rw [split_on_takeWhile, filter_cut_at_newline]

theorem tokens_strip_congr {r1 r2 : List Char} (h : tokens r1 = tokens r2) :
    tokens (strip_newlines (r1.length + 1) r1) = tokens (strip_newlines (r2.length + 1) r2) := by
  rw [strip_newlines_eq _ _ (Nat.lt_succ_self _), strip_newlines_eq _ _ (Nat.lt_succ_self _),
    tokens_takeWhile, tokens_takeWhile, h]

theorem split_on_append (a b : List Char) :
    ∃ w ws, split_on ' ' a = w :: ws ∧
      split_on ' ' (a ++ ' ' :: b) = (w :: ws) ++ split_on ' ' b := by
  induction a with
  | nil => exact ⟨[], [], rfl, by rw [List.nil_append, split_on_cons_sep]; rfl⟩
  | cons c cs ih =>
    obtain ⟨w, ws, h1, h2⟩ := ih
    by_cases hs : c = ' '
    · subst hs
      refine ⟨[], w :: ws, by rw [split_on_cons_sep, h1], ?_⟩
      rw [List.cons_append, split_on_cons_sep, h2]
      rfl
    · have hcs : (c == ' ') = false := by simpa using hs
      refine ⟨c :: w, ws, split_on_cons_of_ne ' ' c cs w ws hcs h1, ?_⟩
      rw [List.cons_append]
      exact split_on_cons_of_ne ' ' c _ w (ws ++ split_on ' ' b) hcs h2

theorem tokens_append_space (a b : List Char) :
    tokens (a ++ ' ' :: b) = tokens a ++ tokens b := by
  obtain ⟨w, ws, h1, h2⟩ := split_on_append a b
  unfold tokens
  rw [h2, h1, List.filter_append]

theorem tokens_leading_spaces (k : Nat) (r : List Char) :
    tokens (List.replicate k ' ' ++ r) = tokens r := by
  induction k with
  | zero => rfl
  | succ k ih => rw [List.replicate_succ, List.cons_append, tokens_cons_space, ih]

theorem tokens_trailing_spaces (k : Nat) (r : List Char) :
    tokens (r ++ List.replicate k ' ') = tokens r := by
  cases k with
  | zero => simp
  | succ k =>
    rw [List.replicate_succ, tokens_append_space, tokens_spaces, List.append_nil]

theorem tokens_repeated_spaces (k : Nat) (a b : List Char) :
    tokens (a ++ List.replicate (k + 1) ' ' ++ b) = tokens (a ++ ' ' :: b) := by
  rw [List.replicate_succ, List.append_assoc, List.cons_append, tokens_append_space,
    tokens_leading_spaces, tokens_append_space]

/-- C21. The result of `parse_Metar` depends only on the sequence of non-empty
tokens obtained by splitting the report on spaces: two reports with the same
tokens give the same record, so adding leading, trailing or repeated spaces
between tokens does not change the returned record; the record is the fold of
the recognizer chain over the tokens (those of the text left by the newline
loop) in their original order, starting from the cleared record. -/
theorem C21_result_depends_on_tokens_only (r1 r2 : List Char) (init1 init2 : metar_t)
    (h : tokens r1 = tokens r2) :
    parse_Metar r1 init1 = parse_Metar r2 init2 ∧
    (∀ k : Nat, parse_Metar (List.replicate k ' ' ++ r1) init1 = parse_Metar r1 init1) ∧
    (∀ k : Nat, parse_Metar (r1 ++ List.replicate k ' ') init1 = parse_Metar r1 init1) ∧
    (∀ (k : Nat) (a b : List Char),
      parse_Metar (a ++ List.replicate (k + 1) ' ' ++ b) init1
        = parse_Metar (a ++ ' ' :: b) init1) ∧
    parse_Metar r1 init1
      = (tokens (strip_newlines (r1.length + 1) r1)).foldl (fun acc t => analyse_token t acc)
          metar_cleared := by
  have key : ∀ (x y : List Char) (i j : metar_t), tokens x = tokens y →
      parse_Metar x i = parse_Metar y j := by
    intro x y i j hxy
    rw [parse_Metar_eq, parse_Metar_eq, tokens_strip_congr hxy]
  exact ⟨key _ _ _ _ h, fun k => key _ _ _ _ (tokens_leading_spaces k r1),
    fun k => key _ _ _ _ (tokens_trailing_spaces k r1),
    fun k a b => key _ _ _ _ (tokens_repeated_spaces k a b), parse_Metar_eq r1 init1⟩

set_option maxRecDepth 100000 in
/-- C21, witness: the reports `KSFO 10SM` and `  KSFO   10SM ` have the same
tokens. -/
theorem C21_result_depends_on_tokens_only_witness :
    tokens "KSFO 10SM".toList = tokens "  KSFO   10SM ".toList ∧
    parse_Metar "KSFO 10SM".toList metar_cleared
      = parse_Metar "  KSFO   10SM ".toList metar_cleared :=
  ⟨by decide,
    (C21_result_depends_on_tokens_only "KSFO 10SM".toList "  KSFO   10SM ".toList
      metar_cleared metar_cleared (by decide)).1⟩

/-! ## The layers of the cloud list (claim C30) -/

theorem find_cloud_cover (m : metar_t) (cover md : List Char) (a b c : Char)
    (hcover : cover ∈ cover_codes) (hmd : md = [] ∨ md ∈ modifier_codes)
    (ha : isDigit a = true) (hb : isDigit b = true) (hc : isDigit c = true) :
    ∃ e, lookup_exact cover = some e ∧ e.print_altitude = PRINT_BASE ∧
      find_cloud (cover ++ [a, b, c] ++ md) m = some { m with clouds := m.clouds ++
        [{ amount := e.description, layer_altitude := (decimal [a, b, c] : Int),
           print_altitude := e.print_altitude,
           layer_modifier := if md = [] then []
             else ((decode_cloud_abbreviation md).map (fun e4 => e4.description)).getD [] }] } := by
  have hre := re_cloud_build cover md a b c hcover hmd ha hb hc
  have hdec := decode_cover cover (c :: md) a b hcover
  have htok : cover ++ [a, b, c] ++ md = cover ++ a :: b :: c :: md := by simp
  obtain ⟨hd1, hd2⟩ := hdec
  cases hl : lookup_exact cover with
  | none => rw [hl] at hd2; simp at hd2
  | some e =>
    rw [hl] at hd1 hd2
    simp only [Option.map_some', Option.some.injEq] at hd2
    refine ⟨e, rfl, hd2, ?_⟩
    unfold find_cloud
    rw [hre]
    simp only [List.length_nil, gt_iff_lt, Nat.lt_irrefl, if_false]
    rw [← htok] at hd1
    rw [hd1]
    simp only [altitude_value a b c ha hb hc, add_cloud_eq]
    rcases hmd with h | h
    · subst h
      simp
    · have h4 := decode_modifier md h
      have hne : md ≠ [] := by
        intro hn; rw [hn] at h; exact absurd h (by decide)
      have hlen : md.length > 0 := List.length_pos.mpr hne
      cases hd4 : decode_cloud_abbreviation md with
      | none => rw [hd4] at h4; simp at h4
      | some e4 => simp [hlen, hne]

theorem three_digits {g : List Char} (hl : g.length = 3) (hd : ∀ c ∈ g, isDigit c = true) :
    ∃ a b c, g = [a, b, c] ∧ isDigit a = true ∧ isDigit b = true ∧ isDigit c = true := by
  match g, hl, hd with
  | [a, b, c], _, hd =>
    exact ⟨a, b, c, rfl, hd a (by simp), hd b (by simp), hd c (by simp)⟩

set_option maxRecDepth 100000 in
theorem clouds_of_token_shape (t : List Char) (c : cloud_t) (hc : c ∈ clouds_of_token t) :
    (c.layer_altitude = -1 ∧ c.print_altitude = DONT_PRINT_BASE ∧ c.layer_modifier = [] ∧
      c.amount ∈ (cloud_dict.take 4).map (fun e => e.description)) ∨
    (0 ≤ c.layer_altitude ∧ c.layer_altitude ≤ 999 ∧ c.print_altitude = PRINT_BASE ∧
      c.amount ∈ ((cloud_dict.drop 4).take 5).map (fun e => e.description) ∧
      (c.layer_modifier = [] ∨
        c.layer_modifier ∈ (cloud_dict.drop 9).map (fun e => e.description))) := by
  cases hr : re_cloud t with
  | none => rw [clouds_of_token_nil hr] at hc; simp at hc
  | some g =>
    obtain ⟨g1, g2, g3, g4⟩ := g
    rcases re_cloud_some hr with ⟨hk, -⟩ | ⟨-, hcover, ht, hl, hd, hmd⟩
    · left
      have hall : ∀ k ∈ no_cloud_codes, ∀ x ∈ clouds_of_token k,
          x.layer_altitude = -1 ∧ x.print_altitude = DONT_PRINT_BASE ∧ x.layer_modifier = [] ∧
          x.amount ∈ (cloud_dict.take 4).map (fun e => e.description) := by decide
      exact hall t hk c hc
    · right
      obtain ⟨a, b, d, hg3, ha, hb, hd3⟩ := three_digits hl hd
      subst hg3
      obtain ⟨e, he, hp, hf⟩ := find_cloud_cover metar_cleared g2 g4 a b d hcover hmd ha hb hd3
      have hcl : clouds_of_token t =
          [{ amount := e.description, layer_altitude := (decimal [a, b, d] : Int),
             print_altitude := e.print_altitude,
             layer_modifier := if g4 = [] then []
               else ((decode_cloud_abbreviation g4).map (fun e4 => e4.description)).getD [] }] := by
        unfold clouds_of_token
        rw [ht, hf]
        rfl
      rw [hcl] at hc
      have hceq := List.mem_singleton.mp hc
      subst hceq
      have hb1 := decimal_lt_pow [a, b, d] (by
        intro x hx; simp at hx; rcases hx with rfl | rfl | rfl <;> assumption)
      simp only [List.length_cons, List.length_nil] at hb1
      refine ⟨Int.natCast_nonneg _, by simp only; omega, hp, ?_, ?_⟩
      · have hall : ∀ k ∈ cover_codes,
            ((lookup_exact k).map (fun e => e.description)).getD []
              ∈ ((cloud_dict.drop 4).take 5).map (fun e => e.description) := by decide
        have h2 := hall g2 hcover
        rw [he] at h2
        exact h2
      · rcases hmd with h | h
        · left; simp [h]
        · right
          have hall : ∀ k ∈ modifier_codes,
              (if k = [] then []
                else ((decode_cloud_abbreviation k).map (fun e4 => e4.description)).getD [])
                ∈ (cloud_dict.drop 9).map (fun e => e.description) := by decide
          exact hall g4 h

theorem analyse_token_clouds (t : List Char) (m : metar_t) :
    (analyse_token t m).clouds = m.clouds ∨
    (analyse_token t m).clouds = m.clouds ++ clouds_of_token t := by
  rcases analyse_token_cases t m with h | ⟨-, h⟩ | ⟨-, -, h⟩ | ⟨-, -, -, h⟩ |
    ⟨-, -, -, -, h⟩ | ⟨-, -, -, -, -, h⟩ | ⟨-, -, -, -, -, -, h⟩ | ⟨-, -, -, -, -, -, -, h⟩
  · obtain ⟨-, g, -, hr⟩ := find_station_some h
    left; rw [hr]
  · obtain ⟨-, g1, g2, -, hr⟩ := find_daytime_some h
    left; rw [hr]
  · obtain ⟨-, -, wd, ws, wg, wu, hr⟩ := find_wind_some h
    left; rw [hr]
  · obtain ⟨-, -, v, vu, hr⟩ := find_vis_some h
    left; rw [hr]
  · obtain ⟨-, -, x, y, hr⟩ := find_temp_some h
    left; rw [hr]
  · obtain ⟨-, -, u, fp, q, hr⟩ := find_qnh_some h
    left; rw [hr]
  · right; rw [find_cloud_clouds h]
  · obtain ⟨ph, mn, hs⟩ := find_phenomena_shape t m
    left; rw [h, hs]

theorem run_tokens_clouds_mem (ts : List (List Char)) (m : metar_t) (c : cloud_t)
    (hc : c ∈ (run_tokens ts m).clouds) : c ∈ m.clouds ∨ ∃ t ∈ ts, c ∈ clouds_of_token t := by
  induction ts generalizing m with
  | nil => left; exact hc
  | cons t ts ih =>
    rw [run_tokens_cons] at hc
    rcases ih _ hc with h | ⟨x, hx, h⟩
    · rcases analyse_token_clouds t m with e | e
      · left; rw [← e]; exact h
      · rw [e] at h
        rcases List.mem_append.mp h with h1 | h1
        · left; exact h1
        · right; exact ⟨t, by simp, h1⟩
    · right; exact ⟨x, by simp [hx], h⟩

set_option maxRecDepth 100000 in
/-- C30. For every report, every layer in the cloud list returned by
`parse_Metar` is of one of two shapes: either altitude -1, altitude-display
flag hide (`DONT_PRINT_BASE`), empty modifier and amount one of the four
no-cloud descriptions (SKC, CLR, NSC, NCD); or altitude between 0 and 999,
flag show (`PRINT_BASE`), amount one of the five cover descriptions (FEW, SCT,
BKN, OVC, VV) and modifier empty or the description of a modifier entry.
Hence the flag is never not-applicable, and the flag is show exactly when the
altitude is not -1. -/
theorem C30_cloud_layer_shapes (report : List Char) (init : metar_t) (c : cloud_t)
    (hc : c ∈ (parse_Metar report init).clouds) :
    ((c.layer_altitude = -1 ∧ c.print_altitude = DONT_PRINT_BASE ∧ c.layer_modifier = [] ∧
        c.amount ∈ ["Sky Clear (no clouds within sensors range)".toList,
          "Sky Clear Below 12000ft".toList,
          "No Significant Clouds below 5000ft/1500m AGL".toList,
          "No Clouds Detected below 5000ft/1500m AGL".toList]) ∨
      (0 ≤ c.layer_altitude ∧ c.layer_altitude ≤ 999 ∧ c.print_altitude = PRINT_BASE ∧
        c.amount ∈ ["Few clouds".toList, "Scattered clouds".toList, "Broken clouds".toList,
          "Overcast".toList, "Vertical Visibility".toList] ∧
        (c.layer_modifier = [] ∨
          c.layer_modifier ∈ (cloud_dict.drop 9).map (fun e => e.description)))) ∧
    c.print_altitude ≠ NOT_APPLICABLE ∧
    (c.print_altitude = PRINT_BASE ↔ c.layer_altitude ≠ -1) ∧
    (cloud_dict.drop 9).map (fun e => e.abbreviation) = modifier_codes := by
  rw [parse_Metar_eq] at hc
  have hmem : ∃ t, c ∈ clouds_of_token t := by
    rcases run_tokens_clouds_mem _ _ c hc with h | ⟨t, -, h⟩
    · exact absurd h (by simp [metar_cleared])
    · exact ⟨t, h⟩
  obtain ⟨t, ht⟩ := hmem
  have h4 : (cloud_dict.take 4).map (fun e => e.description)
      = ["Sky Clear (no clouds within sensors range)".toList,
          "Sky Clear Below 12000ft".toList,
          "No Significant Clouds below 5000ft/1500m AGL".toList,
          "No Clouds Detected below 5000ft/1500m AGL".toList] := by decide
  have h5 : ((cloud_dict.drop 4).take 5).map (fun e => e.description)
      = ["Few clouds".toList, "Scattered clouds".toList, "Broken clouds".toList,
          "Overcast".toList, "Vertical Visibility".toList] := by decide
  have hs := clouds_of_token_shape t c ht
  rw [h4, h5] at hs
  refine ⟨hs, ?_, ?_, by decide⟩
  · rcases hs with ⟨-, h, -⟩ | ⟨-, -, h, -⟩ <;> rw [h] <;> decide
  · rcases hs with ⟨ha, h, -⟩ | ⟨ha, -, h, -⟩
    · rw [h, ha]; decide
    · rw [h]
      constructor
      · intro _ hneg
        rw [hneg] at ha
        exact absurd ha (by decide)
      · intro _; rfl

set_option maxRecDepth 100000 in
/-- C30, witness: the layer of `BKN035CB` in the report `KSFO SKC BKN035CB`. -/
theorem C30_cloud_layer_shapes_witness :
    ({ amount := "Broken clouds".toList, layer_altitude := 35, print_altitude := PRINT_BASE,
       layer_modifier := ", Cumulonimbus clouds in vicinity".toList } : cloud_t)
      ∈ (parse_Metar "KSFO SKC BKN035CB".toList metar_cleared).clouds ∧
    (parse_Metar "KSFO SKC BKN035CB".toList metar_cleared).clouds.length = 2 ∧
    (PRINT_BASE = PRINT_BASE ↔ (35 : Int) ≠ -1) :=
  ⟨by rw [parse_Metar_eq]; decide, by rw [parse_Metar_eq]; decide,
    (C30_cloud_layer_shapes "KSFO SKC BKN035CB".toList metar_cleared
      { amount := "Broken clouds".toList, layer_altitude := 35, print_altitude := PRINT_BASE,
        layer_modifier := ", Cumulonimbus clouds in vicinity".toList }
      (by rw [parse_Metar_eq]; decide)).2.2.1⟩

/-! ## The dictionary lookups made for a token (claim C24) -/

theorem decode_groups_lookups (s str : List Char) :
    decode_groups s str
      = (phenomena_lookups s).foldl
          (fun acc r => strncat acc (r.getD []) (PHENOMENON_STR_SIZE - acc.length)) str := by
  match s with
  | [] => rfl
  | [c] => rfl
  | c1 :: c2 :: rest =>
    rw [decode_groups, phenomena_lookups, List.foldl_cons]
    exact decode_groups_lookups rest _

set_option maxRecDepth 100000 in
theorem cloud_lookups_found (t : List Char) : ∀ r ∈ cloud_lookups t, r.isSome = true := by
  intro r hr
  unfold cloud_lookups at hr
  cases hc : re_cloud t with
  | none => rw [hc] at hr; simp at hr
  | some g =>
    obtain ⟨g1, g2, g3, g4⟩ := g
    rw [hc] at hr
    rcases re_cloud_some hc with ⟨hk, h1, -⟩ | ⟨h1, hcover, ht, hl, hd, hmd⟩
    · have hall : ∀ k ∈ no_cloud_codes,
          k.length > 0 ∧ (decode_cloud_abbreviation k).isSome = true := by decide
      obtain ⟨hpos, hsome⟩ := hall t hk
      rw [h1] at hr
      simp only [hpos, if_true, List.mem_singleton] at hr
      rw [hr]; exact hsome
    · obtain ⟨a, b, d, hg3, ha, hb, hd3⟩ := three_digits hl hd
      subst hg3
      subst h1
      have htok : t = g2 ++ a :: b :: (d :: g4) := by rw [ht]; simp
      obtain ⟨hd1, hd2⟩ := decode_cover g2 (d :: g4) a b hcover
      have hfirst : (decode_cloud_abbreviation t).isSome = true := by
        rw [htok, hd1]
        cases hl2 : lookup_exact g2 with
        | none => rw [hl2] at hd2; simp at hd2
        | some e => rfl
      simp only [List.length_nil, gt_iff_lt, Nat.lt_irrefl, if_false, List.mem_cons] at hr
      rcases hr with hr | hr
      · rw [hr]; exact hfirst
      · rcases hmd with h | h
        · subst h; simp at hr
        · have hne : g4 ≠ [] := by
            intro hn; rw [hn] at h; exact absurd h (by decide)
          have hlen : 0 < g4.length := List.length_pos.mpr hne
          simp only [hlen, if_true, List.mem_singleton, List.not_mem_nil, or_false] at hr
          rw [hr]; exact decode_modifier g4 h

theorem phenomena_lookups_codes (ps : List phenomenon_t) (hps : ∀ p ∈ ps, p ∈ phenomena) :
    phenomena_lookups ((ps.map (fun q => q.code)).flatten)
      = ps.map (fun q => some q.description) := by
  induction ps with
  | nil => rfl
  | cons p ps ih =>
    have hp := hps p (by simp)
    obtain ⟨x, y, hc, -⟩ := code_shape hp
    obtain ⟨-, -, hdec, -⟩ := phenomena_facts p hp
    rw [codes_cons, hc]
    rw [hc] at hdec
    rw [List.map_cons, ← ih (fun q hq => hps q (by simp [hq]))]
    show phenomena_lookups (x :: y :: _) = _
    rw [phenomena_lookups, hdec]
    rfl

theorem codes_no_NUL (ps : List phenomenon_t) (hps : ∀ p ∈ ps, p ∈ phenomena) :
    ∀ c ∈ (ps.map (fun q => q.code)).flatten, (c != NUL) = true := by
  intro c hc
  simpa using isUpper_ne_NUL (body_upper ps hps c hc)

set_option maxRecDepth 1000000 in
/-- C24, with the failing input. No lookup of the cloud block misses: for every
token matching the cloud pattern each `decode_cloud_abbreviation` call made
for it returns an entry. For every token matching the phenomenon pattern,
`decode_phenomena` returns a description for each 2-character chunk of the
code group, and the loop of `analyse_token`, which walks the copy of the code
group in the 99-byte buffer `tmp`, gets a description at every step when the
code group has fewer than 99 characters. For `+` followed by 50 times `RA` the
copy holds 99 characters and no terminator: the 50th step looks up the single
letter `R` followed by the byte behind the buffer and gets NULL. -/
theorem C24_lookup_misses :
    (∀ t : List Char, ∀ r ∈ cloud_lookups t, r.isSome = true) ∧
    (∀ t g1 g2 : List Char, regexec_phenomena phenomena_alternatives t = some (g1, g2) →
      (∀ r ∈ phenomena_lookups g2, r.isSome = true) ∧
      (g2.length < TMP_SIZE → ∀ r ∈ phenomena_lookups (tmp_of g2), r.isSome = true)) ∧
    (∀ s str : List Char, decode_groups s str
      = (phenomena_lookups s).foldl
          (fun acc r => strncat acc (r.getD []) (PHENOMENON_STR_SIZE - acc.length)) str) ∧
    (regexec_phenomena phenomena_alternatives ('+' :: (List.replicate 50 "RA".toList).flatten)
        = some (['+'], (List.replicate 50 "RA".toList).flatten) ∧
      ((List.replicate 50 "RA".toList).flatten).length = 100 ∧
      tmp_of ((List.replicate 50 "RA".toList).flatten)
        = (List.replicate 49 "RA".toList).flatten ++ ['R'] ∧
      phenomena_lookups (tmp_of ((List.replicate 50 "RA".toList).flatten))
        = List.replicate 49 (some "Rain ".toList) ++ [none] ∧
      (∀ m : metar_t,
        analyse_token ('+' :: (List.replicate 50 "RA".toList).flatten) m
          = find_phenomena ('+' :: (List.replicate 50 "RA".toList).flatten) m)) := by
  refine ⟨cloud_lookups_found, ?_, decode_groups_lookups, ?_, by decide, by decide, by decide, ?_⟩
  · intro t g1 g2 h
    obtain ⟨ps, -, hps, -, h2, -⟩ := regexec_phenomena_some h
    have hall : ∀ r ∈ phenomena_lookups g2, r.isSome = true := by
      intro r hr
      rw [h2, phenomena_lookups_codes ps hps] at hr
      obtain ⟨q, -, hq⟩ := List.mem_map.mp hr
      rw [← hq]; rfl
    refine ⟨hall, fun hlen => ?_⟩
    have : tmp_of g2 = g2 := by
      rw [h2, tmp_of_eq _ (codes_no_NUL ps hps), List.take_of_length_le (by rw [← h2]; omega)]
    rw [this]
    exact hall
  · have h := regexec_phenomena_token ['+'] (List.replicate 50 ⟨"RA".toList, "Rain ".toList⟩)
      (Or.inr (Or.inl rfl)) (by decide) (by decide)
    exact h
  · intro m
    exact analyse_token_of_phenomena (find_station_none m (by decide)) (by decide) (by decide)
      (by decide) (by decide) (by decide) (by decide)

set_option maxRecDepth 100000 in
/-- C24, witness: the tokens `BKN035CB` and `-SHRA`. -/
theorem C24_lookup_misses_witness :
    cloud_lookups "BKN035CB".toList
      = [some ⟨"BKN".toList, "Broken clouds".toList, PRINT_BASE⟩,
         some ⟨"CB".toList, ", Cumulonimbus clouds in vicinity".toList, NOT_APPLICABLE⟩] ∧
    regexec_phenomena phenomena_alternatives "-SHRA".toList
      = some (['-'], "SHRA".toList) ∧
    "SHRA".toList.length < TMP_SIZE ∧
    (∀ r ∈ phenomena_lookups (tmp_of "SHRA".toList), r.isSome = true) :=
  ⟨by decide, by decide, by decide,
    (C24_lookup_misses.2.1 "-SHRA".toList ['-'] "SHRA".toList (by decide)).2 (by decide)⟩

/-! ## The patterns behind the station pattern exclude one another (claim C31) -/

theorem find_phenomena_split {t : List Char} (m : metar_t)
    (h : regexec_phenomena phenomena_alternatives t = none) :
    find_phenomena t m = maintenance_step t (cavok_step t m) := by
  unfold find_phenomena maintenance_step cavok_step
  rw [h]

theorem analyse_token_source_order (t : List Char) (m : metar_t) :
    analyse_token t m = analyse_token_in_order source_order t m := by
  unfold analyse_token analyse_token_in_order source_order
  cases find_station t m with
  | some r => rfl
  | none =>
    simp only [run_order, block]
    cases find_daytime t m with
    | some r => rfl
    | none =>
    cases find_wind t m with
    | some r => rfl
    | none =>
    cases find_vis t m with
    | some r => rfl
    | none =>
    cases find_temp t m with
    | some r => rfl
    | none =>
    cases find_qnh t m with
    | some r => rfl
    | none =>
    cases find_cloud t m with
    | some r => rfl
    | none =>
    cases hr : regexec_phenomena phenomena_alternatives t with
    | some g => rfl
    | none => simp [find_phenomena_split m hr]

theorem isSome_none_absurd {α : Type} {o : Option α} (h1 : o.isSome = true) (h2 : o = none) :
    False := by
  rw [h2] at h1
  exact absurd h1 (by simp)

theorem phenomena_excl_singular {t : List Char}
    (h : (regexec_phenomena phenomena_alternatives t).isSome = true) :
    re_daytime t = none ∧ re_wind t = none ∧ re_vis t = none ∧ re_temp t = none ∧
      re_qnh t = none := by
  obtain ⟨⟨g1, g2⟩, hg⟩ := Option.isSome_iff_exists.mp h
  obtain ⟨ps, -, hps, hsign, h2, ht⟩ := regexec_phenomena_some hg
  rw [ht, h2]
  exact no_digit_nones (token_no_digit g1 ps hsign hps)

theorem cavok_no_match {t : List Char} (h : strstr t "CAVOK".toList = true) (r : recognizer) :
    pattern_matches r t = false := by
  obtain ⟨h1, h2, h3, h4, h5⟩ := cavok_excl_singular h
  have h6 := cavok_excl_cloud h
  have h7 := regexec_none_of_cavok h
  cases r <;> simp only [pattern_matches] <;>
    first
      | rw [h1]; rfl
      | rw [h2]; rfl
      | rw [h3]; rfl
      | rw [h4]; rfl
      | rw [h5]; rfl
      | rw [h6]; rfl
      | rw [h7]; rfl

theorem pattern_excl (t : List Char) (r1 r2 : recognizer)
    (h1 : pattern_matches r1 t = true) (h2 : pattern_matches r2 t = true) : r1 = r2 := by
  have f_daytime_wind : (re_daytime t).isSome = true → (re_wind t).isSome = true → False := by
    intro h1 h2
    obtain ⟨g, hg⟩ := Option.isSome_iff_exists.mp h1
    exact isSome_none_absurd h2 (daytime_excl_wind hg)
  have f_daytime_vis : (re_daytime t).isSome = true → (re_vis t).isSome = true → False := by
    intro h1 h2
    obtain ⟨g, hg⟩ := Option.isSome_iff_exists.mp h1
    exact isSome_none_absurd h2 (daytime_excl_vis hg)
  have f_daytime_temp : (re_daytime t).isSome = true → (re_temp t).isSome = true → False := by
    intro h1 h2
    obtain ⟨g, hg⟩ := Option.isSome_iff_exists.mp h1
    exact isSome_none_absurd h2 (daytime_excl_temp hg)
  have f_daytime_qnh : (re_daytime t).isSome = true → (re_qnh t).isSome = true → False := by
    intro h1 h2
    obtain ⟨g, hg⟩ := Option.isSome_iff_exists.mp h1
    exact isSome_none_absurd h2 (daytime_excl_qnh hg)
  have f_wind_vis : (re_wind t).isSome = true → (re_vis t).isSome = true → False := by
    intro h1 h2
    obtain ⟨g, hg⟩ := Option.isSome_iff_exists.mp h1
    exact isSome_none_absurd h2 (wind_excl_vis hg)
  have f_wind_temp : (re_wind t).isSome = true → (re_temp t).isSome = true → False := by
    intro h1 h2
    obtain ⟨g, hg⟩ := Option.isSome_iff_exists.mp h1
    exact isSome_none_absurd h2 (wind_excl_temp hg)
  have f_wind_qnh : (re_wind t).isSome = true → (re_qnh t).isSome = true → False := by
    intro h1 h2
    obtain ⟨g, hg⟩ := Option.isSome_iff_exists.mp h1
    exact isSome_none_absurd h2 (wind_excl_qnh hg)
  have f_vis_temp : (re_vis t).isSome = true → (re_temp t).isSome = true → False := by
    intro h1 h2
    obtain ⟨g, hg⟩ := Option.isSome_iff_exists.mp h1
    exact isSome_none_absurd h2 (vis_excl_temp hg)
  have f_vis_qnh : (re_vis t).isSome = true → (re_qnh t).isSome = true → False := by
    intro h1 h2
    obtain ⟨g, hg⟩ := Option.isSome_iff_exists.mp h1
    exact isSome_none_absurd h2 (vis_excl_qnh hg)
  have f_temp_qnh : (re_temp t).isSome = true → (re_qnh t).isSome = true → False := by
    intro h1 h2
    obtain ⟨g, hg⟩ := Option.isSome_iff_exists.mp h1
    exact isSome_none_absurd h2 (temp_excl_qnh hg)
  have f_cloud_daytime : (re_cloud t).isSome = true → (re_daytime t).isSome = true → False := by
    intro h1 h2
    obtain ⟨g, hg⟩ := Option.isSome_iff_exists.mp h1
    exact isSome_none_absurd h2 (cloud_excl_singular hg).1
  have f_cloud_wind : (re_cloud t).isSome = true → (re_wind t).isSome = true → False := by
    intro h1 h2
    obtain ⟨g, hg⟩ := Option.isSome_iff_exists.mp h1
    exact isSome_none_absurd h2 (cloud_excl_singular hg).2.1
  have f_cloud_vis : (re_cloud t).isSome = true → (re_vis t).isSome = true → False := by
    intro h1 h2
    obtain ⟨g, hg⟩ := Option.isSome_iff_exists.mp h1
    exact isSome_none_absurd h2 (cloud_excl_singular hg).2.2.1
  have f_cloud_temp : (re_cloud t).isSome = true → (re_temp t).isSome = true → False := by
    intro h1 h2
    obtain ⟨g, hg⟩ := Option.isSome_iff_exists.mp h1
    exact isSome_none_absurd h2 (cloud_excl_singular hg).2.2.2.1
  have f_cloud_qnh : (re_cloud t).isSome = true → (re_qnh t).isSome = true → False := by
    intro h1 h2
    obtain ⟨g, hg⟩ := Option.isSome_iff_exists.mp h1
    exact isSome_none_absurd h2 (cloud_excl_singular hg).2.2.2.2
  have f_phenomena_daytime : (regexec_phenomena phenomena_alternatives t).isSome = true → (re_daytime t).isSome = true → False :=
    fun h1 h2 => isSome_none_absurd h2 (phenomena_excl_singular h1).1
  have f_phenomena_wind : (regexec_phenomena phenomena_alternatives t).isSome = true → (re_wind t).isSome = true → False :=
    fun h1 h2 => isSome_none_absurd h2 (phenomena_excl_singular h1).2.1
  have f_phenomena_vis : (regexec_phenomena phenomena_alternatives t).isSome = true → (re_vis t).isSome = true → False :=
    fun h1 h2 => isSome_none_absurd h2 (phenomena_excl_singular h1).2.2.1
  have f_phenomena_temp : (regexec_phenomena phenomena_alternatives t).isSome = true → (re_temp t).isSome = true → False :=
    fun h1 h2 => isSome_none_absurd h2 (phenomena_excl_singular h1).2.2.2.1
  have f_phenomena_qnh : (regexec_phenomena phenomena_alternatives t).isSome = true → (re_qnh t).isSome = true → False :=
    fun h1 h2 => isSome_none_absurd h2 (phenomena_excl_singular h1).2.2.2.2
  have f_cloud_phenomena : (re_cloud t).isSome = true → (regexec_phenomena phenomena_alternatives t).isSome = true → False := by
    intro h1 h2
    obtain ⟨g, hg⟩ := Option.isSome_iff_exists.mp h1
    exact isSome_none_absurd h2 (cloud_excl_phenomena hg)
  cases r1 <;> cases r2 <;> simp only [pattern_matches] at h1 h2 <;>
    first
      | rfl
      | exact (f_daytime_wind h1 h2).elim
      | exact (f_daytime_wind h2 h1).elim
      | exact (f_daytime_vis h1 h2).elim
      | exact (f_daytime_vis h2 h1).elim
      | exact (f_daytime_temp h1 h2).elim
      | exact (f_daytime_temp h2 h1).elim
      | exact (f_daytime_qnh h1 h2).elim
      | exact (f_daytime_qnh h2 h1).elim
      | exact (f_wind_vis h1 h2).elim
      | exact (f_wind_vis h2 h1).elim
      | exact (f_wind_temp h1 h2).elim
      | exact (f_wind_temp h2 h1).elim
      | exact (f_wind_qnh h1 h2).elim
      | exact (f_wind_qnh h2 h1).elim
      | exact (f_vis_temp h1 h2).elim
      | exact (f_vis_temp h2 h1).elim
      | exact (f_vis_qnh h1 h2).elim
      | exact (f_vis_qnh h2 h1).elim
      | exact (f_temp_qnh h1 h2).elim
      | exact (f_temp_qnh h2 h1).elim
      | exact (f_cloud_daytime h1 h2).elim
      | exact (f_cloud_daytime h2 h1).elim
      | exact (f_cloud_wind h1 h2).elim
      | exact (f_cloud_wind h2 h1).elim
      | exact (f_cloud_vis h1 h2).elim
      | exact (f_cloud_vis h2 h1).elim
      | exact (f_cloud_temp h1 h2).elim
      | exact (f_cloud_temp h2 h1).elim
      | exact (f_cloud_qnh h1 h2).elim
      | exact (f_cloud_qnh h2 h1).elim
      | exact (f_phenomena_daytime h1 h2).elim
      | exact (f_phenomena_daytime h2 h1).elim
      | exact (f_phenomena_wind h1 h2).elim
      | exact (f_phenomena_wind h2 h1).elim
      | exact (f_phenomena_vis h1 h2).elim
      | exact (f_phenomena_vis h2 h1).elim
      | exact (f_phenomena_temp h1 h2).elim
      | exact (f_phenomena_temp h2 h1).elim
      | exact (f_phenomena_qnh h1 h2).elim
      | exact (f_phenomena_qnh h2 h1).elim
      | exact (f_cloud_phenomena h1 h2).elim
      | exact (f_cloud_phenomena h2 h1).elim

theorem block_inert (r : recognizer) (t : List Char) (h : pattern_matches r t = false)
    (hc : r = recognizer.phenomena → strstr t "CAVOK".toList = false) (m : metar_t) :
    block r t m = (m, false) := by
  have hn : ∀ {α : Type} {o : Option α}, o.isSome = false → o = none := by
    intro α o ho
    cases o with
    | none => rfl
    | some x => exact absurd ho (by simp)
  cases r <;> simp only [pattern_matches] at h <;> simp only [block]
  · rw [find_daytime_none m (hn h)]
  · rw [find_wind_none m (hn h)]
  · rw [find_vis_none m (hn h)]
  · rw [find_temp_none m (hn h)]
  · rw [find_qnh_none m (hn h)]
  · rw [find_cloud_none m (hn h)]
  · rw [h, cavok_step, hc rfl]
    rfl

theorem exists_active (t : List Char) :
    ∃ b : recognizer, ∀ r, r ≠ b → ∀ m, block r t m = (m, false) := by
  by_cases hex : ∃ r, pattern_matches r t = true
  · obtain ⟨b, hb⟩ := hex
    refine ⟨b, fun r hne m => block_inert r t ?_ ?_ m⟩
    · cases hr : pattern_matches r t with
      | false => rfl
      | true => exact absurd (pattern_excl t r b hr hb) hne
    · intro _
      cases hs : strstr t "CAVOK".toList with
      | false => rfl
      | true =>
        rw [cavok_no_match hs b] at hb
        exact absurd hb (by decide)
  · refine ⟨recognizer.phenomena, fun r hne m => block_inert r t ?_ (fun e => absurd e hne) m⟩
    cases hr : pattern_matches r t with
    | false => rfl
    | true => exact absurd ⟨r, hr⟩ hex

theorem run_order_inert (rs : List recognizer) (t : List Char) (m : metar_t)
    (h : ∀ r ∈ rs, ∀ m, block r t m = (m, false)) : run_order rs t m = maintenance_step t m := by
  induction rs with
  | nil => rfl
  | cons r rs ih =>
    rw [run_order, h r (by simp) m]
    exact ih (fun x hx => h x (by simp [hx]))

theorem run_order_single (order : List recognizer) (b : recognizer) (t : List Char)
    (m : metar_t) (hb : b ∈ order) (hnd : order.Nodup)
    (hin : ∀ r, r ≠ b → ∀ m, block r t m = (m, false)) :
    run_order order t m
      = if (block b t m).2 then (block b t m).1 else maintenance_step t (block b t m).1 := by
  induction order with
  | nil => exact absurd hb (by simp)
  | cons r rs ih =>
    obtain ⟨hnot, hnd2⟩ := List.nodup_cons.mp hnd
    by_cases hrb : r = b
    · subst hrb
      rw [run_order, run_order_inert rs t _ (fun x hx => hin x (fun e => hnot (e ▸ hx)))]
    · have hb2 : b ∈ rs := by
        rcases List.mem_cons.mp hb with e | e
        · exact absurd e.symm hrb
        · exact e
      rw [run_order, hin r hrb m]
      exact ih hb2 hnd2

theorem run_order_perm (order : List recognizer) (hp : order.Perm source_order)
    (t : List Char) (m : metar_t) : run_order order t m = run_order source_order t m := by
  obtain ⟨b, hin⟩ := exists_active t
  have hs : b ∈ source_order := by cases b <;> decide
  rw [run_order_single order b t m (hp.mem_iff.mpr hs) (hp.nodup_iff.mpr (by decide)) hin,
    run_order_single source_order b t m hs (by decide) hin]

theorem codes_ne_nil (ps : List phenomenon_t) (hne : ps ≠ []) (hps : ∀ p ∈ ps, p ∈ phenomena) :
    (ps.map (fun q => q.code)).flatten ≠ [] := by
  cases ps with
  | nil => exact absurd rfl hne
  | cons p ps =>
    obtain ⟨x, y, hc, -⟩ := code_shape (hps p (by simp))
    rw [codes_cons, hc]
    simp

set_option maxRecDepth 100000 in
/-- C31. The patterns of the day/time, wind, visibility, temperature/dewpoint,
pressure, cloud-layer and phenomenon recognizers are pairwise disjoint: no
token matches two of them. Hence the order of these recognizer blocks never
affects the result: with the blocks behind the station block taken in any
order, `analyse_token` returns the same record. Only the station pattern (all
uppercase letters) overlaps others: a token matching it and one of the seven
is a no-cloud code (`SKC`, `CLR`, `NSC`, `NCD`) or an unsigned sequence of
phenomenon codes, and all of these do match the station pattern; the place
of the station block matters, as `SKC` on the cleared record shows. -/
theorem C31_patterns_are_pairwise_disjoint (t : List Char) :
    (∀ r1 r2 : recognizer,
      pattern_matches r1 t = true → pattern_matches r2 t = true → r1 = r2) ∧
    (∀ (order : List recognizer) (m : metar_t), order.Perm source_order →
      analyse_token_in_order order t m = analyse_token t m) ∧
    ((re_station t).isSome = true → ∀ r : recognizer, pattern_matches r t = true →
      (r = recognizer.cloud ∧ t ∈ no_cloud_codes) ∨
      (r = recognizer.phenomena ∧ ∃ ps : List phenomenon_t, ps ≠ [] ∧
        (∀ p ∈ ps, p ∈ phenomena) ∧ t = (ps.map (fun q => q.code)).flatten)) ∧
    (∀ k ∈ no_cloud_codes,
      (re_station k).isSome = true ∧ pattern_matches recognizer.cloud k = true) ∧
    (∀ ps : List phenomenon_t, ps ≠ [] → (∀ p ∈ ps, p ∈ phenomena) →
      (re_station ((ps.map (fun q => q.code)).flatten)).isSome = true ∧
      pattern_matches recognizer.phenomena ((ps.map (fun q => q.code)).flatten) = true) ∧
    run_order source_order "SKC".toList metar_cleared
      ≠ analyse_token "SKC".toList metar_cleared := by
  refine ⟨pattern_excl t, ?_, ?_, by decide, ?_, by decide⟩
  · intro order m hp
    rw [analyse_token_source_order]
    unfold analyse_token_in_order
    rw [run_order_perm order hp]
  · intro hst r hr
    obtain ⟨g, hg⟩ := Option.isSome_iff_exists.mp hst
    have e1 := station_excl_daytime hg
    have e2 := station_excl_wind hg
    have e3 := station_excl_vis hg
    have e4 := station_excl_temp hg
    have e5 := station_excl_qnh hg
    cases r <;> simp only [pattern_matches] at hr
    · exact (isSome_none_absurd hr e1).elim
    · exact (isSome_none_absurd hr e2).elim
    · exact (isSome_none_absurd hr e3).elim
    · exact (isSome_none_absurd hr e4).elim
    · exact (isSome_none_absurd hr e5).elim
    · left
      obtain ⟨gc, hgc⟩ := Option.isSome_iff_exists.mp hr
      rcases re_cloud_some_cases hgc with h | h
      · exact ⟨rfl, h⟩
      · rw [re_station_none_of_digit h] at hg
        exact absurd hg (by simp)
    · right
      obtain ⟨⟨g1, g2⟩, hgp⟩ := Option.isSome_iff_exists.mp hr
      obtain ⟨ps, hne, hps, hsign, h2, ht⟩ := regexec_phenomena_some hgp
      refine ⟨rfl, ps, hne, hps, ?_⟩
      have hup := (re_station_some hg).2.2
      rcases hsign with h | h | h
      · rw [ht, h, h2]; rfl
      · have := hup '+' (by rw [ht, h]; simp)
        exact absurd this (by decide)
      · have := hup '-' (by rw [ht, h]; simp)
        exact absurd this (by decide)
  · intro ps hne hps
    constructor
    · rw [re_station_of_upper (codes_ne_nil ps hne hps) (body_upper ps hps)]
      rfl
    · have h := regexec_phenomena_token [] ps (Or.inl rfl) hne hps
      rw [List.nil_append] at h
      simp only [pattern_matches]
      rw [h]
      rfl

end Metar
